import Mathlib

/-!
# SaneAudioRenderer: sample chunks and format conversion

A shallow embedding of `DspFormat.h` and `DspChunk.cpp`.

* Integer samples are mathematical integers; every C++ integer operation that can leave the
  range of its type is followed by an explicit two's-complement reduction (`toInt8`, `toInt16`,
  `toInt32`).  The source pins the target to arithmetic right shifts with a `static_assert`;
  the same two's-complement target is assumed for left shifts and for negation.
* `float` and `double` samples are the rational numbers they denote.  Every floating-point
  operation is followed by an explicit rounding to the format (`binary32`, `binary64`:
  round to nearest, ties to even).  Infinities and NaN have no rational value and are outside
  the model.
* Memory is a list of bytes, little-endian, as on every target of the program.
-/

namespace SaneAudioRenderer

/-! ## DspFormat.h -/

/-- The six sample encodings (`enum class DspFormat`). -/
inductive DspFormat
  | Pcm8
  | Pcm16
  | Pcm24
  | Pcm32
  | Float
  | Double
  deriving DecidableEq, Repr

/-- Bytes per stored sample (`DspFormatSize`): `Pcm24` is held in a 32-bit word. -/
def DspFormatSize (format : DspFormat) : Nat :=
  if format = DspFormat.Pcm8 then 1
  else if format = DspFormat.Pcm16 then 2
  else if format = DspFormat.Double then 8
  else 4

/-- Nominal bit width of an integer PCM format (the `n` of "n-bit PCM"); `0` for the
floating-point formats, which have none. -/
def DspFormat.pcmBits : DspFormat → Nat
  | .Pcm8 => 8
  | .Pcm16 => 16
  | .Pcm24 => 24
  | .Pcm32 => 32
  | .Float => 0
  | .Double => 0

/-- The integer PCM formats. -/
def DspFormat.isPcm : DspFormat → Bool
  | .Pcm8 | .Pcm16 | .Pcm24 | .Pcm32 => true
  | .Float | .Double => false

/-! ## Machine integers -/

/-- Reduction of an integer to `int8_t` (two's complement). -/
def toInt8 (x : Int) : Int := (x + 128) % 256 - 128

/-- Reduction of an integer to `int16_t` (two's complement). -/
def toInt16 (x : Int) : Int := (x + 32768) % 65536 - 32768

/-- Reduction of an integer to `int32_t` (two's complement). -/
def toInt32 (x : Int) : Int := (x + 2147483648) % 4294967296 - 2147483648

/-- Constant `INT8_MIN` of `<stdint.h>`. -/
def INT8_MIN : Int := -128
/-- Constant `INT16_MIN` of `<stdint.h>`. -/
def INT16_MIN : Int := -32768
/-- Constant `INT32_MIN` of `<stdint.h>`. -/
def INT32_MIN : Int := -2147483648
/-- Constant `INT16_MAX` of `<stdint.h>`. -/
def INT16_MAX : Int := 32767
/-- Constant `INT32_MAX` of `<stdint.h>`. -/
def INT32_MAX : Int := 2147483647

/-- Unary minus on `int` (operands narrower than `int` are promoted first). -/
def neg32 (x : Int) : Int := toInt32 (-x)

/-- Left shift `x << n` on `int`. -/
def shl32 (x : Int) (n : Nat) : Int := toInt32 (x * 2 ^ n)

/-- Right shift `x >> n` on `int`: arithmetic, as the `static_assert` at the top of
`DspChunk.cpp` requires. -/
def shr32 (x : Int) (n : Nat) : Int := x >>> n

/-- Values a sample of an integer format may take: the range of an `n`-bit signed integer.
A `Pcm24` sample is stored in an `int32_t` but is in range only within 24 bits. -/
def InRange (format : DspFormat) (x : Int) : Prop :=
  -(2 : Int) ^ (format.pcmBits - 1) ≤ x ∧ x < (2 : Int) ^ (format.pcmBits - 1)

instance (format : DspFormat) (x : Int) : Decidable (InRange format x) := by
  unfold InRange; infer_instance

/-! ## Floating point -/

/-- Rounding of a rational to the nearest integer, ties to the even one. -/
def roundHalfEven (q : ℚ) : Int :=
  let f := ⌊q⌋
  let r := q - f
  if r < 1 / 2 then f
  else if 1 / 2 < r then f + 1
  else if f % 2 = 0 then f else f + 1

/-- Rounding of a rational to a binary floating-point format with a `p`-bit significand and
minimal exponent `emin` (round to nearest, ties to even, gradual underflow).  The upper end of
the exponent range is not modelled: a result beyond the largest finite value stays finite. -/
def fpRound (p : Nat) (emin : Int) (q : ℚ) : ℚ :=
  if q = 0 then 0
  else
    let e : Int := max (Int.log 2 |q|) emin - ((p : Int) - 1)
    (roundHalfEven (q / (2 : ℚ) ^ e) : ℚ) * (2 : ℚ) ^ e

/-- Rounding to `float` (IEEE-754 binary32). -/
def binary32 (q : ℚ) : ℚ := fpRound 24 (-126) q

/-- Rounding to `double` (IEEE-754 binary64). -/
def binary64 (q : ℚ) : ℚ := fpRound 53 (-1022) q

/-- Truncation toward zero, the rounding of a floating-to-integer cast. -/
def truncQ (q : ℚ) : Int := if 0 ≤ q then ⌊q⌋ else ⌈q⌉

/-- Cast `(int32_t)q` of a floating-point value.  Out of range the cast is undefined in C++;
the model returns what the x86 conversion instruction of the target returns there, the
"integer indefinite" value `INT32_MIN`. -/
def castInt32 (q : ℚ) : Int :=
  let t := truncQ q
  if INT32_MIN ≤ t ∧ t ≤ INT32_MAX then t else INT32_MIN

/-- Cast `(int16_t)q` of a floating-point value: conversion to a 32-bit integer, of which
the low half is kept. -/
def castInt16 (q : ℚ) : Int := toInt16 (castInt32 q)

/-! ## ConvertSample

One definition per template specialisation `ConvertSample<In, Out>`; the name is
`ConvertSample.In_Out`.  There is no specialisation with `Out = Pcm8` other than the
identity. -/

namespace ConvertSample

/-- Source: `output = input;` -/
def Pcm8_Pcm8 (input : Int) : Int := input

/-- Source: `output = (int16_t)input << 8;` -/
def Pcm8_Pcm16 (input : Int) : Int := toInt16 (shl32 (toInt16 input) 8)

/-- Source: `output = (int32_t)input << 16;` -/
def Pcm8_Pcm24 (input : Int) : Int := shl32 (toInt32 input) 16

/-- Source: `output = (int32_t)input << 24;` -/
def Pcm8_Pcm32 (input : Int) : Int := shl32 (toInt32 input) 24

/-- Source: `output = (float)input / -INT8_MIN;` -/
def Pcm8_Float (input : Int) : ℚ := binary32 (binary32 input / binary32 (neg32 INT8_MIN))

/-- Source: `output = (double)input / -INT8_MIN;` -/
def Pcm8_Double (input : Int) : ℚ := binary64 (binary64 input / binary64 (neg32 INT8_MIN))

/-- Source: `output = input;` -/
def Pcm16_Pcm16 (input : Int) : Int := input

/-- Source: `output = (int32_t)input << 8;` -/
def Pcm16_Pcm24 (input : Int) : Int := shl32 (toInt32 input) 8

/-- Source: `output = (int32_t)input << 16;` -/
def Pcm16_Pcm32 (input : Int) : Int := shl32 (toInt32 input) 16

/-- Source: `output = (float)input / -INT16_MIN;` -/
def Pcm16_Float (input : Int) : ℚ := binary32 (binary32 input / binary32 (neg32 INT16_MIN))

/-- Source: `output = (double)input / -INT16_MIN;` -/
def Pcm16_Double (input : Int) : ℚ := binary64 (binary64 input / binary64 (neg32 INT16_MIN))

/-- Source: `output = (int16_t)(input >> 8);` -/
def Pcm24_Pcm16 (input : Int) : Int := toInt16 (shr32 input 8)

/-- Source: `output = input;` -/
def Pcm24_Pcm24 (input : Int) : Int := input

/-- Source: `output = input << 8;` -/
def Pcm24_Pcm32 (input : Int) : Int := shl32 input 8

/-- Source: `output = (float)input / (-INT32_MIN >> 8);` -/
def Pcm24_Float (input : Int) : ℚ :=
  binary32 (binary32 input / binary32 (shr32 (neg32 INT32_MIN) 8))

/-- Source: `output = (double)input / (-INT32_MIN >> 8);` -/
def Pcm24_Double (input : Int) : ℚ :=
  binary64 (binary64 input / binary64 (shr32 (neg32 INT32_MIN) 8))

/-- Source: `output = (int16_t)(input >> 16);` -/
def Pcm32_Pcm16 (input : Int) : Int := toInt16 (shr32 input 16)

/-- Source: `output = input >> 8;` -/
def Pcm32_Pcm24 (input : Int) : Int := shr32 input 8

/-- Source: `output = input;` -/
def Pcm32_Pcm32 (input : Int) : Int := input

/-- Source: `output = (float)input / -INT32_MIN;` -/
def Pcm32_Float (input : Int) : ℚ := binary32 (binary32 input / binary32 (neg32 INT32_MIN))

/-- Source: `output = (double)input / -INT32_MIN;` -/
def Pcm32_Double (input : Int) : ℚ := binary64 (binary64 input / binary64 (neg32 INT32_MIN))

/-- Source: `output = (int16_t)(input * INT16_MAX);` -/
def Float_Pcm16 (input : ℚ) : Int := castInt16 (binary32 (input * binary32 INT16_MAX))

/-- Source: `output = (int32_t)(input * (INT32_MAX >> 8));` -/
def Float_Pcm24 (input : ℚ) : Int := castInt32 (binary32 (input * binary32 (shr32 INT32_MAX 8)))

/-- Source: `output = (int32_t)(input * INT32_MAX);` -/
def Float_Pcm32 (input : ℚ) : Int := castInt32 (binary32 (input * binary32 INT32_MAX))

/-- Source: `output = input;` -/
def Float_Float (input : ℚ) : ℚ := input

/-- Source: `output = input;` (widening, exact) -/
def Float_Double (input : ℚ) : ℚ := binary64 input

/-- Source: `output = (int16_t)(input * INT16_MAX);` -/
def Double_Pcm16 (input : ℚ) : Int := castInt16 (binary64 (input * binary64 INT16_MAX))

/-- Source: `output = (int32_t)(input * (INT32_MAX >> 8));` -/
def Double_Pcm24 (input : ℚ) : Int := castInt32 (binary64 (input * binary64 (shr32 INT32_MAX 8)))

/-- Source: `output = (int32_t)(input * INT32_MAX);` -/
def Double_Pcm32 (input : ℚ) : Int := castInt32 (binary64 (input * binary64 INT32_MAX))

/-- Source: `output = (float)input;` -/
def Double_Float (input : ℚ) : ℚ := binary32 input

/-- Source: `output = input;` -/
def Double_Double (input : ℚ) : ℚ := input

/-- The integer-to-integer part of the conversion table: the specialisation
`ConvertSample<i, o>` for two integer formats, `none` where the source defines none
(every narrowing to `Pcm8`). -/
def pcmToPcm : DspFormat → DspFormat → Option (Int → Int)
  | .Pcm8, .Pcm8 => some Pcm8_Pcm8
  | .Pcm8, .Pcm16 => some Pcm8_Pcm16
  | .Pcm8, .Pcm24 => some Pcm8_Pcm24
  | .Pcm8, .Pcm32 => some Pcm8_Pcm32
  | .Pcm16, .Pcm16 => some Pcm16_Pcm16
  | .Pcm16, .Pcm24 => some Pcm16_Pcm24
  | .Pcm16, .Pcm32 => some Pcm16_Pcm32
  | .Pcm24, .Pcm16 => some Pcm24_Pcm16
  | .Pcm24, .Pcm24 => some Pcm24_Pcm24
  | .Pcm24, .Pcm32 => some Pcm24_Pcm32
  | .Pcm32, .Pcm16 => some Pcm32_Pcm16
  | .Pcm32, .Pcm24 => some Pcm32_Pcm24
  | .Pcm32, .Pcm32 => some Pcm32_Pcm32
  | _, _ => none

/-- The integer-to-floating part of the conversion table. -/
def pcmToFp : DspFormat → DspFormat → Option (Int → ℚ)
  | .Pcm8, .Float => some Pcm8_Float
  | .Pcm8, .Double => some Pcm8_Double
  | .Pcm16, .Float => some Pcm16_Float
  | .Pcm16, .Double => some Pcm16_Double
  | .Pcm24, .Float => some Pcm24_Float
  | .Pcm24, .Double => some Pcm24_Double
  | .Pcm32, .Float => some Pcm32_Float
  | .Pcm32, .Double => some Pcm32_Double
  | _, _ => none

/-- The floating-to-integer part of the conversion table (no conversion to `Pcm8`). -/
def fpToPcm : DspFormat → DspFormat → Option (ℚ → Int)
  | .Float, .Pcm16 => some Float_Pcm16
  | .Float, .Pcm24 => some Float_Pcm24
  | .Float, .Pcm32 => some Float_Pcm32
  | .Double, .Pcm16 => some Double_Pcm16
  | .Double, .Pcm24 => some Double_Pcm24
  | .Double, .Pcm32 => some Double_Pcm32
  | _, _ => none

/-- The floating-to-floating part of the conversion table. -/
def fpToFp : DspFormat → DspFormat → Option (ℚ → ℚ)
  | .Float, .Float => some Float_Float
  | .Float, .Double => some Float_Double
  | .Double, .Float => some Double_Float
  | .Double, .Double => some Double_Double
  | _, _ => none

end ConvertSample

/-! ## Memory -/

/-- One byte of memory. -/
abbrev Byte := Fin 256

/-- Unsigned value of a little-endian byte string. -/
def leValue : List Byte → Nat
  | [] => 0
  | b :: bs => b.val + 256 * leValue bs

/-- The `size` low bytes of `u`, little-endian. -/
def leBytes : Nat → Nat → List Byte
  | 0, _ => []
  | size + 1, u => ⟨u % 256, Nat.mod_lt _ (by decide)⟩ :: leBytes size (u / 256)

/-- The `size` bytes at byte offset `offset` of `mem`.  Bytes beyond the end of `mem` are
missing from the result (they read as zero in `leValue`); the program never reads there. -/
def slice (mem : List Byte) (offset size : Nat) : List Byte := (mem.drop offset).take size

/-- Writing `src` at the start of the block `dst`: the block keeps its length, bytes that
would fall beyond its end are not part of it. -/
def memWrite (dst src : List Byte) : List Byte := src.take dst.length ++ dst.drop src.length

/-- Read `((const int8_t*)mem)[i]`. -/
def loadInt8 (mem : List Byte) (i : Nat) : Int := toInt8 (leValue (slice mem i 1))

/-- Read `((const int16_t*)mem)[i]`. -/
def loadInt16 (mem : List Byte) (i : Nat) : Int := toInt16 (leValue (slice mem (i * 2) 2))

/-- Read `((const int32_t*)mem)[i]`. -/
def loadInt32 (mem : List Byte) (i : Nat) : Int := toInt32 (leValue (slice mem (i * 4) 4))

/-- Bytes of an `int16_t`. -/
def storeInt16 (v : Int) : List Byte := leBytes 2 (v % 65536).toNat

/-- Bytes of an `int32_t`. -/
def storeInt32 (v : Int) : List Byte := leBytes 4 (v % 4294967296).toNat

/-- Bytes of an `int8_t`. -/
def storeInt8 (v : Int) : List Byte := leBytes 1 (v % 256).toNat

/-- Value of an IEEE-754 bit pattern with `ebits` exponent bits and `mbits` fraction bits.
Patterns with the maximal exponent (infinities, NaN) have no rational value; they read as
`0`. -/
def ieeeValue (ebits mbits : Nat) (bits : Nat) : ℚ :=
  let frac := bits % 2 ^ mbits
  let expo := bits / 2 ^ mbits % 2 ^ ebits
  let sign := bits / 2 ^ (mbits + ebits) % 2
  let bias : Int := 2 ^ (ebits - 1) - 1
  let mag : ℚ :=
    if expo = 0 then (frac : ℚ) * 2 ^ (1 - bias - mbits)
    else if expo = 2 ^ ebits - 1 then 0
    else ((2 ^ mbits + frac : Nat) : ℚ) * 2 ^ ((expo : Int) - bias - mbits)
  if sign = 1 then -mag else mag

/-- IEEE-754 bit pattern of the rounding of `q` to the format with `ebits` exponent bits and
`mbits` fraction bits; a magnitude beyond the largest finite value gives the infinity. -/
def ieeeBits (ebits mbits : Nat) (q : ℚ) : Nat :=
  let bias : Int := 2 ^ (ebits - 1) - 1
  let r := fpRound (mbits + 1) (1 - bias) q
  let sign := if r < 0 then 2 ^ (mbits + ebits) else 0
  let e := Int.log 2 |r|
  if r = 0 then 0
  else if e < 1 - bias then sign + ⌊|r| / 2 ^ (1 - bias - mbits)⌋.toNat
  else if bias < e then sign + (2 ^ ebits - 1) * 2 ^ mbits
  else sign + (e + bias).toNat * 2 ^ mbits + (⌊|r| / 2 ^ (e - mbits)⌋.toNat - 2 ^ mbits)

/-- Read `((const float*)mem)[i]`. -/
def loadFloat (mem : List Byte) (i : Nat) : ℚ := ieeeValue 8 23 (leValue (slice mem (i * 4) 4))

/-- Read `((const double*)mem)[i]`. -/
def loadDouble (mem : List Byte) (i : Nat) : ℚ := ieeeValue 11 52 (leValue (slice mem (i * 8) 8))

/-- Bytes of a `float`. -/
def storeFloat (q : ℚ) : List Byte := leBytes 4 (ieeeBits 8 23 q)

/-- Bytes of a `double`. -/
def storeDouble (q : ℚ) : List Byte := leBytes 8 (ieeeBits 11 52 q)

/-- Read sample `i` of an integer format (`DspFormatTraits<format>::SampleType` is `int8_t`,
`int16_t` or `int32_t`). -/
def loadPcm (format : DspFormat) (mem : List Byte) (i : Nat) : Int :=
  match format with
  | .Pcm8 => loadInt8 mem i
  | .Pcm16 => loadInt16 mem i
  | _ => loadInt32 mem i

/-- Bytes of a sample of an integer format. -/
def storePcm (format : DspFormat) (v : Int) : List Byte :=
  match format with
  | .Pcm8 => storeInt8 v
  | .Pcm16 => storeInt16 v
  | _ => storeInt32 v

/-- Read sample `i` of a floating-point format. -/
def loadFp (format : DspFormat) (mem : List Byte) (i : Nat) : ℚ :=
  match format with
  | .Double => loadDouble mem i
  | _ => loadFloat mem i

/-- Bytes of a sample of a floating-point format. -/
def storeFp (format : DspFormat) (q : ℚ) : List Byte :=
  match format with
  | .Double => storeDouble q
  | _ => storeFloat q

/-- The bytes `ConvertSample<InputFormat, OutputFormat>(inputData[i], output[i])` stores in
`output[i]`; nothing for a pair the source has no specialisation for. -/
def convertedSample (InputFormat OutputFormat : DspFormat) (input : List Byte) (i : Nat) :
    List Byte :=
  match InputFormat.isPcm, OutputFormat.isPcm with
  | true, true =>
    match ConvertSample.pcmToPcm InputFormat OutputFormat with
    | some f => storePcm OutputFormat (f (loadPcm InputFormat input i))
    | none => []
  | true, false =>
    match ConvertSample.pcmToFp InputFormat OutputFormat with
    | some f => storeFp OutputFormat (f (loadPcm InputFormat input i))
    | none => []
  | false, true =>
    match ConvertSample.fpToPcm InputFormat OutputFormat with
    | some f => storePcm OutputFormat (f (loadFp InputFormat input i))
    | none => []
  | false, false =>
    match ConvertSample.fpToFp InputFormat OutputFormat with
    | some f => storeFp OutputFormat (f (loadFp InputFormat input i))
    | none => []

/-- The output array after `ConvertSamples<InputFormat, OutputFormat>(input, output, samples)`:
the loop converts samples `0 .. samples - 1` in order. -/
def ConvertSamples (InputFormat OutputFormat : DspFormat) (input : List Byte) (samples : Nat) :
    List Byte :=
  (List.range samples).flatMap (convertedSample InputFormat OutputFormat input)

/-! ## DspChunk -/

/-- How an operation can fail: a violated `assert`, or `std::bad_alloc` thrown by
`Allocate`. -/
inductive Failure
  | assertion
  | bad_alloc
  deriving DecidableEq, Repr

/-- The heap as the program sees it through `_aligned_malloc(size, 16)`: for a request of
`size` bytes either `none` (a null pointer) or the contents the fresh block happens to have,
byte `i` of the block being the value at `i`.  The block is not initialised by the
allocator. -/
abbrev Allocator := Nat → Option (Nat → Byte)

/-- The fresh block of `size` bytes with the contents `g`. -/
def freshBlock (g : Nat → Byte) (size : Nat) : List Byte := (List.range size).map g

/-- Product of two `uint32_t` values. -/
def mulUInt32 (a b : Nat) : Nat := a * b % 2 ^ 32

/-- Product of two `size_t` values (64-bit target). -/
def mulSize (a b : Nat) : Nat := a * b % 2 ^ 64

/-- The data members of `class DspChunk`.  `m_mediaSample` records whether the chunk holds a
reference to a media sample; `m_constData` is the borrowed memory it points into and `m_data`
the block the chunk owns (`none` for a null pointer). -/
structure DspChunk where
  m_mediaSample : Bool
  m_format : DspFormat
  m_channels : Nat
  m_rate : Nat
  m_dataSize : Nat
  m_constData : Option (List Byte)
  m_delayedCopy : Bool
  m_data : Option (List Byte)
  deriving DecidableEq, Repr

namespace DspChunk

/-- Modelled from the spec: accessor `IsEmpty` of the header `DspChunk.h`, which is not among
the sources; a chunk is empty when its byte length is zero (a moved-from chunk, whose
`m_dataSize` the move sets to zero, "becomes empty"). -/
def IsEmpty (c : DspChunk) : Bool := c.m_dataSize == 0

/-- Modelled from the spec: accessor `GetFormat` of `DspChunk.h`. -/
def GetFormat (c : DspChunk) : DspFormat := c.m_format

/-- Modelled from the spec: accessor `GetChannelCount` of `DspChunk.h`. -/
def GetChannelCount (c : DspChunk) : Nat := c.m_channels

/-- Modelled from the spec: accessor `GetRate` of `DspChunk.h`. -/
def GetRate (c : DspChunk) : Nat := c.m_rate

/-- Modelled from the spec: accessor `GetSize` of `DspChunk.h`, the byte length. -/
def GetSize (c : DspChunk) : Nat := c.m_dataSize

/-- Modelled from the spec: accessor `GetFormatSize` of `DspChunk.h`, the bytes per sample of
the chunk's format. -/
def GetFormatSize (c : DspChunk) : Nat := DspFormatSize c.m_format

/-- Modelled from the spec: accessor `GetFrameSize` of `DspChunk.h`, bytes per sample times
channel count. -/
def GetFrameSize (c : DspChunk) : Nat := c.GetFormatSize * c.GetChannelCount

/-- Modelled from the spec: accessor `GetSampleCount` of `DspChunk.h`, byte length divided by
the sample size. -/
def GetSampleCount (c : DspChunk) : Nat := c.m_dataSize / c.GetFormatSize

/-- Modelled from the spec: accessor `GetFrameCount` of `DspChunk.h`, "byte length / frame
size". -/
def GetFrameCount (c : DspChunk) : Nat := c.m_dataSize / c.GetFrameSize

/-- Modelled from the spec: accessor `GetConstData` of `DspChunk.h`: read access to the
existing data does not force a copy, so it is the borrowed memory while the copy is still
deferred and the owned block afterwards (`none` for a null pointer). -/
def GetConstData (c : DspChunk) : Option (List Byte) :=
  if c.m_delayedCopy then c.m_constData else c.m_data

/-- The chunk's audio data: the first `m_dataSize` bytes behind `GetConstData`. -/
def bytes (c : DspChunk) : List Byte := (c.GetConstData.getD []).take c.m_dataSize

/-- Source function `DspChunk::Allocate`. -/
def Allocate (alloc : Allocator) (c : DspChunk) : Except Failure DspChunk :=
  if c.m_dataSize > 0 then
    match alloc c.m_dataSize with
    | none => .error .bad_alloc
    | some g => .ok { c with m_data := some (freshBlock g c.m_dataSize) }
  else .ok c

/-- Source function `DspChunk::InvokeDelayedCopy`. -/
def InvokeDelayedCopy (alloc : Allocator) (c : DspChunk) : Except Failure DspChunk :=
  if c.m_delayedCopy then
    match Allocate alloc c with
    | .error e => .error e
    | .ok c1 =>
      match c1.m_constData with
      | none => .error .assertion
      | some src =>
        .ok { c1 with
          m_data := c1.m_data.map (fun block => memWrite block (src.take c1.m_dataSize))
          m_delayedCopy := false }
  else .ok c

/-- Source function `DspChunk::GetData`: the chunk after the call and the pointer returned. -/
def GetData (alloc : Allocator) (c : DspChunk) :
    Except Failure (DspChunk × Option (List Byte)) :=
  match InvokeDelayedCopy alloc c with
  | .error e => .error e
  | .ok c1 => .ok (c1, c1.m_data)

/-- Source function `DspChunk::DspChunk()`. -/
def ctorDefault : DspChunk :=
  { m_mediaSample := false
    m_format := .Pcm16
    m_channels := 1
    m_rate := 1
    m_dataSize := 0
    m_constData := none
    m_delayedCopy := false
    m_data := none }

/-- Source function `DspChunk::DspChunk(DspFormat format, uint32_t channels, size_t frames, uint32_t rate)`. -/
def ctorSized (alloc : Allocator) (format : DspFormat) (channels frames rate : Nat) :
    Except Failure DspChunk :=
  Allocate alloc
    { m_mediaSample := false
      m_format := format
      m_channels := channels
      m_rate := rate
      m_dataSize := mulSize (mulUInt32 (DspFormatSize format) channels) frames
      m_constData := none
      m_delayedCopy := false
      m_data := none }

/-- Source function `DspChunk::DspChunk(DspChunk&& other)`: the new chunk and what is left in `other`. -/
def ctorMove (other : DspChunk) : DspChunk × DspChunk :=
  ({ m_mediaSample := other.m_mediaSample
     m_format := other.m_format
     m_channels := other.m_channels
     m_rate := other.m_rate
     m_dataSize := other.m_dataSize
     m_constData := other.m_constData
     m_delayedCopy := other.m_delayedCopy
     m_data := other.m_data },
   { other with m_mediaSample := false, m_dataSize := 0, m_data := none })

/-- Source function `DspChunk::operator=(DspChunk&& other)` for `this != &other`: the assigned chunk and what
is left in `other`. -/
def assignMove (_self other : DspChunk) : DspChunk × DspChunk :=
  ({ m_mediaSample := other.m_mediaSample
     m_format := other.m_format
     m_channels := other.m_channels
     m_rate := other.m_rate
     m_dataSize := other.m_dataSize
     m_constData := other.m_constData
     m_delayedCopy := other.m_delayedCopy
     m_data := other.m_data },
   { other with m_mediaSample := false, m_dataSize := 0, m_data := none })

/-- Source function `DspChunk::Shrink`. -/
def Shrink (alloc : Allocator) (toFrames : Nat) (c : DspChunk) : Except Failure DspChunk :=
  if toFrames < c.GetFrameCount then
    match InvokeDelayedCopy alloc c with
    | .error e => .error e
    | .ok c1 =>
      .ok { c1 with m_dataSize := mulSize (mulUInt32 c1.GetFormatSize c1.GetChannelCount) toFrames }
  else .ok c

end DspChunk

/-- Format tag `WAVE_FORMAT_PCM` of the platform headers. -/
def WAVE_FORMAT_PCM : Nat := 1
/-- Format tag `WAVE_FORMAT_IEEE_FLOAT` of the platform headers. -/
def WAVE_FORMAT_IEEE_FLOAT : Nat := 3
/-- Format tag `WAVE_FORMAT_EXTENSIBLE` of the platform headers. -/
def WAVE_FORMAT_EXTENSIBLE : Nat := 65534

/-- The `SubFormat` GUID of a `WAVEFORMATEXTENSIBLE`, as far as the program distinguishes
it. -/
inductive KSDATAFORMAT_SUBTYPE
  | IEEE_FLOAT
  | PCM
  | other
  deriving DecidableEq, Repr

/-- The fields of `WAVEFORMATEX` (and of its extension) the program reads. -/
structure WAVEFORMATEX where
  wFormatTag : Nat
  nChannels : Nat
  nSamplesPerSec : Nat
  wBitsPerSample : Nat
  SubFormat : KSDATAFORMAT_SUBTYPE
  deriving DecidableEq, Repr

/-- The fields of `AM_SAMPLE2_PROPERTIES` the program reads: the byte length of the sample
and the memory `pbBuffer` points to (`none` for a null pointer). -/
structure AM_SAMPLE2_PROPERTIES where
  lActual : Nat
  pbBuffer : Option (List Byte)
  deriving DecidableEq, Repr

/-- Bitwise or of two `int32_t`, through their bit patterns. -/
def or32 (x y : Int) : Int :=
  toInt32 (((x % 4294967296).toNat ||| (y % 4294967296).toNat : Nat) : Int)

/-- The format the sample constructor selects for PCM data of `bits` bits per sample. -/
def pcmFormatOfBits (bits : Nat) : DspFormat :=
  if bits = 8 then .Pcm8 else if bits = 16 then .Pcm16 else if bits = 24 then .Pcm24 else .Pcm32

/-- The format the sample constructor selects for floating-point data. -/
def floatFormatOfBits (bits : Nat) : DspFormat :=
  if bits = 32 then .Float else .Double

/-- The value of `m_format` after the `if`/`else if` chain of the sample constructor;
`uninit` is what the member holds when no branch assigns it. -/
def sampleFormatOf (uninit : DspFormat) (sampleFormat : WAVEFORMATEX) : DspFormat :=
  if sampleFormat.wFormatTag = WAVE_FORMAT_IEEE_FLOAT then
    floatFormatOfBits sampleFormat.wBitsPerSample
  else if sampleFormat.wFormatTag = WAVE_FORMAT_PCM then
    pcmFormatOfBits sampleFormat.wBitsPerSample
  else if sampleFormat.wFormatTag = WAVE_FORMAT_EXTENSIBLE then
    if sampleFormat.SubFormat = .IEEE_FLOAT then floatFormatOfBits sampleFormat.wBitsPerSample
    else if sampleFormat.SubFormat = .PCM then pcmFormatOfBits sampleFormat.wBitsPerSample
    else uninit
  else uninit

/-- Body of the unpacking loop for sample `i`: the value stored in
`((int32_t*)m_data.get())[i]`. -/
def unpackPcm24 (src : List Byte) (i : Nat) : Int :=
  let x : Int := leValue (slice src (i * 3) 2)
  let h : Int := leValue (slice src (i * 3 + 2) 1)
  or32 x (shr32 (shl32 h 24) 8)

/-- Source function `DspChunk::DspChunk(IMediaSample* pSample, const AM_SAMPLE2_PROPERTIES& sampleProps,
const WAVEFORMATEX& sampleFormat)`; `pSample` tells whether the pointer is non-null. -/
def DspChunk.ctorSample (alloc : Allocator) (uninit : DspFormat) (pSample : Bool)
    (sampleProps : AM_SAMPLE2_PROPERTIES) (sampleFormat : WAVEFORMATEX) :
    Except Failure DspChunk :=
  if !pSample then .error .assertion
  else
    match sampleProps.pbBuffer with
    | none => .error .assertion
    | some src =>
      let c : DspChunk :=
        { m_mediaSample := pSample
          m_format := sampleFormatOf uninit sampleFormat
          m_channels := sampleFormat.nChannels
          m_rate := sampleFormat.nSamplesPerSec
          m_dataSize := sampleProps.lActual
          m_constData := some src
          m_delayedCopy := true
          m_data := none }
      if c.m_format = .Pcm24 then
        match DspChunk.Allocate alloc { c with m_dataSize := c.m_dataSize / 3 * 4 } with
        | .error e => .error e
        | .ok c1 =>
          let unpacked := (List.range c1.GetSampleCount).flatMap
            (fun i => storeInt32 (unpackPcm24 src i))
          .ok { c1 with
            m_data := c1.m_data.map (fun block => memWrite block unpacked)
            m_delayedCopy := false }
      else .ok c

/-- Source function `ConvertChunk<OutputFormat>(chunk)`. -/
def ConvertChunk (alloc : Allocator) (OutputFormat : DspFormat) (chunk : DspChunk) :
    Except Failure DspChunk :=
  let inputFormat := chunk.GetFormat
  if chunk.IsEmpty || OutputFormat = inputFormat then .error .assertion
  else
    match DspChunk.ctorSized alloc OutputFormat chunk.GetChannelCount chunk.GetFrameCount
        chunk.GetRate with
    | .error e => .error e
    | .ok output =>
      match DspChunk.GetData alloc output with
      | .error e => .error e
      | .ok (output1, outputData) =>
        let converted := ConvertSamples inputFormat OutputFormat
          (chunk.GetConstData.getD []) chunk.GetSampleCount
        let output2 : DspChunk :=
          { output1 with m_data := outputData.map (fun block => memWrite block converted) }
        .ok (DspChunk.assignMove chunk output2).1

/-- Source function `DspChunk::ToFormat(format, chunk)`: the chunk after the call. -/
def DspChunk.ToFormat (alloc : Allocator) (format : DspFormat) (chunk : DspChunk) :
    Except Failure DspChunk :=
  if format = .Pcm8 then .error .assertion
  else if chunk.IsEmpty || format = chunk.GetFormat then .ok chunk
  else
    match format with
    | .Pcm16 => ConvertChunk alloc .Pcm16 chunk
    | .Pcm24 => ConvertChunk alloc .Pcm24 chunk
    | .Pcm32 => ConvertChunk alloc .Pcm32 chunk
    | .Float => ConvertChunk alloc .Float chunk
    | .Double => ConvertChunk alloc .Double chunk
    | .Pcm8 => .ok chunk

/-- The borrowed memory is present and holds at least `m_dataSize` bytes for as long as the
copy is deferred: what the sample constructor is handed by a well-formed media sample. -/
def DspChunk.Valid (c : DspChunk) : Prop :=
  c.m_delayedCopy = true → ∃ src, c.m_constData = some src ∧ c.m_dataSize ≤ src.length

/-- The byte length is an exact multiple of (bytes per sample x channel count). -/
def DspChunk.FrameAligned (c : DspChunk) : Prop := c.GetFrameSize ∣ c.m_dataSize

instance (c : DspChunk) : Decidable c.FrameAligned := by
  unfold DspChunk.FrameAligned; infer_instance

/-- The media sample holds whole frames: its byte length is a multiple of the frame size of
the format the constructor selects; for packed 24-bit PCM, the number of whole 3-byte samples
is a multiple of the channel count. -/
def wholeFrames (uninit : DspFormat) (sampleProps : AM_SAMPLE2_PROPERTIES)
    (sampleFormat : WAVEFORMATEX) : Prop :=
  if sampleFormatOf uninit sampleFormat = .Pcm24 then
    sampleFormat.nChannels ∣ sampleProps.lActual / 3
  else
    DspFormatSize (sampleFormatOf uninit sampleFormat) * sampleFormat.nChannels ∣
      sampleProps.lActual

instance (uninit : DspFormat) (sampleProps : AM_SAMPLE2_PROPERTIES)
    (sampleFormat : WAVEFORMATEX) : Decidable (wholeFrames uninit sampleProps sampleFormat) := by
  unfold wholeFrames; infer_instance

/-- The chunks the program can arrive at: built by one of the three constructors (the sample
constructor on a media sample that holds whole frames), then taken through any sequence of
`Shrink`, `ToFormat` and moves (a move leaves two chunks, the new one and the moved-from
one).  Channel counts stay below `2 ^ 29` and sample counts below `2 ^ 61`, so that no size
computation overflows. -/
inductive DspChunk.Built : DspChunk → Prop
  | ctorDefault : Built DspChunk.ctorDefault
  | ctorSized (alloc : Allocator) (format : DspFormat) (channels frames rate : Nat)
      (c : DspChunk) (hch : channels < 2 ^ 29) (hfr : frames * channels < 2 ^ 61)
      (h : DspChunk.ctorSized alloc format channels frames rate = .ok c) : Built c
  | ctorSample (alloc : Allocator) (uninit : DspFormat) (pSample : Bool)
      (sampleProps : AM_SAMPLE2_PROPERTIES) (sampleFormat : WAVEFORMATEX) (c : DspChunk)
      (hch : sampleFormat.nChannels < 2 ^ 16) (hlen : sampleProps.lActual < 2 ^ 31)
      (hwhole : wholeFrames uninit sampleProps sampleFormat)
      (h : DspChunk.ctorSample alloc uninit pSample sampleProps sampleFormat = .ok c) : Built c
  | Shrink (alloc : Allocator) (toFrames : Nat) (c c1 : DspChunk) (hc : Built c)
      (h : c.Shrink alloc toFrames = .ok c1) : Built c1
  | ToFormat (alloc : Allocator) (format : DspFormat) (c c1 : DspChunk) (hc : Built c)
      (h : DspChunk.ToFormat alloc format c = .ok c1) : Built c1
  | ctorMove_new (c : DspChunk) (hc : Built c) : Built (DspChunk.ctorMove c).1
  | ctorMove_old (c : DspChunk) (hc : Built c) : Built (DspChunk.ctorMove c).2
  | assignMove_new (self c : DspChunk) (hc : Built c) : Built (DspChunk.assignMove self c).1
  | assignMove_old (self c : DspChunk) (hc : Built c) : Built (DspChunk.assignMove self c).2

/-- The integer formats that have a wider integer format to convert to and back from, with
that wider format. -/
def WiderPcm (A B : DspFormat) : Prop :=
  (A = DspFormat.Pcm16 ∧ (B = DspFormat.Pcm24 ∨ B = DspFormat.Pcm32)) ∨
  (A = DspFormat.Pcm24 ∧ B = DspFormat.Pcm32)

/-! ## Platform results, events and calls on collaborators -/

/-- A Windows `HRESULT`: negative values are failure codes. -/
abbrev HRESULT := Int

/-- Macro `FAILED` of the platform headers. -/
def FAILED (hr : HRESULT) : Bool := decide (hr < 0)

/-- Macro `SUCCEEDED` of the platform headers. -/
def SUCCEEDED (hr : HRESULT) : Bool := decide (0 ≤ hr)

/-- Failure code `E_FAIL`. -/
def E_FAIL : HRESULT := -2147467259
/-- Failure code `E_OUTOFMEMORY`. -/
def E_OUTOFMEMORY : HRESULT := -2147024882

/-- What leaves a function of the device layer other than through `return`: a violated
`assert`, `std::bad_alloc`, or a thrown `HRESULT` (`ThrowIfFailed`, a helper of an absent
header, throws the failing `HRESULT` of a device call, unchanged). -/
inductive Thrown
  | assertion
  | bad_alloc
  | hresult (hr : HRESULT)
  deriving DecidableEq, Repr

/-- A failure of a chunk operation, as seen by the device layer. -/
def Thrown.ofFailure : Failure → Thrown
  | .assertion => .assertion
  | .bad_alloc => .bad_alloc

/-- Reduction of an integer to `int64_t` (two's complement). -/
def toInt64 (x : Int) : Int := (x + 9223372036854775808) % 18446744073709551616 - 9223372036854775808

/-- Library function `std::abs` on `int64_t`; at `INT64_MIN` the two's-complement target
returns `INT64_MIN`. -/
def abs64 (x : Int) : Int := toInt64 |x|

/-- Reduction of an integer to `uint32_t`. -/
def toUInt32 (x : Int) : Nat := (x % 4294967296).toNat

/-- Constant `INT64_MAX` of `<stdint.h>`. -/
def INT64_MAX : Int := 9223372036854775807

/-- Modelled from the spec: constant `OneSecond` of an absent header, one second in the
100 ns units of `REFERENCE_TIME`. -/
def OneSecond : Int := 10000000

/-- Modelled from the spec: constant `OneMillisecond` of an absent header, one millisecond in
the 100 ns units of `REFERENCE_TIME`. -/
def OneMillisecond : Int := 10000

/-- Library function `llMulDiv(a, b, c, d)` of the DirectShow base classes: `(a * b + d) / c`
with a wide intermediate product, rounded toward zero.  A zero divisor and a quotient that
does not fit 64 bits are outside the model. -/
def llMulDiv (a b c d : Int) : Int := Int.tdiv (a * b + d) c

/-- The calls the renderer and the device feeder make on their collaborators, as far as they
act on them: every call on the device (`IAudioClient`, `IAudioRenderClient`, `IAudioClock`),
and the calls that change the clock, the sample correction or the device manager.
`ReleaseBuffer` carries the bytes copied into the acquired buffer and the silent flag. -/
inductive Call
  | GetBufferSize
  | GetCurrentPadding
  | GetBuffer (frames : Nat)
  | ReleaseBuffer (frames : Nat) (data : List Byte) (silent : Bool)
  | Start
  | Stop
  | Reset
  | GetFrequency
  | GetPosition
  | SlaveClockToAudio (startTime : Int)
  | UnslaveClockFromAudio
  | OffsetSlavedClock (offset : Int)
  | NewBuffer
  | ReleaseDevice
  deriving DecidableEq, Repr

/-- The calls that go to the device itself. -/
def Call.isDeviceCall : Call → Bool
  | .GetBufferSize | .GetCurrentPadding | .GetBuffer _ | .ReleaseBuffer _ _ _
  | .Start | .Stop | .Reset | .GetFrequency | .GetPosition => true
  | _ => false

/-- The fields of the device record (`m_device` of the renderer, `m_backend` of the feeder)
the program reads. -/
structure AudioDeviceBackend where
  waveFormat : WAVEFORMATEX
  bufferDuration : Nat
  latency : Int
  realtime : Bool
  bitstream : Bool
  dspFormat : DspFormat
  deriving DecidableEq, Repr

/-- What the device answers to the calls of one attempt to write: each call yields an
`HRESULT`, the two queries also a value. -/
structure DeviceReply where
  GetBufferSize : HRESULT × Nat
  GetCurrentPadding : HRESULT × Nat
  GetBuffer : HRESULT
  ReleaseBuffer : HRESULT
  deriving DecidableEq, Repr

/-! ## AudioRenderer -/

/-- The `FILTER_STATE` of the platform headers. -/
inductive FILTER_STATE
  | State_Stopped
  | State_Paused
  | State_Running
  deriving DecidableEq, Repr

/-- The data members of `class AudioRenderer` the modelled functions use.  The events
`m_flush` and `m_bufferFilled` are their signalled state; `calls` records, in order, the
calls made on the collaborators. -/
structure AudioRenderer where
  m_state : FILTER_STATE
  m_device : Option AudioDeviceBackend
  m_inputFormat : Option WAVEFORMATEX
  m_pushedFrames : Nat
  m_bufferFilled : Bool
  m_flush : Bool
  m_startTime : Int
  m_startClockOffset : Int
  calls : List Call
  deriving DecidableEq, Repr

namespace AudioRenderer

/-- Source function `AudioRenderer::StartDevice`. -/
def StartDevice (r : AudioRenderer) : Except Thrown AudioRenderer :=
  if r.m_state ≠ .State_Running then .error .assertion
  else
    match r.m_device with
    | some _ =>
      .ok { r with
        m_startClockOffset := 0
        calls := r.calls ++ [.SlaveClockToAudio (toInt64 (r.m_startTime + r.m_startClockOffset)),
          .Start] }
    | none => .ok r

/-- Source function `AudioRenderer::ClearDevice`. -/
def ClearDevice (r : AudioRenderer) : AudioRenderer :=
  match r.m_device with
  | some _ =>
    { r with
      m_bufferFilled := false
      m_pushedFrames := 0
      m_device := none
      calls := r.calls ++ [.UnslaveClockFromAudio, .Stop, .NewBuffer, .ReleaseDevice] }
  | none => r

/-- Source function `AudioRenderer::Play`. -/
def Play (startTime : Int) (r : AudioRenderer) : Except Thrown AudioRenderer :=
  if r.m_state = .State_Running then .error .assertion
  else StartDevice { r with m_state := .State_Running, m_startTime := startTime }

/-- Source function `AudioRenderer::Pause`. -/
def Pause (r : AudioRenderer) : AudioRenderer :=
  match r.m_device with
  | some _ =>
    { r with m_state := .State_Paused, calls := r.calls ++ [.UnslaveClockFromAudio, .Stop] }
  | none => { r with m_state := .State_Paused }

/-- Source function `AudioRenderer::Stop`. -/
def Stop (r : AudioRenderer) : AudioRenderer :=
  ClearDevice { r with m_state := .State_Stopped }

/-- Source function `AudioRenderer::ApplyClockCorrection`; `timingsError` is what
`m_sampleCorrection.GetTimingsError()` returns and `slavedClockOffset` what
`m_myClock->GetSlavedClockOffset()` returns. -/
def ApplyClockCorrection (timingsError slavedClockOffset : Int) (r : AudioRenderer) :
    Except Thrown AudioRenderer :=
  if r.m_inputFormat.isNone then .error .assertion
  else if r.m_device.isNone then .error .assertion
  else if r.m_state ≠ .State_Running then .error .assertion
  else
    let offset := toInt64 (timingsError - slavedClockOffset)
    if abs64 offset > 1000 then .ok { r with calls := r.calls ++ [.OffsetSlavedClock offset] }
    else .ok r

/-- A step of the playback state machine: one of `Play`, `Pause`, `Stop` is called in a
renderer whose state is `a`, returns, and leaves the state `b`. -/
def Transition (a b : FILTER_STATE) : Prop :=
  ∃ r r1 : AudioRenderer, r.m_state = a ∧ r1.m_state = b ∧
    ((∃ startTime, Play startTime r = .ok r1) ∨ Pause r = r1 ∨ Stop r = r1)

end AudioRenderer

/-- What the surroundings answer during one pass through the loop of `AudioRenderer::Push`:
whether `m_flush.Wait` finds the flush signal raised, the replies of the device, the result of
`GetGraphTime`, and what `m_sampleCorrection.GetLastSampleEnd()` returns. -/
structure PushEnv where
  flushWait : Bool
  device : DeviceReply
  graphTime : HRESULT × Int
  lastSampleEnd : Int
  deriving DecidableEq, Repr

/-- The local variables of `AudioRenderer::Push` that live across passes of its loop. -/
structure PushLocals where
  doneFrames : Nat
  sleepDuration : Nat
  firstIteration : Bool
  deriving DecidableEq, Repr

/-- How one pass through a loop body ends: with a `return`, with a `break`, or by going on to
the next pass with new locals. -/
inductive LoopStep (α : Type)
  | ret (b : Bool)
  | brk
  | next (locals : α)
  deriving Repr

namespace AudioRenderer

/-- The `try` block of `AudioRenderer::Push` for the device `d`: either it reaches a
`continue` with new locals or something is thrown; the renderer is returned as it is at that
point, with every call made so far recorded. -/
def Push.tryWrite (env : PushEnv) (chunk : DspChunk) (frameSize chunkFrames : Nat)
    (l : PushLocals) (d : AudioDeviceBackend) (r : AudioRenderer) :
    Except Thrown PushLocals × AudioRenderer :=
  let r1 := { r with calls := r.calls ++ [.GetBufferSize] }
  if FAILED env.device.GetBufferSize.1 then (.error (.hresult env.device.GetBufferSize.1), r1)
  else
    let bufferFrames := env.device.GetBufferSize.2
    let r2 := { r1 with calls := r1.calls ++ [.GetCurrentPadding] }
    if FAILED env.device.GetCurrentPadding.1 then
      (.error (.hresult env.device.GetCurrentPadding.1), r2)
    else
      let bufferPadding := env.device.GetCurrentPadding.2
      let doFrames := min (toUInt32 ((bufferFrames : Int) - bufferPadding))
        (toUInt32 ((chunkFrames : Int) - l.doneFrames))
      let l1 := { l with sleepDuration := d.bufferDuration / 4 }
      if doFrames = 0 then (.ok l1, r2)
      else
        let r3 := { r2 with calls := r2.calls ++ [.GetBuffer doFrames] }
        if FAILED env.device.GetBuffer then (.error (.hresult env.device.GetBuffer), r3)
        else if frameSize ≠ d.waveFormat.wBitsPerSample / 8 * d.waveFormat.nChannels then
          (.error .assertion, r3)
        else
          let data := slice (chunk.GetConstData.getD []) (mulSize l.doneFrames frameSize)
            (mulUInt32 doFrames frameSize)
          let r4 := { r3 with calls := r3.calls ++ [.ReleaseBuffer doFrames data false] }
          if FAILED env.device.ReleaseBuffer then
            (.error (.hresult env.device.ReleaseBuffer), r4)
          else
            let r5 :=
              if toUInt32 ((bufferPadding : Int) + doFrames) = bufferFrames ∧
                  r4.m_bufferFilled = false then
                { r4 with m_bufferFilled := true }
              else r4
            (.ok { l1 with doneFrames := l.doneFrames + doFrames },
              { r5 with m_pushedFrames := r5.m_pushedFrames + doFrames })

/-- The code of `AudioRenderer::Push` below the `try` block, which "emulates null audio
device". -/
def Push.nullDevice (env : PushEnv) (l : PushLocals) (r : AudioRenderer) :
    Except Thrown (LoopStep PushLocals × AudioRenderer) :=
  if r.m_device.isSome then .error .assertion
  else
    let r1 := { r with m_bufferFilled := true }
    let l1 := { l with sleepDuration := 1 }
    if r1.m_state = .State_Running ∧ SUCCEEDED env.graphTime.1 = true ∧
        env.graphTime.2 > toInt64 (r1.m_startTime + env.lastSampleEnd) then
      .ok (.brk, r1)
    else .ok (.next l1, r1)

/-- One pass through the body of the `for` loop of `AudioRenderer::Push`. -/
def Push.iteration (env : PushEnv) (chunk : DspChunk) (frameSize chunkFrames : Nat)
    (l : PushLocals) (r : AudioRenderer) : Except Thrown (LoopStep PushLocals × AudioRenderer) :=
  if l.firstIteration = false ∧ env.flushWait = true then .ok (.ret false, r)
  else
    let l0 := { l with firstIteration := false }
    if r.m_state = .State_Stopped then .error .assertion
    else
      match r.m_device with
      | some d =>
        match Push.tryWrite env chunk frameSize chunkFrames l0 d r with
        | (.ok l1, r1) => .ok (.next l1, r1)
        | (.error (.hresult _), r1) => Push.nullDevice env l0 (ClearDevice r1)
        | (.error e, _) => .error e
      | none => Push.nullDevice env l0 r

/-- The `for` loop of `AudioRenderer::Push`, run for at most `fuel` passes, pass `i` being
answered by `envs i`.  The result `none` says that the loop is still running when the fuel
is used up. -/
def Push.loop (envs : Nat → PushEnv) (chunk : DspChunk) (frameSize chunkFrames : Nat) :
    Nat → Nat → PushLocals → AudioRenderer → Except Thrown (Option Bool × AudioRenderer)
  | fuel, i, l, r =>
    if l.doneFrames < chunkFrames then
      match fuel with
      | 0 => .ok (none, r)
      | fuel + 1 =>
        match Push.iteration (envs i) chunk frameSize chunkFrames l r with
        | .error e => .error e
        | .ok (.ret b, r1) => .ok (some b, r1)
        | .ok (.brk, r1) => .ok (some true, r1)
        | .ok (.next l1, r1) => Push.loop envs chunk frameSize chunkFrames fuel (i + 1) l1 r1
    else .ok (some true, r)

/-- Source function `AudioRenderer::Push`: the value returned (`none` while the loop is still
running after `fuel` passes) and the renderer afterwards. -/
def Push (fuel : Nat) (envs : Nat → PushEnv) (chunk : DspChunk) (r : AudioRenderer) :
    Except Thrown (Option Bool × AudioRenderer) :=
  if chunk.IsEmpty then .ok (some true, r)
  else
    Push.loop envs chunk chunk.GetFrameSize chunk.GetFrameCount fuel 0
      { doneFrames := 0, sleepDuration := 0, firstIteration := true } r

end AudioRenderer

/-- What the surroundings answer during one pass through the loop of `doBlock` in
`AudioRenderer::Finish`: the replies of `IAudioClock::GetFrequency` and
`IAudioClock::GetPosition` (a result code and the `UINT64` stored), and whether
`m_flush.Wait` finds the flush signal raised. -/
structure BlockEnv where
  GetFrequency : HRESULT × Nat
  GetPosition : HRESULT × Nat
  flushWait : Bool
  deriving DecidableEq, Repr

namespace AudioRenderer

/-- One pass through the body of `for (;;)` in `doBlock`.  The variable `actual` is declared
in the body (`int64_t actual = INT64_MAX;`), so every pass starts from that value and
`previous` is a copy of it. -/
def Finish.doBlock.iteration (env : BlockEnv) (r : AudioRenderer) :
    LoopStep Unit × AudioRenderer :=
  let actual : Int := INT64_MAX
  match r.m_device with
  | none => (.ret true, r)
  | some d =>
    let r1 := { r with calls := r.calls ++ [.GetFrequency] }
    if FAILED env.GetFrequency.1 then (.ret true, ClearDevice r1)
    else
      let r2 := { r1 with calls := r1.calls ++ [.GetPosition] }
      if FAILED env.GetPosition.1 then (.ret true, ClearDevice r2)
      else
        let previous := actual
        let actual := llMulDiv (toInt64 env.GetPosition.2) OneSecond
          (toInt64 env.GetFrequency.2) 0
        let target := llMulDiv (toInt64 r2.m_pushedFrames) OneSecond
          d.waveFormat.nSamplesPerSec 0
        if actual = target then (.ret true, r2)
        else if actual = previous ∧ r2.m_state = .State_Running then (.ret true, r2)
        else if env.flushWait then (.ret false, r2)
        else (.next (), r2)

/-- The `for (;;)` loop of `doBlock`, run for at most `fuel` passes, pass `i` being answered
by `envs i`; `none` says that the loop is still running when the fuel is used up. -/
def Finish.doBlock.loop (envs : Nat → BlockEnv) :
    Nat → Nat → AudioRenderer → Option Bool × AudioRenderer
  | 0, _, r => (none, r)
  | fuel + 1, i, r =>
    match Finish.doBlock.iteration (envs i) r with
    | (.ret b, r1) => (some b, r1)
    | (.brk, r1) => (some true, r1)
    | (.next _, r1) => Finish.doBlock.loop envs fuel (i + 1) r1

/-- The lambda `doBlock` of `AudioRenderer::Finish`: it unslaves the clock and polls the
device position until one of the `return`s of the loop is reached. -/
def Finish.doBlock (fuel : Nat) (envs : Nat → BlockEnv) (r : AudioRenderer) :
    Option Bool × AudioRenderer :=
  Finish.doBlock.loop envs fuel 0 { r with calls := r.calls ++ [.UnslaveClockFromAudio] }

end AudioRenderer

/-! ## AudioDevice -/

/-- Sum of two `size_t` or `uint64_t` values (64-bit target). -/
def addSize (a b : Nat) : Nat := (a + b) % 2 ^ 64

/-- Difference of two `size_t` values (64-bit target). -/
def subSize (a b : Nat) : Nat := (a + (2 ^ 64 - b % 2 ^ 64)) % 2 ^ 64

/-- Modelled from the spec: `DspChunk::ShrinkHead`, which is called by `AudioDevice.cpp` but is
not among the sources.  It is the counterpart of `Shrink` for the head of the chunk: the
chunk is narrowed to its last `toFrames` frames ("the chunk is left holding the remainder"),
the frames before them being dropped from the owned block. -/
def DspChunk.ShrinkHead (alloc : Allocator) (toFrames : Nat) (c : DspChunk) :
    Except Failure DspChunk :=
  if toFrames < c.GetFrameCount then
    match c.InvokeDelayedCopy alloc with
    | .error e => .error e
    | .ok c1 =>
      let shrinkBytes := mulSize (c1.GetFrameCount - toFrames) c1.GetFrameSize
      .ok { c1 with
        m_data := c1.m_data.map (fun block => block.drop shrinkBytes)
        m_dataSize := c1.m_dataSize - shrinkBytes }
  else .ok c

/-- What the device clock answers to `IAudioClock::GetFrequency` and
`IAudioClock::GetPosition`: a result code and the `UINT64` stored. -/
structure ClockReply where
  GetFrequency : HRESULT × Nat
  GetPosition : HRESULT × Nat
  deriving DecidableEq, Repr

/-- Modelled from the spec: the data members of `class AudioDevice`, whose declaration
(`AudioDevice.h`) is not among the sources, as `AudioDevice.cpp` uses them: the device
record, the counters of pushed, silent and buffered frames, the FIFO of pending chunks
(front first) and the exit flag.  `calls` records, in order, the calls made on the device.
The wake event, which only shortens the sleep of the feeding thread, is left out. -/
structure AudioDevice where
  m_backend : AudioDeviceBackend
  m_pushedFrames : Nat
  m_silenceFrames : Nat
  m_bufferFrameCount : Nat
  m_buffer : List DspChunk
  m_exit : Bool
  calls : List Call
  deriving DecidableEq, Repr

/-- What a push leaves behind: what was thrown, if anything, the caller's chunk, the state of
the caller's "filled" event (`none` for a null pointer) and the device feeder. -/
structure PushOutcome where
  thrown : Option Thrown
  chunk : DspChunk
  pFilledEvent : Option Bool
  device : AudioDevice

namespace AudioDevice

/-- Modelled from the spec: `AudioDevice::IsRealtime` of the absent header, whether the
device "requires real-time feeding". -/
def IsRealtime (dev : AudioDevice) : Bool := dev.m_backend.realtime

/-- Modelled from the spec: `AudioDevice::GetStreamLatency` of the absent header, "the
device's own reported latency". -/
def GetStreamLatency (dev : AudioDevice) : Int := dev.m_backend.latency

/-- Source function `AudioDevice::GetPosition`. -/
def GetPosition (clock : ClockReply) (dev : AudioDevice) : Except Thrown Int × AudioDevice :=
  let dev1 := { dev with calls := dev.calls ++ [Call.GetFrequency] }
  if FAILED clock.GetFrequency.1 then (.error (.hresult clock.GetFrequency.1), dev1)
  else
    let dev2 := { dev1 with calls := dev1.calls ++ [Call.GetPosition] }
    if FAILED clock.GetPosition.1 then (.error (.hresult clock.GetPosition.1), dev2)
    else
      (.ok (llMulDiv (toInt64 clock.GetPosition.2) OneSecond (toInt64 clock.GetFrequency.2) 0),
        dev2)

/-- Source function `AudioDevice::GetEnd`. -/
def GetEnd (dev : AudioDevice) : Int :=
  llMulDiv (toInt64 dev.m_pushedFrames) OneSecond dev.m_backend.waveFormat.nSamplesPerSec 0

/-- Source function `AudioDevice::GetSilence`. -/
def GetSilence (dev : AudioDevice) : Int :=
  llMulDiv (toInt64 dev.m_silenceFrames) OneSecond dev.m_backend.waveFormat.nSamplesPerSec 0

/-- Source function `AudioDevice::Start`. -/
def Start (dev : AudioDevice) : AudioDevice := { dev with calls := dev.calls ++ [Call.Start] }

/-- Source function `AudioDevice::Stop`. -/
def Stop (dev : AudioDevice) : AudioDevice := { dev with calls := dev.calls ++ [Call.Stop] }

/-- Source function `AudioDevice::Reset`. -/
def Reset (dev : AudioDevice) : AudioDevice :=
  let dev1 : AudioDevice := { dev with
    calls := dev.calls ++ [Call.Reset]
    m_pushedFrames := 0
    m_silenceFrames := 0 }
  if dev1.m_backend.realtime then { dev1 with m_bufferFrameCount := 0, m_buffer := [] }
  else dev1

/-- Source function `AudioDevice::PushToDevice`. -/
def PushToDevice (reply : DeviceReply) (alloc : Allocator) (chunk : DspChunk)
    (pFilledEvent : Option Bool) (dev : AudioDevice) : PushOutcome :=
  let dev1 := { dev with calls := dev.calls ++ [Call.GetBufferSize] }
  if FAILED reply.GetBufferSize.1 then
    ⟨some (.hresult reply.GetBufferSize.1), chunk, pFilledEvent, dev1⟩
  else
    let bufferFrames := reply.GetBufferSize.2
    let dev2 := { dev1 with calls := dev1.calls ++ [Call.GetCurrentPadding] }
    if FAILED reply.GetCurrentPadding.1 then
      ⟨some (.hresult reply.GetCurrentPadding.1), chunk, pFilledEvent, dev2⟩
    else
      let bufferPadding := reply.GetCurrentPadding.2
      let doFrames := min (toUInt32 ((bufferFrames : Int) - bufferPadding))
        (toUInt32 chunk.GetFrameCount)
      if doFrames = 0 then ⟨none, chunk, pFilledEvent, dev2⟩
      else
        let dev3 := { dev2 with calls := dev2.calls ++ [Call.GetBuffer doFrames] }
        if FAILED reply.GetBuffer then
          ⟨some (.hresult reply.GetBuffer), chunk, pFilledEvent, dev3⟩
        else if chunk.GetFrameSize ≠
            dev.m_backend.waveFormat.wBitsPerSample / 8 * dev.m_backend.waveFormat.nChannels then
          ⟨some .assertion, chunk, pFilledEvent, dev3⟩
        else
          match chunk.GetData alloc with
          | .error e => ⟨some (.ofFailure e), chunk, pFilledEvent, dev3⟩
          | .ok (chunk1, data) =>
            let copied := slice (data.getD []) 0 (mulUInt32 doFrames chunk1.GetFrameSize)
            let dev4 := { dev3 with calls := dev3.calls ++ [Call.ReleaseBuffer doFrames copied false] }
            if FAILED reply.ReleaseBuffer then
              ⟨some (.hresult reply.ReleaseBuffer), chunk1, pFilledEvent, dev4⟩
            else
              let filled :=
                if pFilledEvent.isSome ∧ toUInt32 ((bufferPadding : Int) + doFrames) = bufferFrames
                then some true else pFilledEvent
              if ¬ doFrames ≤ chunk1.GetFrameCount then ⟨some .assertion, chunk1, filled, dev4⟩
              else
                match chunk1.ShrinkHead alloc (chunk1.GetFrameCount - doFrames) with
                | .error e => ⟨some (.ofFailure e), chunk1, filled, dev4⟩
                | .ok chunk2 =>
                  ⟨none, chunk2, filled,
                    { dev4 with m_pushedFrames := addSize dev4.m_pushedFrames doFrames }⟩

/-- Source function `AudioDevice::PushSilenceToDevice`: the value returned, or what is thrown,
and the device feeder afterwards. -/
def PushSilenceToDevice (reply : DeviceReply) (frames : Nat) (dev : AudioDevice) :
    Except Thrown Nat × AudioDevice :=
  let dev1 := { dev with calls := dev.calls ++ [Call.GetBufferSize] }
  if FAILED reply.GetBufferSize.1 then (.error (.hresult reply.GetBufferSize.1), dev1)
  else
    let bufferFrames := reply.GetBufferSize.2
    let dev2 := { dev1 with calls := dev1.calls ++ [Call.GetCurrentPadding] }
    if FAILED reply.GetCurrentPadding.1 then
      (.error (.hresult reply.GetCurrentPadding.1), dev2)
    else
      let bufferPadding := reply.GetCurrentPadding.2
      let doFrames := min (toUInt32 ((bufferFrames : Int) - bufferPadding)) frames
      if doFrames = 0 then (.ok 0, dev2)
      else
        let dev3 := { dev2 with calls := dev2.calls ++ [Call.GetBuffer doFrames] }
        if FAILED reply.GetBuffer then (.error (.hresult reply.GetBuffer), dev3)
        else
          let dev4 := { dev3 with calls := dev3.calls ++ [Call.ReleaseBuffer doFrames [] true] }
          if FAILED reply.ReleaseBuffer then (.error (.hresult reply.ReleaseBuffer), dev4)
          else
            (.ok doFrames, { dev4 with m_pushedFrames := addSize dev4.m_pushedFrames doFrames })

/-- Source function `AudioDevice::PushToBuffer`: what is thrown, if anything, the caller's
chunk and the device feeder afterwards.  `dequeAlloc` says whether the allocation inside
`m_buffer.emplace_back` succeeds. -/
def PushToBuffer (dequeAlloc : Bool) (chunk : DspChunk) (dev : AudioDevice) :
    Option Thrown × DspChunk × AudioDevice :=
  if dev.m_exit then (some (.hresult E_FAIL), chunk, dev)
  else if chunk.IsEmpty then (none, chunk, dev)
  else if dev.m_bufferFrameCount > dev.m_backend.waveFormat.nSamplesPerSec / 3 then
    (none, chunk, dev)
  else
    let dev1 : AudioDevice := { dev with
      m_bufferFrameCount := addSize dev.m_bufferFrameCount chunk.GetFrameCount }
    if dequeAlloc then
      (none, (DspChunk.ctorMove chunk).2,
        { dev1 with m_buffer := dev1.m_buffer ++ [(DspChunk.ctorMove chunk).1] })
    else (some (.hresult E_OUTOFMEMORY), chunk, { dev1 with m_exit := true })

/-- Source function `AudioDevice::Push`. -/
def Push (reply : DeviceReply) (alloc : Allocator) (dequeAlloc : Bool) (chunk : DspChunk)
    (pFilledEvent : Option Bool) (dev : AudioDevice) : PushOutcome :=
  if dev.IsRealtime then
    match PushToBuffer dequeAlloc chunk dev with
    | (some e, chunk1, dev1) => ⟨some e, chunk1, pFilledEvent, dev1⟩
    | (none, chunk1, dev1) =>
      ⟨none, chunk1,
        if pFilledEvent.isSome ∧ chunk1.IsEmpty = false then some true else pFilledEvent, dev1⟩
  else PushToDevice reply alloc chunk pFilledEvent dev

end AudioDevice

/-- What the surroundings answer during one pass of the feeding thread: the replies of the
device and of its clock, the heap, and whether the allocation inside
`m_buffer.emplace_front` succeeds. -/
structure FeedEnv where
  device : DeviceReply
  clock : ClockReply
  alloc : Allocator
  dequeAlloc : Bool

/-- Where the feeding thread stands in `AudioDevice::RealtimeFeed`: at the loop condition,
after the first locked block with the local `chunk`, after `PushToDevice` with what is left
of the chunk and before the second locked block, or past the loop. -/
inductive FeedPc
  | top
  | popped (chunk : DspChunk)
  | written (chunk : DspChunk)
  | exited
  deriving DecidableEq, Repr

namespace AudioDevice

/-- The first locked block of the loop of `RealtimeFeed`: the local chunk and the device
feeder after it. -/
def RealtimeFeed.pop (dev : AudioDevice) : DspChunk × AudioDevice :=
  match dev.m_buffer with
  | [] => (DspChunk.ctorDefault, dev)
  | front :: rest =>
    let chunk := (DspChunk.assignMove DspChunk.ctorDefault front).1
    (chunk, { dev with
      m_buffer := rest
      m_bufferFrameCount := subSize dev.m_bufferFrameCount chunk.GetFrameCount })

/-- The branch of `RealtimeFeed` for an empty local chunk: silence is pushed when the end of
the pushed audio is nearer than the latency of the stream plus two milliseconds. -/
def RealtimeFeed.silence (env : FeedEnv) (dev : AudioDevice) : Except Thrown Unit × AudioDevice :=
  let latency := toInt64 (dev.GetStreamLatency + toInt64 (OneMillisecond * 2))
  match dev.GetPosition env.clock with
  | (.error e, dev1) => (.error e, dev1)
  | (.ok position, dev1) =>
    let remaining := toInt64 (dev1.GetEnd - position)
    if remaining < latency then
      match dev1.PushSilenceToDevice env.device
          (toUInt32 (llMulDiv dev1.m_backend.waveFormat.nSamplesPerSec
            (toInt64 (latency - remaining)) OneSecond 0)) with
      | (.error e, dev2) => (.error e, dev2)
      | (.ok frames, dev2) =>
        (.ok (), { dev2 with m_silenceFrames := addSize dev2.m_silenceFrames frames })
    else (.ok (), dev1)

/-- The second locked block of the loop of `RealtimeFeed`, which puts what is left of the
chunk back at the front of the FIFO. -/
def RealtimeFeed.reinsert (dequeAlloc : Bool) (chunk : DspChunk) (dev : AudioDevice) :
    Except Thrown Unit × AudioDevice :=
  if chunk.IsEmpty then (.ok (), dev)
  else
    let dev1 : AudioDevice := { dev with
      m_bufferFrameCount := addSize dev.m_bufferFrameCount chunk.GetFrameCount }
    if dequeAlloc then
      (.ok (), { dev1 with m_buffer := (DspChunk.ctorMove chunk).1 :: dev1.m_buffer })
    else (.error .bad_alloc, dev1)

/-- The `catch` clauses of `RealtimeFeed`: a thrown `HRESULT` or `std::bad_alloc` sets the
exit flag and leaves the loop; a violated `assert` is not caught. -/
def RealtimeFeed.handle (e : Thrown) (dev : AudioDevice) : Except Thrown (FeedPc × AudioDevice) :=
  match e with
  | .assertion => .error .assertion
  | _ => .ok (.exited, { dev with m_exit := true })

/-- One atomic step of the feeding thread (`AudioDevice::RealtimeFeed`): from the loop
condition through the first locked block; from there through the silence branch or through
`PushToDevice`; and from there through the second locked block and the wait, back to the
loop condition.  Between these steps the buffer lock is free and a producer may call
`PushToBuffer`. -/
def RealtimeFeed.step (env : FeedEnv) (pc : FeedPc) (dev : AudioDevice) :
    Except Thrown (FeedPc × AudioDevice) :=
  match pc with
  | .exited => .ok (.exited, dev)
  | .top =>
    if dev.m_exit then .ok (.exited, dev)
    else .ok (.popped (RealtimeFeed.pop dev).1, (RealtimeFeed.pop dev).2)
  | .popped chunk =>
    if chunk.IsEmpty then
      match RealtimeFeed.silence env dev with
      | (.error e, dev1) => RealtimeFeed.handle e dev1
      | (.ok _, dev1) => .ok (.top, dev1)
    else
      match (dev.PushToDevice env.device env.alloc chunk none).thrown with
      | some e => RealtimeFeed.handle e (dev.PushToDevice env.device env.alloc chunk none).device
      | none =>
        .ok (.written (dev.PushToDevice env.device env.alloc chunk none).chunk,
          (dev.PushToDevice env.device env.alloc chunk none).device)
  | .written chunk =>
    match RealtimeFeed.reinsert env.dequeAlloc chunk dev with
    | (.error e, dev1) => RealtimeFeed.handle e dev1
    | (.ok _, dev1) => .ok (.top, dev1)

end AudioDevice

/-- What happens to a real-time-feed device, one atomic action at a time: a producer calls
`PushToBuffer` with a chunk, or the feeding thread takes its next step. -/
inductive FeedEvent
  | push (chunk : DspChunk) (dequeAlloc : Bool)
  | feed (env : FeedEnv)

/-- A real-time-feed device with its feeding thread.  `accepted` is a history variable, not
program data: the bytes of the chunks `PushToBuffer` has appended to the FIFO, in that
order. -/
structure FeedSystem where
  device : AudioDevice
  pc : FeedPc
  accepted : List Byte

/-- The bytes a recorded call has written to the device as audio data: those of a
`ReleaseBuffer` without the silent flag. -/
def Call.written : Call → List Byte
  | .ReleaseBuffer _ data false => data
  | _ => []

namespace FeedSystem

/-- The device after construction (`AudioDevice::AudioDevice`) with the thread at the start of
its loop. -/
def init (backend : AudioDeviceBackend) : FeedSystem :=
  { device :=
      { m_backend := backend
        m_pushedFrames := 0
        m_silenceFrames := 0
        m_bufferFrameCount := 0
        m_buffer := []
        m_exit := false
        calls := [] }
    pc := .top
    accepted := [] }

/-- The chunk the feeding thread holds outside the FIFO. -/
def inflight (s : FeedSystem) : List Byte :=
  match s.pc with
  | .popped chunk => chunk.bytes
  | .written chunk => chunk.bytes
  | _ => []

/-- The audio bytes written to the device so far. -/
def written (s : FeedSystem) : List Byte := s.device.calls.flatMap Call.written

/-- The concatenated contents of the pending FIFO, front first. -/
def pending (s : FeedSystem) : List Byte := s.device.m_buffer.flatMap DspChunk.bytes

/-- One event.  A push is recorded as accepted with the chunks it has added at the back of
the FIFO; what `PushToBuffer` throws goes to the producer. -/
def step (e : FeedEvent) (s : FeedSystem) : Except Thrown FeedSystem :=
  match e with
  | .push chunk dequeAlloc =>
    let dev1 := (s.device.PushToBuffer dequeAlloc chunk).2.2
    .ok { s with
      device := dev1
      accepted := s.accepted ++
        (dev1.m_buffer.drop s.device.m_buffer.length).flatMap DspChunk.bytes }
  | .feed env =>
    match AudioDevice.RealtimeFeed.step env s.pc s.device with
    | .error e => .error e
    | .ok (pc1, dev1) => .ok { s with device := dev1, pc := pc1 }

/-- A sequence of events, in order. -/
def run : List FeedEvent → FeedSystem → Except Thrown FeedSystem
  | [], s => .ok s
  | e :: es, s =>
    match step e s with
    | .error t => .error t
    | .ok s1 => run es s1

end FeedSystem

/-- The chunks a device with the record `backend` can be fed: the frame size is that of the
device format, the byte length is a whole number of frames and fits `UINT32`, and the memory
behind the chunk really holds that many bytes. -/
def DspChunk.Feedable (backend : AudioDeviceBackend) (c : DspChunk) : Prop :=
  c.GetFrameSize = backend.waveFormat.wBitsPerSample / 8 * backend.waveFormat.nChannels ∧
  c.FrameAligned ∧ c.m_dataSize < 2 ^ 32 ∧ c.Valid ∧
  c.m_dataSize ≤ (c.GetConstData.getD []).length

/-- No device error and no failed allocation in a step of the feeding thread: every reply of
the device and of its clock is a success, the heap serves every request, and the FIFO can
take a node. -/
def FeedEnv.Sound (env : FeedEnv) : Prop :=
  FAILED env.clock.GetFrequency.1 = false ∧ FAILED env.clock.GetPosition.1 = false ∧
  FAILED env.device.GetBufferSize.1 = false ∧ FAILED env.device.GetCurrentPadding.1 = false ∧
  FAILED env.device.GetBuffer = false ∧ FAILED env.device.ReleaseBuffer = false ∧
  (∀ n, (env.alloc n).isSome = true) ∧ env.dequeAlloc = true

/-- The events of a run "with no device error": a pushed chunk is empty or can be fed to the
device, and a step of the feeding thread meets no failure. -/
def FeedEvent.Sound (backend : AudioDeviceBackend) : FeedEvent → Prop
  | .push chunk _ => chunk.IsEmpty = true ∨ chunk.Feedable backend
  | .feed env => env.Sound

/-- The chunk the feeding thread holds, if any, is empty or can be fed to the device. -/
def FeedPc.Sound (backend : AudioDeviceBackend) : FeedPc → Prop
  | .popped chunk => chunk.IsEmpty = true ∨ chunk.Feedable backend
  | .written chunk => chunk.IsEmpty = true ∨ chunk.Feedable backend
  | _ => True

/-- The ordering invariant of a real-time-feed device: the audio bytes written to the device,
then those the thread holds, then those pending in the FIFO are the accepted bytes in the
order of acceptance; and every chunk in the FIFO or held by the thread can be fed. -/
def FeedSystem.Inv (backend : AudioDeviceBackend) (s : FeedSystem) : Prop :=
  s.device.m_backend = backend ∧
  (∀ c ∈ s.device.m_buffer, c.Feedable backend) ∧
  s.pc.Sound backend ∧
  s.written ++ s.inflight ++ s.pending = s.accepted

/-! ## Example values -/

/-- A device record for mono 16-bit PCM at the given sample rate, fed by a thread. -/
def Example.backend (rate : Nat) : AudioDeviceBackend :=
  ⟨⟨1, 1, rate, 16, KSDATAFORMAT_SUBTYPE.other⟩, 100, 100000, true, false, DspFormat.Pcm16⟩

/-- A mono 16-bit chunk that owns the given bytes. -/
def Example.chunk (data : List Byte) : DspChunk :=
  { DspChunk.ctorDefault with m_dataSize := data.length, m_data := some data }

/-- Surroundings in which nothing fails, the device buffer holding `bufferFrames` frames of
which `padding` are still to be played. -/
def Example.env (bufferFrames padding : Nat) : FeedEnv :=
  ⟨⟨(0, bufferFrames), (0, padding), 0, 0⟩, ⟨(0, 1000), (0, 500)⟩,
    fun _ => some (fun _ => 0), true⟩

/-! ## The buffer lock of a real-time-feed device -/

/-- What happens to a real-time-feed device, one atomic action at a time, `Reset` included: a
producer calls `PushToBuffer`, the feeding thread takes its next step, or the owner calls
`Reset`.  Each action takes the buffer lock at most once. -/
inductive LockEvent
  | push (chunk : DspChunk) (dequeAlloc : Bool)
  | feed (env : FeedEnv)
  | reset

/-- The frame count of the chunk the feeding thread holds outside the FIFO. -/
def FeedPc.frames : FeedPc → Nat
  | .popped chunk => chunk.GetFrameCount
  | .written chunk => chunk.GetFrameCount
  | _ => 0

namespace LockEvent

/-- One action on the device feeder and its thread; what `PushToBuffer` throws goes to the
producer. -/
def step (e : LockEvent) (s : FeedPc × AudioDevice) : Except Thrown (FeedPc × AudioDevice) :=
  match e with
  | .push chunk dequeAlloc => .ok (s.1, (s.2.PushToBuffer dequeAlloc chunk).2.2)
  | .feed env => AudioDevice.RealtimeFeed.step env s.1 s.2
  | .reset => .ok (s.1, s.2.Reset)

/-- A sequence of actions, in order: the state after the last one, or, when an `assert` of
the feeding thread fails, what failed and the state in which the failing step began. -/
def run : List LockEvent → FeedPc × AudioDevice → Option Thrown × (FeedPc × AudioDevice)
  | [], s => (none, s)
  | e :: es, s =>
    match step e s with
    | .error t => (some t, s)
    | .ok s1 => run es s1

/-- The FIFO gets the node it asks for, and a pushed chunk has fewer than `2 ^ 62` frames. -/
def Served : LockEvent → Prop
  | .push chunk dequeAlloc => dequeAlloc = true ∧ chunk.GetFrameCount < 2 ^ 62
  | .feed env => env.dequeAlloc = true
  | .reset => True

end LockEvent

/-- The buffered-frame counter is the sum of the frame counts of the chunks in the FIFO, and
no chunk in the FIFO is empty. -/
def AudioDevice.BufferConsistent (dev : AudioDevice) : Prop :=
  dev.m_bufferFrameCount = (dev.m_buffer.map DspChunk.GetFrameCount).sum ∧
  ∀ c ∈ dev.m_buffer, c.IsEmpty = false

/-- The invariant of the buffer lock, with what keeps the counter from overflowing: every
chunk in the FIFO or held by the thread has fewer than `2 ^ 62` frames, and the counter plus
the frames the thread holds stay below `2 ^ 32 + 2 ^ 63`. -/
def LockInv (backend : AudioDeviceBackend) (s : FeedPc × AudioDevice) : Prop :=
  s.2.m_backend = backend ∧ s.2.BufferConsistent ∧
  (∀ c ∈ s.2.m_buffer, c.GetFrameCount < 2 ^ 62) ∧ s.1.frames < 2 ^ 62 ∧
  s.2.m_bufferFrameCount + s.1.frames < 2 ^ 32 + 2 ^ 63

/-! # Theorems -/

/-! ## Floating-point rounding is exact on representable values -/

theorem roundHalfEven_intCast (n : Int) : roundHalfEven (n : ℚ) = n := by
  simp [roundHalfEven]

/-- A dyadic rational `m * 2 ^ k` whose numerator fits the significand, and whose exponent is
not below the smallest subnormal exponent, is a fixed point of rounding. -/
theorem fpRound_exact (p : Nat) (emin : Int) (m k : Int)
    (hm : |m| < 2 ^ p) (hk : emin - ((p : Int) - 1) ≤ k) :
    fpRound p emin ((m : ℚ) * 2 ^ k) = (m : ℚ) * 2 ^ k := by
  by_cases hm0 : m = 0
  · simp [fpRound, hm0]
  have h2 : (0 : ℚ) < 2 := by norm_num
  have hq0 : (m : ℚ) * 2 ^ k ≠ 0 :=
    mul_ne_zero (by exact_mod_cast hm0) (zpow_ne_zero _ (by norm_num))
  have habs : |(m : ℚ) * 2 ^ k| < (2 : ℚ) ^ ((p : Int) + k) := by
    rw [abs_mul, abs_of_pos (zpow_pos h2 k), zpow_add₀ (by norm_num : (2 : ℚ) ≠ 0)]
    apply mul_lt_mul_of_pos_right _ (zpow_pos h2 k)
    have : ((|m| : Int) : ℚ) < ((2 ^ p : Int) : ℚ) := by exact_mod_cast hm
    simpa using this
  have hlog : Int.log 2 |(m : ℚ) * 2 ^ k| < (p : Int) + k :=
    (Int.lt_zpow_iff_log_lt (b := 2) (by norm_num) (abs_pos.mpr hq0)).mp
      (by exact_mod_cast habs)
  simp only [fpRound, if_neg hq0]
  generalize Int.log 2 |(m : ℚ) * 2 ^ k| = L at hlog
  have he : max L emin - ((p : Int) - 1) ≤ k := by
    rcases max_cases L emin with ⟨h, _⟩ | ⟨h, _⟩ <;> rw [h] <;> omega
  generalize max L emin - ((p : Int) - 1) = e at he
  obtain ⟨d, rfl⟩ : ∃ d : Nat, k = e + d := ⟨(k - e).toNat, by omega⟩
  have hdiv : (m : ℚ) * 2 ^ (e + (d : Int)) / 2 ^ e = ((m * 2 ^ d : Int) : ℚ) := by
    rw [zpow_add₀ (by norm_num : (2 : ℚ) ≠ 0)]
    field_simp
    ring
  rw [hdiv, roundHalfEven_intCast, zpow_add₀ (by norm_num : (2 : ℚ) ≠ 0), zpow_natCast]
  push_cast
  ring

/-- Quotients of an integer below `2 ^ 53` by a power of two are `double` values. -/
theorem binary64_div_two_pow (m : Int) (k : Nat) (hm : |m| < 2 ^ 53) (hk : k ≤ 1000) :
    binary64 ((m : ℚ) / 2 ^ k) = (m : ℚ) / 2 ^ k := by
  have h := fpRound_exact 53 (-1022) m (-(k : Int)) hm (by push_cast; omega)
  rw [zpow_neg, zpow_natCast, ← div_eq_mul_inv] at h
  exact h

/-- Quotients of an integer below `2 ^ 24` by a power of two are `float` values. -/
theorem binary32_div_two_pow (m : Int) (k : Nat) (hm : |m| < 2 ^ 24) (hk : k ≤ 100) :
    binary32 ((m : ℚ) / 2 ^ k) = (m : ℚ) / 2 ^ k := by
  have h := fpRound_exact 24 (-126) m (-(k : Int)) hm (by push_cast; omega)
  rw [zpow_neg, zpow_natCast, ← div_eq_mul_inv] at h
  exact h

theorem binary64_intCast (m : Int) (hm : |m| < 2 ^ 53) : binary64 (m : ℚ) = m := by
  simpa using binary64_div_two_pow m 0 hm (by norm_num)

theorem binary32_intCast (m : Int) (hm : |m| < 2 ^ 24) : binary32 (m : ℚ) = m := by
  simpa using binary32_div_two_pow m 0 hm (by norm_num)

/-- Integer powers of two up to `2 ^ 100` (either sign) are `float` values. -/
theorem binary32_two_pow (s : Int) (k : Nat) (hs : |s| < 2 ^ 24) (hk : k ≤ 100) :
    binary32 ((s : ℚ) * 2 ^ k) = (s : ℚ) * 2 ^ k := by
  have h := fpRound_exact 24 (-126) s (k : Int) hs (by push_cast; omega)
  rw [zpow_natCast] at h
  exact h

/-- Integer multiples of powers of two are `double` values. -/
theorem binary64_two_pow (s : Int) (k : Nat) (hs : |s| < 2 ^ 53) (hk : k ≤ 100) :
    binary64 ((s : ℚ) * 2 ^ k) = (s : ℚ) * 2 ^ k := by
  have h := fpRound_exact 53 (-1022) s (k : Int) hs (by push_cast; omega)
  rw [zpow_natCast] at h
  exact h


/-! ## Integer conversions -/

theorem shr32_eq_fdiv (x : Int) (n : Nat) : shr32 x n = Int.fdiv x (2 ^ n) := by
  rw [shr32, Int.shiftRight_eq_div_pow, Int.fdiv_eq_ediv]
  · norm_cast
  · positivity

/-- C2. Every implemented conversion between two distinct integer formats is a shift by the
difference of the bit widths: a widening one returns `x * 2 ^ (w_out - w_in)`, which is in
range of the output format (no overflow), and a narrowing one returns
`floor (x / 2 ^ (w_in - w_out))`.  The implemented pairs are all those whose output is not
`Pcm8`. -/
theorem ConvertSample_pcm_is_shift (i o : DspFormat) (x : Int)
    (hi : i.isPcm = true) (ho : o.isPcm = true) (hne : i ≠ o) (hx : InRange i x) :
    (o = DspFormat.Pcm8 ↔ ConvertSample.pcmToPcm i o = none) ∧
    ∀ f, ConvertSample.pcmToPcm i o = some f →
      (i.pcmBits < o.pcmBits →
        f x = x * 2 ^ (o.pcmBits - i.pcmBits) ∧ InRange o (f x)) ∧
      (o.pcmBits < i.pcmBits →
        f x = Int.fdiv x (2 ^ (i.pcmBits - o.pcmBits)) ∧ InRange o (f x)) := by
  cases i <;> cases o <;> simp only [DspFormat.isPcm] at hi ho <;>
    first
    | exact absurd rfl hne
    | exact absurd hi (by decide)
    | exact absurd ho (by decide)
    | (refine ⟨by simp [ConvertSample.pcmToPcm], ?_⟩
       intro f hf
       first
       | (simp only [ConvertSample.pcmToPcm, reduceCtorEq] at hf; done)
       | (simp only [ConvertSample.pcmToPcm, Option.some.injEq] at hf
          subst hf
          simp only [InRange, DspFormat.pcmBits] at hx ⊢
          norm_num at hx ⊢
          simp only [ConvertSample.Pcm8_Pcm16, ConvertSample.Pcm8_Pcm24,
            ConvertSample.Pcm8_Pcm32, ConvertSample.Pcm16_Pcm24, ConvertSample.Pcm16_Pcm32,
            ConvertSample.Pcm24_Pcm32, ConvertSample.Pcm24_Pcm16, ConvertSample.Pcm32_Pcm16,
            ConvertSample.Pcm32_Pcm24, shr32_eq_fdiv, shl32, toInt16, toInt32]
          norm_num [Int.fdiv_eq_ediv]
          omega))

/-- Witness for `ConvertSample_pcm_is_shift`: one widening and one narrowing conversion. -/
theorem ConvertSample_pcm_is_shift_witness :
    (ConvertSample.Pcm16_Pcm32 (-3) = -3 * 2 ^ 16 ∧
      InRange DspFormat.Pcm32 (ConvertSample.Pcm16_Pcm32 (-3))) ∧
    (ConvertSample.Pcm32_Pcm24 (-3) = Int.fdiv (-3) (2 ^ 8) ∧
      InRange DspFormat.Pcm24 (ConvertSample.Pcm32_Pcm24 (-3))) :=
  ⟨((ConvertSample_pcm_is_shift DspFormat.Pcm16 DspFormat.Pcm32 (-3) rfl rfl (by decide)
      (by decide)).2 _ rfl).1 (by decide),
   ((ConvertSample_pcm_is_shift DspFormat.Pcm32 DspFormat.Pcm24 (-3) rfl rfl (by decide)
      (by decide)).2 _ rfl).2 (by decide)⟩

/-! ## Conversions to floating point -/

theorem abs_lt_of_inRange32 (x : Int) (hx : InRange DspFormat.Pcm32 x) : |x| < 2 ^ 53 := by
  simp only [InRange, DspFormat.pcmBits] at hx
  norm_num at hx
  rw [abs_lt]; constructor <;> omega

theorem abs_lt_of_inRange24 (x : Int) (hx : InRange DspFormat.Pcm24 x) : |x| < 2 ^ 24 := by
  simp only [InRange, DspFormat.pcmBits] at hx
  norm_num at hx
  rw [abs_lt]; constructor <;> omega

theorem inRange_mono16 (x : Int) (hx : InRange DspFormat.Pcm16 x) : InRange DspFormat.Pcm24 x := by
  simp only [InRange, DspFormat.pcmBits] at hx ⊢
  norm_num at hx ⊢
  omega

theorem inRange_mono24 (x : Int) (hx : InRange DspFormat.Pcm24 x) : InRange DspFormat.Pcm32 x := by
  simp only [InRange, DspFormat.pcmBits] at hx ⊢
  norm_num at hx ⊢
  omega

theorem inRange_mono8 (x : Int) (hx : InRange DspFormat.Pcm8 x) : InRange DspFormat.Pcm16 x := by
  simp only [InRange, DspFormat.pcmBits] at hx ⊢
  norm_num at hx ⊢
  omega

/-- Rounding `binary64` of an in-range sample divided by a (positive or negative) power of two. -/
theorem binary64_sample_div (x : Int) (hx : InRange DspFormat.Pcm32 x) (d : Int) (k : Nat)
    (hk : k ≤ 31) (hd : d = 2 ^ k ∨ d = -2 ^ k) :
    binary64 (binary64 (x : ℚ) / binary64 (d : ℚ)) = (x : ℚ) / (d : ℚ) := by
  have hx53 := abs_lt_of_inRange32 x hx
  have hpow : (2 : Int) ^ k < 2 ^ 53 := pow_lt_pow_right₀ (by norm_num) (by omega)
  have hd53 : |d| < 2 ^ 53 := by
    rcases hd with rfl | rfl
    · rw [abs_of_pos (by positivity)]; exact hpow
    · rw [abs_neg, abs_of_pos (by positivity)]; exact hpow
  rw [binary64_intCast x hx53, binary64_intCast d hd53]
  rcases hd with rfl | rfl
  · have := binary64_div_two_pow x k hx53 (by omega)
    push_cast
    exact this
  · have := binary64_div_two_pow (-x) k (by rwa [abs_neg]) (by omega)
    push_cast at this ⊢
    rw [div_neg, ← neg_div]
    exact this

/-- Rounding `binary32` of a sample of at most 24 bits divided by a power of two. -/
theorem binary32_sample_div (x : Int) (hx : InRange DspFormat.Pcm24 x) (d : Int) (k : Nat)
    (hk : k ≤ 31) (hd : d = 2 ^ k ∨ d = -2 ^ k) :
    binary32 (binary32 (x : ℚ) / binary32 (d : ℚ)) = (x : ℚ) / (d : ℚ) := by
  have hx24 := abs_lt_of_inRange24 x hx
  have hdd : binary32 (d : ℚ) = d := by
    rcases hd with rfl | rfl
    · have := binary32_two_pow 1 k (by norm_num) (by omega)
      push_cast at this ⊢
      simpa using this
    · have := binary32_two_pow (-1) k (by norm_num) (by omega)
      push_cast at this ⊢
      simpa using this
  rw [binary32_intCast x hx24, hdd]
  rcases hd with rfl | rfl
  · have := binary32_div_two_pow x k hx24 (by omega)
    push_cast
    exact this
  · have := binary32_div_two_pow (-x) k (by rwa [abs_neg]) (by omega)
    push_cast at this ⊢
    rw [div_neg, ← neg_div]
    exact this

/-- The divisors of the integer-to-floating conversions, as the program computes them in
`int` arithmetic: `-INT32_MIN` is not representable and comes out negative. -/
theorem divisor_values :
    neg32 INT8_MIN = 2 ^ 7 ∧ neg32 INT16_MIN = 2 ^ 15 ∧
    shr32 (neg32 INT32_MIN) 8 = -2 ^ 23 ∧ neg32 INT32_MIN = -2 ^ 31 := by
  decide

theorem Pcm8_Double_eq (x : Int) (hx : InRange DspFormat.Pcm8 x) :
    ConvertSample.Pcm8_Double x = (x : ℚ) / 2 ^ 7 := by
  rw [ConvertSample.Pcm8_Double, divisor_values.1,
    binary64_sample_div x (inRange_mono24 x (inRange_mono16 x (inRange_mono8 x hx))) _ 7
      (by norm_num) (Or.inl rfl)]
  push_cast; rfl

theorem Pcm16_Double_eq (x : Int) (hx : InRange DspFormat.Pcm16 x) :
    ConvertSample.Pcm16_Double x = (x : ℚ) / 2 ^ 15 := by
  rw [ConvertSample.Pcm16_Double, divisor_values.2.1,
    binary64_sample_div x (inRange_mono24 x (inRange_mono16 x hx)) _ 15
      (by norm_num) (Or.inl rfl)]
  push_cast; rfl

theorem Pcm24_Double_eq (x : Int) (hx : InRange DspFormat.Pcm24 x) :
    ConvertSample.Pcm24_Double x = -((x : ℚ) / 2 ^ 23) := by
  rw [ConvertSample.Pcm24_Double, divisor_values.2.2.1,
    binary64_sample_div x (inRange_mono24 x hx) _ 23 (by norm_num) (Or.inr rfl)]
  push_cast; rw [div_neg]; norm_num

theorem Pcm32_Double_eq (x : Int) (hx : InRange DspFormat.Pcm32 x) :
    ConvertSample.Pcm32_Double x = -((x : ℚ) / 2 ^ 31) := by
  rw [ConvertSample.Pcm32_Double, divisor_values.2.2.2,
    binary64_sample_div x hx _ 31 (by norm_num) (Or.inr rfl)]
  push_cast; rw [div_neg]; norm_num

theorem Pcm8_Float_eq (x : Int) (hx : InRange DspFormat.Pcm8 x) :
    ConvertSample.Pcm8_Float x = (x : ℚ) / 2 ^ 7 := by
  rw [ConvertSample.Pcm8_Float, divisor_values.1,
    binary32_sample_div x (inRange_mono16 x (inRange_mono8 x hx)) _ 7
      (by norm_num) (Or.inl rfl)]
  push_cast; rfl

theorem Pcm16_Float_eq (x : Int) (hx : InRange DspFormat.Pcm16 x) :
    ConvertSample.Pcm16_Float x = (x : ℚ) / 2 ^ 15 := by
  rw [ConvertSample.Pcm16_Float, divisor_values.2.1,
    binary32_sample_div x (inRange_mono16 x hx) _ 15 (by norm_num) (Or.inl rfl)]
  push_cast; rfl

theorem Pcm24_Float_eq (x : Int) (hx : InRange DspFormat.Pcm24 x) :
    ConvertSample.Pcm24_Float x = -((x : ℚ) / 2 ^ 23) := by
  rw [ConvertSample.Pcm24_Float, divisor_values.2.2.1,
    binary32_sample_div x hx _ 23 (by norm_num) (Or.inr rfl)]
  push_cast; rw [div_neg]; norm_num

/-- C3, evaluated on the code.  The divisor `-INT32_MIN`, computed in `int`, is `INT32_MIN`
itself, so the 24- and 32-bit conversions to floating point divide by a negative number:
a positive `Pcm32` sample comes out negative, and the minimum sample of `Pcm24` and `Pcm32`
maps to `+1` instead of `-1`.  The 8- and 16-bit conversions divide by `2 ^ (n - 1)`. -/
theorem ConvertSample_Pcm32_Double_inverts_sign :
    neg32 INT32_MIN = INT32_MIN ∧
    ConvertSample.Pcm32_Double 1073741824 = -(1 / 2) ∧
    ConvertSample.Pcm32_Double INT32_MIN = 1 ∧
    ConvertSample.Pcm24_Double (-8388608) = 1 ∧
    ConvertSample.Pcm24_Float (-8388608) = 1 ∧
    ConvertSample.Pcm16_Double INT16_MIN = -1 ∧
    ConvertSample.Pcm8_Double INT8_MIN = -1 := by
  refine ⟨by decide, ?_, ?_, ?_, ?_, ?_, ?_⟩
  · rw [Pcm32_Double_eq _ (by decide)]; norm_num
  · rw [Pcm32_Double_eq _ (by decide)]; norm_num [INT32_MIN]
  · rw [Pcm24_Double_eq _ (by decide)]; norm_num
  · rw [Pcm24_Float_eq _ (by decide)]; norm_num
  · rw [Pcm16_Double_eq _ (by decide)]; norm_num [INT16_MIN]
  · rw [Pcm8_Double_eq _ (by decide)]; norm_num [INT8_MIN]

/-! ## Conversions from floating point -/

theorem truncQ_div (a b : Int) (hb : 0 < b) : truncQ ((a : ℚ) / (b : ℚ)) = Int.tdiv a b := by
  have hbq : (0 : ℚ) < b := by exact_mod_cast hb
  obtain ⟨n, rfl⟩ : ∃ n : Nat, b = n := ⟨b.toNat, by omega⟩
  unfold truncQ
  by_cases ha : 0 ≤ a
  · have : (0 : ℚ) ≤ (a : ℚ) / ((n : Int) : ℚ) := div_nonneg (by exact_mod_cast ha) hbq.le
    rw [if_pos this]
    have h := Rat.floor_intCast_div_natCast a n
    rw [Int.cast_natCast, h, Int.tdiv_eq_ediv ha (by omega)]
  · have hneg : (a : ℚ) / ((n : Int) : ℚ) < 0 :=
      div_neg_of_neg_of_pos (by exact_mod_cast (not_le.mp ha)) hbq
    rw [if_neg (not_le.mpr hneg)]
    have h := Rat.floor_intCast_div_natCast (-a) n
    have hc : ⌈(a : ℚ) / ((n : Int) : ℚ)⌉ = -⌊((-a : Int) : ℚ) / (n : ℚ)⌋ := by
      rw [Int.cast_natCast, Int.cast_neg, neg_div, Int.floor_neg, neg_neg]
    rw [hc, h]
    obtain ⟨m, rfl⟩ : ∃ m : Int, a = -m := ⟨-a, by omega⟩
    rw [neg_neg, Int.neg_tdiv, Int.tdiv_eq_ediv (by omega) (by omega)]

/-- The multipliers of the floating-to-integer conversions, as the program computes them:
`INT16_MAX`, `INT32_MAX >> 8` and `INT32_MAX`, the last one rounded to `2 ^ 31` when it is
converted to `float`. -/
theorem multiplier_values :
    binary64 (INT16_MAX : ℚ) = 2 ^ 15 - 1 ∧ binary64 (shr32 INT32_MAX 8 : ℚ) = 2 ^ 23 - 1 ∧
    binary64 (INT32_MAX : ℚ) = 2 ^ 31 - 1 ∧
    binary32 (INT16_MAX : ℚ) = 2 ^ 15 - 1 ∧ binary32 (shr32 INT32_MAX 8 : ℚ) = 2 ^ 23 - 1 ∧
    binary32 (INT32_MAX : ℚ) = 2 ^ 31 := by
  have h8 : shr32 INT32_MAX 8 = 8388607 := by decide
  refine ⟨?_, ?_, ?_, ?_, ?_, ?_⟩
  · rw [binary64_intCast _ (by decide)]; norm_num [INT16_MAX]
  · rw [binary64_intCast _ (by decide), h8]; norm_num
  · rw [binary64_intCast _ (by decide)]; norm_num [INT32_MAX]
  · rw [binary32_intCast _ (by decide)]; norm_num [INT16_MAX]
  · rw [h8, binary32_intCast _ (by decide)]; norm_num
  · have hlog : Int.log 2 |((INT32_MAX : Int) : ℚ)| = 30 := by
      have h1 : |((INT32_MAX : Int) : ℚ)| = ((2147483647 : Nat) : ℚ) := by
        norm_num [INT32_MAX]
      rw [h1, Int.log_natCast]
      exact_mod_cast (Nat.log_eq_iff (by norm_num)).mpr ⟨by norm_num, by norm_num⟩
    have hfl : ⌊((INT32_MAX : Int) : ℚ) / 2 ^ (7 : Int)⌋ = 16777215 := by
      rw [Int.floor_eq_iff]
      norm_num [INT32_MAX]
    have hne : ((INT32_MAX : Int) : ℚ) ≠ 0 := by norm_num [INT32_MAX]
    simp only [binary32, fpRound, if_neg hne, hlog]
    norm_num only [roundHalfEven, hfl]
    norm_num [INT32_MAX]

theorem castInt16_of_inRange (t : Int) (ht : InRange DspFormat.Pcm16 t) (a b : Int)
    (hb : 0 < b) (h : Int.tdiv a b = t) : castInt16 ((a : ℚ) / (b : ℚ)) = t := by
  simp only [InRange, DspFormat.pcmBits] at ht
  norm_num at ht
  simp only [castInt16, castInt32, truncQ_div a b hb, h, INT32_MIN, INT32_MAX, toInt16]
  rw [if_pos (by omega)]
  omega

theorem Double_Pcm16_Pcm16_Double (x : Int) (hx : InRange DspFormat.Pcm16 x) :
    ConvertSample.Double_Pcm16 (ConvertSample.Pcm16_Double x) =
      Int.tdiv (x * (2 ^ 15 - 1)) (2 ^ 15) := by
  have hx' := hx
  simp only [InRange, DspFormat.pcmBits] at hx'
  norm_num at hx'
  rw [Pcm16_Double_eq x hx, ConvertSample.Double_Pcm16, multiplier_values.1]
  have hprod : (x : ℚ) / 2 ^ 15 * (2 ^ 15 - 1) = ((x * (2 ^ 15 - 1) : Int) : ℚ) / 2 ^ 15 := by
    push_cast; ring
  rw [hprod, binary64_div_two_pow _ 15 (by rw [abs_lt]; constructor <;> omega) (by norm_num)]
  have hq : ((x * (2 ^ 15 - 1) : Int) : ℚ) / 2 ^ 15 =
      ((x * (2 ^ 15 - 1) : Int) : ℚ) / ((2 ^ 15 : Int) : ℚ) := by push_cast; rfl
  rw [hq]
  apply castInt16_of_inRange _ _ _ _ (by norm_num) rfl
  simp only [InRange, DspFormat.pcmBits]
  norm_num
  rcases le_or_lt 0 x with h | h
  · rw [Int.tdiv_eq_ediv (by omega) (by norm_num)]; omega
  · obtain ⟨m, rfl⟩ : ∃ m : Int, x = -m := ⟨-x, by omega⟩
    rw [Int.neg_mul, Int.neg_tdiv, Int.tdiv_eq_ediv (by omega) (by norm_num)]; omega

/-- C4 as stated fails: the conversion from `double` multiplies by `INT16_MAX`, so one half
becomes 16383 (not 16384), and the `Pcm16` sample `1` does not survive the round trip through
`Double`: it comes back as `0`. -/
theorem Double_Pcm16_roundtrip_not_identity :
    ConvertSample.Double_Pcm16 (1 / 2) = 16383 ∧
    ConvertSample.Double_Pcm16 (ConvertSample.Pcm16_Double 1) = 0 ∧
    ConvertSample.Double_Pcm16 (ConvertSample.Pcm16_Double 1) ≠ 1 := by
  have h1 : ConvertSample.Double_Pcm16 (ConvertSample.Pcm16_Double 1) = 0 := by
    rw [Double_Pcm16_Pcm16_Double 1 (by decide)]; decide
  refine ⟨?_, h1, by rw [h1]; decide⟩
  have h := Double_Pcm16_Pcm16_Double 16384 (by decide)
  rw [Pcm16_Double_eq 16384 (by decide)] at h
  have e : ((16384 : Int) : ℚ) / 2 ^ 15 = 1 / 2 := by norm_num
  rw [e] at h
  rw [h]; decide

/-- C4, amended.  The floating-to-integer conversions multiply by the largest value of the
integer format, `2 ^ (n - 1) - 1` (for `Float` to `Pcm32` the constant is rounded to `float`,
which makes it `2 ^ 31`), and truncate toward zero.  Hence a `Pcm16` sample `x` sent through
`Double` and back returns `trunc (x * 32767 / 32768)`: one step closer to zero than `x`,
and `0` for `0`. -/
theorem Double_Pcm16_roundtrip (x : Int) (hx : InRange DspFormat.Pcm16 x) :
    (∀ q : ℚ,
      ConvertSample.Double_Pcm16 q = castInt16 (binary64 (q * (2 ^ 15 - 1))) ∧
      ConvertSample.Double_Pcm24 q = castInt32 (binary64 (q * (2 ^ 23 - 1))) ∧
      ConvertSample.Double_Pcm32 q = castInt32 (binary64 (q * (2 ^ 31 - 1))) ∧
      ConvertSample.Float_Pcm16 q = castInt16 (binary32 (q * (2 ^ 15 - 1))) ∧
      ConvertSample.Float_Pcm24 q = castInt32 (binary32 (q * (2 ^ 23 - 1))) ∧
      ConvertSample.Float_Pcm32 q = castInt32 (binary32 (q * 2 ^ 31))) ∧
    ConvertSample.Pcm16_Double x = (x : ℚ) / 2 ^ 15 ∧
    ConvertSample.Double_Pcm16 (ConvertSample.Pcm16_Double x) =
      Int.tdiv (x * (2 ^ 15 - 1)) (2 ^ 15) ∧
    (0 < x → ConvertSample.Double_Pcm16 (ConvertSample.Pcm16_Double x) = x - 1) ∧
    (x < 0 → ConvertSample.Double_Pcm16 (ConvertSample.Pcm16_Double x) = x + 1) ∧
    (x = 0 → ConvertSample.Double_Pcm16 (ConvertSample.Pcm16_Double x) = 0) := by
  have hx' := hx
  simp only [InRange, DspFormat.pcmBits] at hx'
  norm_num at hx'
  obtain ⟨m1, m2, m3, m4, m5, m6⟩ := multiplier_values
  refine ⟨fun q => ⟨?_, ?_, ?_, ?_, ?_, ?_⟩, Pcm16_Double_eq x hx,
    Double_Pcm16_Pcm16_Double x hx, ?_, ?_, ?_⟩
  · rw [ConvertSample.Double_Pcm16, m1]
  · rw [ConvertSample.Double_Pcm24, m2]
  · rw [ConvertSample.Double_Pcm32, m3]
  · rw [ConvertSample.Float_Pcm16, m4]
  · rw [ConvertSample.Float_Pcm24, m5]
  · rw [ConvertSample.Float_Pcm32, m6]
  · intro h
    rw [Double_Pcm16_Pcm16_Double x hx, Int.tdiv_eq_ediv (by omega) (by norm_num)]; omega
  · intro h
    rw [Double_Pcm16_Pcm16_Double x hx]
    obtain ⟨m, rfl⟩ : ∃ m : Int, x = -m := ⟨-x, by omega⟩
    rw [Int.neg_mul, Int.neg_tdiv, Int.tdiv_eq_ediv (by omega) (by norm_num)]; omega
  · rintro rfl
    rw [Double_Pcm16_Pcm16_Double 0 hx]; decide

/-- Witness for `Double_Pcm16_roundtrip` at the sample `1000`, which comes back as `999`. -/
theorem Double_Pcm16_roundtrip_witness :
    InRange DspFormat.Pcm16 1000 ∧
    ConvertSample.Double_Pcm16 (ConvertSample.Pcm16_Double 1000) = 1000 - 1 :=
  ⟨by decide, (Double_Pcm16_roundtrip 1000 (by decide)).2.2.2.1 (by decide)⟩

/-! ## ToFormat: no-op and rejected targets -/

/-- The early return of `ToFormat`: nothing is done to an empty chunk or to a chunk that
already has the target format. -/
theorem ToFormat_noop (alloc : Allocator) (format : DspFormat) (chunk : DspChunk)
    (hf : format ≠ DspFormat.Pcm8)
    (h : chunk.IsEmpty = true ∨ chunk.GetFormat = format) :
    DspChunk.ToFormat alloc format chunk = Except.ok chunk := by
  unfold DspChunk.ToFormat
  rw [if_neg hf]
  rcases h with h | h
  · simp [h]
  · simp [h]

/-- C5. For a target format other than `Pcm8`, `ToFormat` returns normally and leaves an empty
chunk, and a chunk that already has the target format, exactly as it was: every member,
hence format, channel count, rate, byte length and data, is unchanged. -/
theorem ToFormat_same_format_unchanged (alloc : Allocator) (format : DspFormat)
    (chunk : DspChunk) (hf : format ≠ DspFormat.Pcm8)
    (h : chunk.IsEmpty = true ∨ chunk.GetFormat = format) :
    ∃ c1, DspChunk.ToFormat alloc format chunk = Except.ok c1 ∧ c1 = chunk ∧
      c1.GetFormat = chunk.GetFormat ∧ c1.GetChannelCount = chunk.GetChannelCount ∧
      c1.GetRate = chunk.GetRate ∧ c1.GetSize = chunk.GetSize ∧ c1.bytes = chunk.bytes :=
  ⟨chunk, ToFormat_noop alloc format chunk hf h, rfl, rfl, rfl, rfl, rfl, rfl⟩

/-- Witness for `ToFormat_same_format_unchanged`: a two-byte `Pcm16` chunk converted to
`Pcm16`. -/
theorem ToFormat_same_format_unchanged_witness :
    ∃ c1, DspChunk.ToFormat (fun _ => none) DspFormat.Pcm16
        { DspChunk.ctorDefault with m_dataSize := 2, m_data := some [1, 2] } = Except.ok c1 ∧
      c1 = { DspChunk.ctorDefault with m_dataSize := 2, m_data := some [1, 2] } := by
  obtain ⟨c1, h1, h2, _⟩ := ToFormat_same_format_unchanged (fun _ => none) DspFormat.Pcm16
    { DspChunk.ctorDefault with m_dataSize := 2, m_data := some [1, 2] } (by decide)
    (Or.inr rfl)
  exact ⟨c1, h1, h2⟩

/-- What `ConvertChunk` computes when its assertion holds. -/
theorem ConvertChunk_eq (alloc : Allocator) (o : DspFormat) (c : DspChunk)
    (hne : (c.IsEmpty || decide (o = c.GetFormat)) = false) :
    ConvertChunk alloc o c =
      if 0 < mulSize (mulUInt32 (DspFormatSize o) c.m_channels) c.GetFrameCount then
        match alloc (mulSize (mulUInt32 (DspFormatSize o) c.m_channels) c.GetFrameCount) with
        | none => Except.error Failure.bad_alloc
        | some g => Except.ok
            { m_mediaSample := false
              m_format := o
              m_channels := c.m_channels
              m_rate := c.m_rate
              m_dataSize := mulSize (mulUInt32 (DspFormatSize o) c.m_channels) c.GetFrameCount
              m_constData := none
              m_delayedCopy := false
              m_data := some (memWrite
                (freshBlock g (mulSize (mulUInt32 (DspFormatSize o) c.m_channels) c.GetFrameCount))
                (ConvertSamples c.m_format o (c.GetConstData.getD []) c.GetSampleCount)) }
      else Except.ok
        { m_mediaSample := false
          m_format := o
          m_channels := c.m_channels
          m_rate := c.m_rate
          m_dataSize := mulSize (mulUInt32 (DspFormatSize o) c.m_channels) c.GetFrameCount
          m_constData := none
          m_delayedCopy := false
          m_data := none } := by
  have hne1 : (c.IsEmpty || decide (o = c.m_format)) = false := hne
  unfold ConvertChunk
  simp only [DspChunk.GetFormat, hne1, Bool.false_eq_true, if_false, DspChunk.ctorSized,
    DspChunk.Allocate, DspChunk.GetChannelCount, DspChunk.GetRate, gt_iff_lt]
  by_cases hs : 0 < mulSize (mulUInt32 (DspFormatSize o) c.m_channels) c.GetFrameCount
  · simp only [if_pos hs]
    cases alloc (mulSize (mulUInt32 (DspFormatSize o) c.m_channels) c.GetFrameCount) with
    | none => rfl
    | some g =>
      simp [DspChunk.GetData, DspChunk.InvokeDelayedCopy, DspChunk.assignMove]
  · simp [if_neg hs, DspChunk.GetData, DspChunk.InvokeDelayedCopy, DspChunk.assignMove]

theorem ConvertChunk_format (alloc : Allocator) (o : DspFormat) (c c1 : DspChunk)
    (h : ConvertChunk alloc o c = Except.ok c1) :
    c1.m_format = o ∧ c1.m_channels = c.m_channels ∧ c1.m_rate = c.m_rate ∧
      c1.m_dataSize = mulSize (mulUInt32 (DspFormatSize o) c.m_channels) c.GetFrameCount := by
  by_cases hne : (c.IsEmpty || decide (o = c.GetFormat)) = false
  · rw [ConvertChunk_eq alloc o c hne] at h
    split at h
    · split at h
      · cases h
      · cases h; simp
    · cases h; simp
  · unfold ConvertChunk at h
    simp only [Bool.not_eq_false] at hne
    simp only [hne, if_true] at h
    cases h

/-- C6. `ToFormat` with target `Pcm8` fails its assertion for every chunk, and a `ToFormat`
that returns leaves the format unchanged or sets it to the (non-`Pcm8`) target: a chunk of
another format never becomes `Pcm8`. -/
theorem ToFormat_rejects_Pcm8 (alloc : Allocator) (format : DspFormat) (chunk : DspChunk) :
    DspChunk.ToFormat alloc DspFormat.Pcm8 chunk = Except.error Failure.assertion ∧
    ∀ c1, DspChunk.ToFormat alloc format chunk = Except.ok c1 →
      (c1.m_format = chunk.m_format ∨ (c1.m_format = format ∧ format ≠ DspFormat.Pcm8)) ∧
      (chunk.m_format ≠ DspFormat.Pcm8 → c1.m_format ≠ DspFormat.Pcm8) := by
  refine ⟨by simp [DspChunk.ToFormat], ?_⟩
  intro c1 h
  have key : c1.m_format = chunk.m_format ∨ (c1.m_format = format ∧ format ≠ DspFormat.Pcm8) := by
    unfold DspChunk.ToFormat at h
    split at h
    · cases h
    · rename_i hf
      split at h
      · left; cases h; rfl
      · right
        refine ⟨?_, hf⟩
        cases format <;> simp only at h
        · exact absurd rfl hf
        all_goals exact (ConvertChunk_format _ _ _ _ h).1
  refine ⟨key, ?_⟩
  intro hne
  rcases key with k | ⟨k, hf⟩
  · rw [k]; exact hne
  · rw [k]; exact hf

/-- Witness for `ToFormat_rejects_Pcm8`: a `Pcm16` chunk of one sample converted to `Pcm32`
comes out as `Pcm32`, not `Pcm8`. -/
theorem ToFormat_rejects_Pcm8_witness :
    ∃ c1, DspChunk.ToFormat (fun _ => some (fun _ => 0)) DspFormat.Pcm32
        { DspChunk.ctorDefault with m_dataSize := 2, m_data := some [1, 2] } = Except.ok c1 ∧
      c1.m_format ≠ DspFormat.Pcm8 := by
  have h := (ToFormat_rejects_Pcm8 (fun _ => some (fun _ => 0)) DspFormat.Pcm32
    { DspChunk.ctorDefault with m_dataSize := 2, m_data := some [1, 2] }).2
  refine ⟨_, rfl, (h _ rfl).2 (by decide)⟩

/-! ## Memory lemmas -/

theorem length_leBytes (size u : Nat) : (leBytes size u).length = size := by
  induction size generalizing u with
  | zero => rfl
  | succ n ih => simp [leBytes, ih]

theorem leValue_lt (bs : List Byte) : leValue bs < 256 ^ bs.length := by
  induction bs with
  | nil => simp [leValue]
  | cons b bs ih =>
    simp only [leValue, List.length_cons, pow_succ]
    have := b.isLt
    omega

theorem leValue_leBytes (size u : Nat) : leValue (leBytes size u) = u % 256 ^ size := by
  induction size generalizing u with
  | zero => simp [leBytes, leValue, Nat.mod_one]
  | succ n ih =>
    simp only [leBytes, leValue, ih, pow_succ]
    rw [Nat.mul_comm (256 ^ n) 256, Nat.mod_mul]

theorem leBytes_leValue (bs : List Byte) : leBytes bs.length (leValue bs) = bs := by
  induction bs with
  | nil => rfl
  | cons b bs ih =>
    have hb := b.isLt
    simp only [List.length_cons, leBytes, leValue]
    congr 1
    · apply Fin.ext
      simp only
      omega
    · have : (b.val + 256 * leValue bs) / 256 = leValue bs := by omega
      rw [this, ih]

theorem memWrite_of_length_eq (dst src : List Byte) (h : src.length = dst.length) :
    memWrite dst src = src := by
  simp [memWrite, ← h]

theorem length_freshBlock (g : Nat → Byte) (size : Nat) : (freshBlock g size).length = size := by
  simp [freshBlock]

theorem length_flatMap_range {α : Type} (f : Nat → List α) (k : Nat)
    (hf : ∀ i, (f i).length = k) (n : Nat) : ((List.range n).flatMap f).length = n * k := by
  induction n with
  | zero => simp
  | succ n ih =>
    rw [List.range_succ, List.flatMap_append, List.length_append, ih]
    simp [hf, Nat.succ_mul]

/-- Sample `i` of an array written sample by sample is the `i`-th sample written. -/
theorem slice_flatMap_range (f : Nat → List Byte) (k : Nat) (hf : ∀ i, (f i).length = k)
    (n i : Nat) (hi : i < n) : slice ((List.range n).flatMap f) (i * k) k = f i := by
  induction n with
  | zero => omega
  | succ n ih =>
    rw [List.range_succ, List.flatMap_append]
    have hlen := length_flatMap_range f k hf n
    simp only [List.flatMap_cons, List.flatMap_nil, List.append_nil]
    by_cases h : i < n
    · have h1 : i * k + k ≤ ((List.range n).flatMap f).length := by
        rw [hlen]
        calc i * k + k = (i + 1) * k := by ring
          _ ≤ n * k := Nat.mul_le_mul_right k h
      unfold slice at ih ⊢
      rw [List.drop_append_of_le_length (by omega),
        List.take_append_of_le_length (by rw [List.length_drop]; omega)]
      exact ih h
    · have hin : i = n := by omega
      subst hin
      unfold slice
      rw [← hlen, List.drop_left, ← hf i, List.take_length]

/-- Reading an array back sample by sample gives its leading bytes. -/
theorem flatMap_slice (mem : List Byte) (k n : Nat) (h : n * k ≤ mem.length) :
    (List.range n).flatMap (fun i => slice mem (i * k) k) = mem.take (n * k) := by
  induction n with
  | zero => simp
  | succ n ih =>
    have h1 : n * k ≤ mem.length := by
      have : n * k ≤ (n + 1) * k := Nat.mul_le_mul_right k (Nat.le_succ n)
      omega
    rw [List.range_succ, List.flatMap_append, ih h1, Nat.succ_mul, List.take_add]
    simp [slice]

theorem length_slice (mem : List Byte) (offset size : Nat) (h : offset + size ≤ mem.length) :
    (slice mem offset size).length = size := by
  simp [slice]; omega

theorem slice_take (mem : List Byte) (offset size n : Nat) (h : offset + size ≤ n) :
    slice (mem.take n) offset size = slice mem offset size := by
  unfold slice
  rw [List.drop_take, List.take_take]
  congr 1
  omega

/-! ## The sized constructor -/

/-- C9 as stated fails: `Allocate` takes the block from `_aligned_malloc` as it is and nothing
clears it, so the bytes of a freshly sized chunk are those the block happens to hold; here
every byte of a one-sample `Pcm16` chunk is `0xCD`. -/
theorem ctorSized_data_not_zeroed :
    ∃ c, DspChunk.ctorSized (fun _ => some (fun _ => 0xCD)) DspFormat.Pcm16 1 1 44100 =
        Except.ok c ∧
      c.bytes = [0xCD, 0xCD] ∧ ¬ ∀ b ∈ c.bytes, b = 0 := by
  refine ⟨_, rfl, rfl, ?_⟩
  intro h
  exact absurd (h 0xCD (List.mem_cons_self _ _)) (by decide)

/-- C9, amended.  When the size computation does not overflow and the allocation succeeds,
the sized constructor returns a chunk of the given format, channel count and rate whose byte
length is exactly `DspFormatSize format * channels * frames` (1, 2, 4, 4, 4, 8 bytes per
sample) and whose data are the bytes of the block the allocator returned, whatever they
are. -/
theorem ctorSized_spec (alloc : Allocator) (format : DspFormat) (channels frames rate : Nat)
    (g : Nat → Byte)
    (h32 : DspFormatSize format * channels < 2 ^ 32)
    (h64 : DspFormatSize format * channels * frames < 2 ^ 64)
    (halloc : alloc (DspFormatSize format * channels * frames) = some g) :
    (DspFormatSize DspFormat.Pcm8 = 1 ∧ DspFormatSize DspFormat.Pcm16 = 2 ∧
      DspFormatSize DspFormat.Pcm24 = 4 ∧ DspFormatSize DspFormat.Pcm32 = 4 ∧
      DspFormatSize DspFormat.Float = 4 ∧ DspFormatSize DspFormat.Double = 8) ∧
    ∃ c, DspChunk.ctorSized alloc format channels frames rate = Except.ok c ∧
      c.m_format = format ∧ c.m_channels = channels ∧ c.m_rate = rate ∧
      c.m_dataSize = DspFormatSize format * channels * frames ∧
      c.bytes = freshBlock g (DspFormatSize format * channels * frames) ∧
      c.bytes.length = DspFormatSize format * channels * frames := by
  refine ⟨by decide, ?_⟩
  have hsize : mulSize (mulUInt32 (DspFormatSize format) channels) frames =
      DspFormatSize format * channels * frames := by
    unfold mulSize mulUInt32
    rw [Nat.mod_eq_of_lt h32, Nat.mod_eq_of_lt h64]
  unfold DspChunk.ctorSized DspChunk.Allocate
  simp only [hsize]
  by_cases hs : DspFormatSize format * channels * frames > 0
  · simp only [if_pos hs, halloc]
    refine ⟨_, rfl, rfl, rfl, rfl, rfl, ?_, ?_⟩
    · simp [DspChunk.bytes, DspChunk.GetConstData, length_freshBlock]
    · simp [DspChunk.bytes, DspChunk.GetConstData, length_freshBlock]
  · simp only [if_neg hs]
    have h0 : DspFormatSize format * channels * frames = 0 := by omega
    refine ⟨_, rfl, rfl, rfl, rfl, rfl, ?_, ?_⟩
    · simp [DspChunk.bytes, DspChunk.GetConstData, h0, freshBlock]
    · simp [DspChunk.bytes, DspChunk.GetConstData, h0]

/-- Witness for `ctorSized_spec`: two stereo `Pcm16` frames take 8 bytes. -/
theorem ctorSized_spec_witness :
    ∃ c, DspChunk.ctorSized (fun _ => some (fun _ => 0xCD)) DspFormat.Pcm16 2 2 44100 =
        Except.ok c ∧ c.m_dataSize = 8 ∧ c.bytes.length = 8 := by
  obtain ⟨c, h1, _, _, _, h5, _, h7⟩ := (ctorSized_spec (fun _ => some (fun _ => 0xCD))
    DspFormat.Pcm16 2 2 44100 (fun _ => 0xCD) (by decide) (by decide) rfl).2
  exact ⟨c, h1, h5, h7⟩

/-! ## The sample constructor: unpacking of packed 24-bit PCM -/

theorem or32_unpack (x h : Nat) (hx : x < 65536) (hh : h < 256) :
    or32 (x : Int) (shr32 (shl32 (h : Int) 24) 8) =
      (x : Int) + 65536 * h - (if 128 ≤ h then 16777216 else 0) := by
  have hshift : (shr32 (shl32 (h : Int) 24) 8 % 4294967296).toNat =
      2 ^ 16 * (if 128 ≤ h then h + 65280 else h) := by
    simp only [shr32, shl32, toInt32, Int.shiftRight_eq_div_pow]
    split <;> omega
  have hxn : ((x : Int) % 4294967296).toNat = x := by omega
  unfold or32
  rw [hshift, hxn, Nat.lor_comm, ← Nat.mul_add_lt_is_or (by simpa using hx)]
  unfold toInt32
  split <;> (push_cast; omega)

theorem slice_two (mem : List Byte) (k : Nat) (h : k + 1 < mem.length) :
    slice mem k 2 = [mem.get ⟨k, by omega⟩, mem.get ⟨k + 1, h⟩] := by
  unfold slice
  rw [List.drop_eq_getElem_cons (by omega), List.drop_eq_getElem_cons (by omega)]
  rfl

theorem slice_one (mem : List Byte) (k : Nat) (h : k < mem.length) :
    slice mem k 1 = [mem.get ⟨k, h⟩] := by
  unfold slice
  rw [List.drop_eq_getElem_cons (by omega)]
  rfl

theorem unpackPcm24_eq (src : List Byte) (i : Nat) (h : i * 3 + 2 < src.length) :
    unpackPcm24 src i =
      ((src.get ⟨i * 3, by omega⟩).val : Int) + 256 * (src.get ⟨i * 3 + 1, by omega⟩).val +
        65536 * (src.get ⟨i * 3 + 2, h⟩).val -
        (if 128 ≤ (src.get ⟨i * 3 + 2, h⟩).val then 16777216 else 0) := by
  unfold unpackPcm24
  simp only [slice_two src (i * 3) (by omega), slice_one src (i * 3 + 2) h, leValue]
  have h0 := (src.get ⟨i * 3, by omega⟩).isLt
  have h1 := (src.get ⟨i * 3 + 1, by omega⟩).isLt
  have h2 := (src.get ⟨i * 3 + 2, h⟩).isLt
  have := or32_unpack ((src.get ⟨i * 3, by omega⟩).val + 256 * ((src.get ⟨i * 3 + 1, by omega⟩).val + 256 * 0))
    ((src.get ⟨i * 3 + 2, h⟩).val + 256 * 0) (by omega) (by omega)
  rw [this]
  push_cast
  split <;> split <;> omega

theorem toInt32_leValue_storeInt32 (v : Int) : toInt32 (leValue (storeInt32 v)) = toInt32 v := by
  unfold storeInt32
  rw [leValue_leBytes]
  unfold toInt32
  norm_num
  omega

theorem toInt16_leValue_storeInt16 (v : Int) : toInt16 (leValue (storeInt16 v)) = toInt16 v := by
  unfold storeInt16
  rw [leValue_leBytes]
  unfold toInt16
  norm_num
  omega

theorem loadInt32_flatMap_storeInt32 (f : Nat → Int) (n i : Nat) (hi : i < n) :
    loadInt32 ((List.range n).flatMap (fun j => storeInt32 (f j))) i = toInt32 (f i) := by
  unfold loadInt32
  rw [slice_flatMap_range (fun j => storeInt32 (f j)) 4 (fun j => length_leBytes 4 _) n i hi]
  exact toInt32_leValue_storeInt32 (f i)

theorem loadInt16_flatMap_storeInt16 (f : Nat → Int) (n i : Nat) (hi : i < n) :
    loadInt16 ((List.range n).flatMap (fun j => storeInt16 (f j))) i = toInt16 (f i) := by
  unfold loadInt16
  rw [slice_flatMap_range (fun j => storeInt16 (f j)) 2 (fun j => length_leBytes 2 _) n i hi]
  exact toInt16_leValue_storeInt16 (f i)

/-- C10. A chunk built on a borrowed packed 24-bit PCM source of `lActual` bytes is unpacked
by the constructor itself: the deferred-copy flag is clear, the chunk holds
`lActual / 3` samples in `lActual / 3 * 4` bytes, and sample `i` is the sign-extended
little-endian 24-bit value of source bytes `3 i`, `3 i + 1`, `3 i + 2`, which lies in
`[-2 ^ 23, 2 ^ 23 - 1]`. -/
theorem ctorSample_unpacks_Pcm24 (alloc : Allocator) (uninit : DspFormat)
    (sampleProps : AM_SAMPLE2_PROPERTIES) (sampleFormat : WAVEFORMATEX) (src : List Byte)
    (g : Nat → Byte)
    (htag : sampleFormat.wFormatTag = WAVE_FORMAT_PCM ∨
      (sampleFormat.wFormatTag = WAVE_FORMAT_EXTENSIBLE ∧
        sampleFormat.SubFormat = KSDATAFORMAT_SUBTYPE.PCM))
    (hbits : sampleFormat.wBitsPerSample = 24)
    (hsrc : sampleProps.pbBuffer = some src) (hlen : sampleProps.lActual ≤ src.length)
    (halloc : alloc (sampleProps.lActual / 3 * 4) = some g) :
    ∃ c, DspChunk.ctorSample alloc uninit true sampleProps sampleFormat = Except.ok c ∧
      c.m_delayedCopy = false ∧ c.m_format = DspFormat.Pcm24 ∧
      c.m_dataSize = sampleProps.lActual / 3 * 4 ∧
      c.GetSampleCount = sampleProps.lActual / 3 ∧
      c.bytes.length = sampleProps.lActual / 3 * 4 ∧
      ∀ i, i < sampleProps.lActual / 3 →
        loadInt32 c.bytes i =
          ((src.getD (3 * i) 0).val : Int) + 256 * (src.getD (3 * i + 1) 0).val +
            65536 * (src.getD (3 * i + 2) 0).val -
            (if 128 ≤ (src.getD (3 * i + 2) 0).val then 2 ^ 24 else 0) ∧
        InRange DspFormat.Pcm24 (loadInt32 c.bytes i) := by
  have hfmt : sampleFormatOf uninit sampleFormat = DspFormat.Pcm24 := by
    unfold sampleFormatOf
    rcases htag with h | ⟨h, h'⟩
    · simp [h, hbits, pcmFormatOfBits, WAVE_FORMAT_PCM, WAVE_FORMAT_IEEE_FLOAT]
    · simp [h, h', hbits, pcmFormatOfBits, WAVE_FORMAT_PCM, WAVE_FORMAT_IEEE_FLOAT,
        WAVE_FORMAT_EXTENSIBLE]
  have hval : ∀ i, i < sampleProps.lActual / 3 →
      toInt32 (unpackPcm24 src i) =
          ((src.getD (3 * i) 0).val : Int) + 256 * (src.getD (3 * i + 1) 0).val +
            65536 * (src.getD (3 * i + 2) 0).val -
            (if 128 ≤ (src.getD (3 * i + 2) 0).val then 2 ^ 24 else 0) ∧
        InRange DspFormat.Pcm24 (toInt32 (unpackPcm24 src i)) := by
    intro i hi
    have hb : i * 3 + 2 < src.length := by omega
    rw [unpackPcm24_eq src i hb]
    have e0 : src.getD (3 * i) 0 = src.get ⟨i * 3, by omega⟩ := by
      rw [List.getD_eq_getElem _ _ (by omega)]; simp [Nat.mul_comm]
    have e1 : src.getD (3 * i + 1) 0 = src.get ⟨i * 3 + 1, by omega⟩ := by
      rw [List.getD_eq_getElem _ _ (by omega)]; simp [Nat.mul_comm]
    have e2 : src.getD (3 * i + 2) 0 = src.get ⟨i * 3 + 2, hb⟩ := by
      rw [List.getD_eq_getElem _ _ (by omega)]; simp [Nat.mul_comm]
    rw [e0, e1, e2]
    have h0 := (src.get ⟨i * 3, by omega⟩).isLt
    have h1 := (src.get ⟨i * 3 + 1, by omega⟩).isLt
    have h2 := (src.get ⟨i * 3 + 2, hb⟩).isLt
    simp only [InRange, DspFormat.pcmBits, toInt32]
    norm_num
    split <;> omega
  unfold DspChunk.ctorSample
  simp only [hsrc, hfmt, Bool.not_true, Bool.false_eq_true, if_false, if_true,
    DspChunk.Allocate]
  by_cases hs : sampleProps.lActual / 3 * 4 > 0
  · simp only [if_pos hs, halloc]
    have hcount : sampleProps.lActual / 3 * 4 / DspFormatSize DspFormat.Pcm24 =
        sampleProps.lActual / 3 := by
      rw [show DspFormatSize DspFormat.Pcm24 = 4 from rfl]; omega
    have hlenU : ((List.range (sampleProps.lActual / 3)).flatMap
        (fun i => storeInt32 (unpackPcm24 src i))).length = sampleProps.lActual / 3 * 4 :=
      length_flatMap_range _ 4 (fun j => length_leBytes 4 _) _
    have hbytes : ∀ c : DspChunk, c.m_delayedCopy = false →
        c.m_data = some ((List.range (sampleProps.lActual / 3)).flatMap
          (fun i => storeInt32 (unpackPcm24 src i))) →
        c.m_dataSize = sampleProps.lActual / 3 * 4 →
        c.bytes = (List.range (sampleProps.lActual / 3)).flatMap
          (fun i => storeInt32 (unpackPcm24 src i)) := by
      intro c h1 h2 h3
      simp [DspChunk.bytes, DspChunk.GetConstData, h1, h2, h3, ← hlenU]
    refine ⟨_, rfl, rfl, rfl, rfl, ?_, ?_, ?_⟩
    · simp [DspChunk.GetSampleCount, DspChunk.GetFormatSize, hcount]
    · rw [hbytes _ rfl (by
        simp only [DspChunk.GetSampleCount, DspChunk.GetFormatSize, hcount, Option.map_some']
        rw [memWrite_of_length_eq _ _ (by rw [hlenU, length_freshBlock])]) rfl, hlenU]
    · intro i hi
      rw [hbytes _ rfl (by
        simp only [DspChunk.GetSampleCount, DspChunk.GetFormatSize, hcount, Option.map_some']
        rw [memWrite_of_length_eq _ _ (by rw [hlenU, length_freshBlock])]) rfl,
        loadInt32_flatMap_storeInt32 _ _ _ hi]
      exact hval i hi
  · simp only [if_neg hs]
    have h0 : sampleProps.lActual / 3 = 0 := by omega
    refine ⟨_, rfl, rfl, rfl, rfl, ?_, ?_, ?_⟩
    · simp [DspChunk.GetSampleCount, h0]
    · simp [DspChunk.bytes, h0]
    · intro i hi; omega

/-- Witness for `ctorSample_unpacks_Pcm24`: nine source bytes become three samples in twelve
bytes. -/
theorem ctorSample_unpacks_Pcm24_witness :
    ∃ c, DspChunk.ctorSample (fun _ => some (fun _ => 0xCD)) DspFormat.Pcm16 true
        ⟨9, some [1, 2, 3, 0xFF, 0xFF, 0xFF, 0, 0, 0x80]⟩
        ⟨WAVE_FORMAT_PCM, 1, 48000, 24, KSDATAFORMAT_SUBTYPE.other⟩ = Except.ok c ∧
      c.m_delayedCopy = false ∧ c.m_dataSize = 12 ∧ InRange DspFormat.Pcm24 (loadInt32 c.bytes 2) := by
  obtain ⟨c, h1, h2, _, h4, _, _, h7⟩ := ctorSample_unpacks_Pcm24
    (fun _ => some (fun _ => 0xCD)) DspFormat.Pcm16
    ⟨9, some [1, 2, 3, 0xFF, 0xFF, 0xFF, 0, 0, 0x80]⟩
    ⟨WAVE_FORMAT_PCM, 1, 48000, 24, KSDATAFORMAT_SUBTYPE.other⟩
    [1, 2, 3, 0xFF, 0xFF, 0xFF, 0, 0, 0x80] (fun _ => 0xCD) (Or.inl rfl) rfl rfl
    (by decide) rfl
  exact ⟨c, h1, h2, h4, (h7 2 (by decide)).2⟩

/-! ## Shrink -/

/-- Method `InvokeDelayedCopy` on a valid chunk, when the allocation it may need succeeds: the chunk
owns its data afterwards and nothing visible has changed. -/
theorem InvokeDelayedCopy_spec (alloc : Allocator) (c : DspChunk) (hv : c.Valid)
    (halloc : (alloc c.m_dataSize).isSome = true) :
    ∃ c1, DspChunk.InvokeDelayedCopy alloc c = Except.ok c1 ∧
      c1.m_format = c.m_format ∧ c1.m_channels = c.m_channels ∧ c1.m_rate = c.m_rate ∧
      c1.m_dataSize = c.m_dataSize ∧ c1.m_delayedCopy = false ∧
      (c1.GetConstData.getD []).take c.m_dataSize = c.bytes := by
  unfold DspChunk.InvokeDelayedCopy
  by_cases hd : c.m_delayedCopy = true
  · obtain ⟨src, hsrc, hlen⟩ := hv hd
    obtain ⟨g, hg⟩ := Option.isSome_iff_exists.mp halloc
    simp only [if_pos hd, DspChunk.Allocate]
    by_cases hs : c.m_dataSize > 0
    · simp only [if_pos hs, hg, hsrc]
      refine ⟨_, rfl, rfl, rfl, rfl, rfl, rfl, ?_⟩
      have hl : (List.take c.m_dataSize src).length = (freshBlock g c.m_dataSize).length := by
        rw [length_freshBlock, List.length_take]; omega
      simp [DspChunk.GetConstData, DspChunk.bytes, hd, hsrc, memWrite_of_length_eq _ _ hl]
    · simp only [if_neg hs, hsrc]
      refine ⟨_, rfl, rfl, rfl, rfl, rfl, rfl, ?_⟩
      have h0 : c.m_dataSize = 0 := by omega
      simp [DspChunk.bytes, h0]
  · simp only [if_neg hd]
    refine ⟨c, rfl, rfl, rfl, rfl, rfl, by simpa using hd, rfl⟩

/-- C7. `Shrink(toFrames)` on a chunk of `n` frames: for `toFrames <= n` the result has
exactly `toFrames` frames and its first `toFrames` frames are byte for byte those of the
original, also when the chunk was still borrowing its data; for `toFrames >= n` the chunk is
left as it is, so the frame count never grows; format, channel count and rate are
unchanged. -/
theorem Shrink_spec (alloc : Allocator) (c : DspChunk) (toFrames : Nat) (hv : c.Valid)
    (halloc : (alloc c.m_dataSize).isSome = true)
    (h32 : c.GetFrameSize < 2 ^ 32) (h64 : c.m_dataSize < 2 ^ 64) :
    ∃ c1, c.Shrink alloc toFrames = Except.ok c1 ∧
      c1.m_format = c.m_format ∧ c1.m_channels = c.m_channels ∧ c1.m_rate = c.m_rate ∧
      (toFrames ≤ c.GetFrameCount →
        c1.GetFrameCount = toFrames ∧
        c1.bytes.take (toFrames * c.GetFrameSize) = c.bytes.take (toFrames * c.GetFrameSize)) ∧
      (toFrames < c.GetFrameCount →
        c1.m_dataSize = toFrames * c.GetFrameSize ∧ c1.m_delayedCopy = false ∧
        c1.bytes = c.bytes.take (toFrames * c.GetFrameSize)) ∧
      (c.GetFrameCount ≤ toFrames → c1 = c) ∧
      c1.GetFrameCount ≤ c.GetFrameCount := by
  unfold DspChunk.Shrink
  by_cases ht : toFrames < c.GetFrameCount
  · obtain ⟨c1, hc1, hf, hch, hr, hsz, hdc, hb⟩ := InvokeDelayedCopy_spec alloc c hv halloc
    simp only [if_pos ht, hc1]
    have hfs : c1.GetFormatSize * c1.GetChannelCount = c.GetFrameSize := by
      simp [DspChunk.GetFrameSize, DspChunk.GetFormatSize, DspChunk.GetChannelCount, hf, hch]
    have hpos : 0 < c.GetFrameSize := by
      rcases Nat.eq_zero_or_pos c.GetFrameSize with h | h
      · simp [DspChunk.GetFrameCount, h] at ht
      · exact h
    have hle : toFrames * c.GetFrameSize ≤ c.m_dataSize := by
      have h1 : c.GetFrameCount * c.GetFrameSize ≤ c.m_dataSize := by
        unfold DspChunk.GetFrameCount
        exact Nat.div_mul_le_self _ _
      have h2 : toFrames * c.GetFrameSize ≤ c.GetFrameCount * c.GetFrameSize :=
        Nat.mul_le_mul_right _ ht.le
      omega
    have hnew : mulSize (mulUInt32 c1.GetFormatSize c1.GetChannelCount) toFrames =
        toFrames * c.GetFrameSize := by
      unfold mulSize mulUInt32
      rw [hfs, Nat.mod_eq_of_lt h32, Nat.mul_comm, Nat.mod_eq_of_lt (by omega)]
    rw [hnew]
    have hcount : toFrames * c.GetFrameSize /
        (DspFormatSize c1.m_format * c1.m_channels) = toFrames := by
      have : DspFormatSize c1.m_format * c1.m_channels = c.GetFrameSize := hfs
      rw [this]
      exact Nat.mul_div_cancel _ hpos
    have hbytes : DspChunk.bytes { c1 with m_dataSize := toFrames * c.GetFrameSize } =
        c.bytes.take (toFrames * c.GetFrameSize) := by
      rw [← hb, List.take_take, Nat.min_eq_left hle]
      rfl
    have hfc : DspChunk.GetFrameCount { c1 with m_dataSize := toFrames * c.GetFrameSize } =
        toFrames := hcount
    refine ⟨_, rfl, hf, hch, hr, ?_, ?_, ?_, ?_⟩
    · intro _
      exact ⟨hfc, by rw [hbytes, List.take_take, Nat.min_self]⟩
    · intro _
      exact ⟨rfl, hdc, hbytes⟩
    · intro h; omega
    · rw [hfc]
      exact ht.le
  · simp only [if_neg ht]
    refine ⟨c, rfl, rfl, rfl, rfl, ?_, ?_, ?_, le_refl _⟩
    · intro h
      exact ⟨by omega, rfl⟩
    · intro h; omega
    · intro _; rfl

/-- Witness for `Shrink_spec`: a borrowed mono `Pcm16` chunk of two frames shrunk to one. -/
theorem Shrink_spec_witness :
    ∃ c1, DspChunk.Shrink (fun _ => some (fun _ => 0xCD)) 1
        { DspChunk.ctorDefault with
          m_mediaSample := true, m_dataSize := 4, m_constData := some [1, 2, 3, 4],
          m_delayedCopy := true } = Except.ok c1 ∧
      c1.GetFrameCount = 1 ∧ c1.bytes = [1, 2] := by
  obtain ⟨c1, h1, _, _, _, h5, h6, _⟩ := Shrink_spec (fun _ => some (fun _ => 0xCD))
    { DspChunk.ctorDefault with
      m_mediaSample := true, m_dataSize := 4, m_constData := some [1, 2, 3, 4],
      m_delayedCopy := true } 1
    (fun _ => ⟨[1, 2, 3, 4], rfl, by decide⟩) rfl (by decide) (by decide)
  exact ⟨c1, h1, (h5 (by decide)).1, (h6 (by decide)).2.2⟩

/-! ## Whole frames -/

/-- C8 as stated fails: the sample constructor takes the byte length of the media sample as it
is.  Six bytes of stereo `Pcm16` (frame size 4) and three bytes of stereo packed 24-bit PCM
(one sample, four bytes after unpacking, frame size 8) both give a chunk whose byte length is
not a multiple of its frame size. -/
theorem ctorSample_not_FrameAligned :
    (∃ c, DspChunk.ctorSample (fun _ => none) DspFormat.Pcm16 true
        ⟨6, some [1, 2, 3, 4, 5, 6]⟩
        ⟨WAVE_FORMAT_PCM, 2, 48000, 16, KSDATAFORMAT_SUBTYPE.other⟩ = Except.ok c ∧
      c.m_dataSize = 6 ∧ c.GetFrameSize = 4 ∧ ¬ c.FrameAligned) ∧
    (∃ c, DspChunk.ctorSample (fun _ => some (fun _ => 0)) DspFormat.Pcm16 true
        ⟨3, some [1, 2, 3]⟩
        ⟨WAVE_FORMAT_PCM, 2, 48000, 24, KSDATAFORMAT_SUBTYPE.other⟩ = Except.ok c ∧
      c.m_dataSize = 4 ∧ c.GetFrameSize = 8 ∧ ¬ c.FrameAligned) :=
  ⟨⟨_, rfl, rfl, rfl, by decide⟩, ⟨_, rfl, rfl, rfl, by decide⟩⟩

theorem DspFormatSize_le (format : DspFormat) : 1 ≤ DspFormatSize format ∧ DspFormatSize format ≤ 8 := by
  cases format <;> decide

/-- What makes the size computations of a chunk exact: whole frames, and counts within the
bounds of `DspChunk.Built`. -/
theorem frameAligned_of_size (c : DspChunk) (frames : Nat)
    (h : c.m_dataSize = DspFormatSize c.m_format * c.m_channels * frames) :
    c.FrameAligned ∧ c.GetFrameCount ≤ frames := by
  refine ⟨⟨frames, by simpa [DspChunk.GetFrameSize, DspChunk.GetFormatSize,
    DspChunk.GetChannelCount] using h⟩, ?_⟩
  simp only [DspChunk.GetFrameCount, DspChunk.GetFrameSize, DspChunk.GetFormatSize,
    DspChunk.GetChannelCount, h]
  rcases Nat.eq_zero_or_pos (DspFormatSize c.m_format * c.m_channels) with h0 | h0
  · simp [h0]
  · rw [Nat.mul_div_cancel_left _ h0]

theorem mulSize_exact (format : DspFormat) (channels frames : Nat) (hch : channels < 2 ^ 29)
    (hfr : frames * channels < 2 ^ 61) :
    mulSize (mulUInt32 (DspFormatSize format) channels) frames =
      DspFormatSize format * channels * frames := by
  have h8 := DspFormatSize_le format
  have h1 : DspFormatSize format * channels < 2 ^ 32 := by
    calc DspFormatSize format * channels ≤ 8 * channels := Nat.mul_le_mul_right _ h8.2
      _ < 2 ^ 32 := by omega
  have h2 : DspFormatSize format * channels * frames < 2 ^ 64 := by
    calc DspFormatSize format * channels * frames
        = DspFormatSize format * (frames * channels) := by ring
      _ ≤ 8 * (frames * channels) := Nat.mul_le_mul_right _ h8.2
      _ < 2 ^ 64 := by omega
  unfold mulSize mulUInt32
  rw [Nat.mod_eq_of_lt h1, Nat.mod_eq_of_lt h2]

theorem InvokeDelayedCopy_fields (alloc : Allocator) (c c1 : DspChunk)
    (h : DspChunk.InvokeDelayedCopy alloc c = Except.ok c1) :
    c1.m_format = c.m_format ∧ c1.m_channels = c.m_channels ∧ c1.m_rate = c.m_rate ∧
      c1.m_dataSize = c.m_dataSize := by
  unfold DspChunk.InvokeDelayedCopy DspChunk.Allocate at h
  by_cases hd : c.m_delayedCopy = true
  · simp only [if_pos hd] at h
    cases hcd : c.m_constData with
    | none =>
      by_cases hs : c.m_dataSize > 0
      · cases ha : alloc c.m_dataSize <;> simp [hs, ha, hcd] at h
      · simp [hs, hcd] at h
    | some src =>
      by_cases hs : c.m_dataSize > 0
      · cases ha : alloc c.m_dataSize with
        | none => simp [hs, ha] at h
        | some g =>
          simp only [if_pos hs, ha, hcd, Except.ok.injEq] at h
          subst h
          exact ⟨rfl, rfl, rfl, rfl⟩
      · simp only [if_neg hs, hcd, Except.ok.injEq] at h
        subst h
        exact ⟨rfl, rfl, rfl, rfl⟩
  · simp only [if_neg hd, Except.ok.injEq] at h
    subst h
    exact ⟨rfl, rfl, rfl, rfl⟩

theorem invariant_of_size (c : DspChunk) (format : DspFormat) (channels frames : Nat)
    (hf : c.m_format = format) (hc : c.m_channels = channels)
    (hsz : c.m_dataSize = mulSize (mulUInt32 (DspFormatSize format) channels) frames)
    (hch : channels < 2 ^ 29) (hfr : frames * channels < 2 ^ 61) :
    c.FrameAligned ∧ c.m_channels < 2 ^ 29 ∧ c.GetFrameCount * c.m_channels < 2 ^ 61 := by
  rw [mulSize_exact format channels frames hch hfr] at hsz
  have := frameAligned_of_size c frames (by rw [hf, hc, hsz])
  refine ⟨this.1, by omega, ?_⟩
  calc c.GetFrameCount * c.m_channels ≤ frames * c.m_channels :=
        Nat.mul_le_mul_right _ this.2
    _ < 2 ^ 61 := by rw [hc]; exact hfr

theorem invariant_of_whole (c : DspChunk) (k : Nat)
    (hsz : c.m_dataSize = DspFormatSize c.m_format * c.m_channels * k)
    (hch : c.m_channels < 2 ^ 29) (hk : k * c.m_channels < 2 ^ 61) :
    c.FrameAligned ∧ c.m_channels < 2 ^ 29 ∧ c.GetFrameCount * c.m_channels < 2 ^ 61 := by
  have := frameAligned_of_size c k hsz
  refine ⟨this.1, hch, ?_⟩
  calc c.GetFrameCount * c.m_channels ≤ k * c.m_channels := Nat.mul_le_mul_right _ this.2
    _ < 2 ^ 61 := hk

/-- The invariant behind C8: whole frames, with the counts bounded. -/
theorem Built_invariant (c : DspChunk) (hc : c.Built) :
    c.FrameAligned ∧ c.m_channels < 2 ^ 29 ∧ c.GetFrameCount * c.m_channels < 2 ^ 61 := by
  induction hc with
  | ctorDefault => exact ⟨by decide, by decide, by decide⟩
  | ctorSized alloc format channels frames rate c hch hfr h =>
    unfold DspChunk.ctorSized DspChunk.Allocate at h
    have hfields : c.m_format = format ∧ c.m_channels = channels ∧
        c.m_dataSize = mulSize (mulUInt32 (DspFormatSize format) channels) frames := by
      split at h
      · split at h
        · cases h
        · cases h; simp
      · cases h; simp
    exact invariant_of_size c format channels frames hfields.1 hfields.2.1 hfields.2.2 hch hfr
  | ctorSample alloc uninit pSample sampleProps sampleFormat c hch hlen hwhole h =>
    unfold DspChunk.ctorSample at h
    cases pSample with
    | false => simp at h
    | true =>
      cases hbuf : sampleProps.pbBuffer with
      | none => simp [hbuf] at h
      | some src =>
        simp only [Bool.not_true, Bool.false_eq_true, if_false, hbuf, DspChunk.Allocate] at h
        unfold wholeFrames at hwhole
        by_cases hfmt : sampleFormatOf uninit sampleFormat = DspFormat.Pcm24
        · rw [if_pos hfmt] at hwhole h
          obtain ⟨k, hk⟩ := hwhole
          have hfields : c.m_format = DspFormat.Pcm24 ∧ c.m_channels = sampleFormat.nChannels ∧
              c.m_dataSize = sampleProps.lActual / 3 * 4 := by
            by_cases hs : sampleProps.lActual / 3 * 4 > 0
            · cases ha : alloc (sampleProps.lActual / 3 * 4) with
              | none => simp [hs, ha] at h
              | some g =>
                simp only [if_pos hs, ha, Except.ok.injEq] at h
                subst h
                exact ⟨hfmt, rfl, rfl⟩
            · simp only [if_neg hs, Except.ok.injEq] at h
              subst h
              exact ⟨hfmt, rfl, rfl⟩
          obtain ⟨h1, h2, h3⟩ := hfields
          apply invariant_of_whole c k
          · rw [h3, h1, h2, hk, show DspFormatSize DspFormat.Pcm24 = 4 from rfl]; ring
          · omega
          · rw [h2, Nat.mul_comm, ← hk]; omega
        · rw [if_neg hfmt] at hwhole h
          simp only [Except.ok.injEq] at h
          subst h
          obtain ⟨k, hk⟩ := hwhole
          apply invariant_of_whole _ k
          · exact hk
          · show sampleFormat.nChannels < 2 ^ 29
            omega
          · show k * sampleFormat.nChannels < 2 ^ 61
            have h8 := DspFormatSize_le (sampleFormatOf uninit sampleFormat)
            have : k * sampleFormat.nChannels ≤ sampleProps.lActual := by
              rw [hk]
              calc k * sampleFormat.nChannels = 1 * (sampleFormat.nChannels * k) := by ring
                _ ≤ DspFormatSize (sampleFormatOf uninit sampleFormat) *
                    (sampleFormat.nChannels * k) := Nat.mul_le_mul_right _ h8.1
                _ = DspFormatSize (sampleFormatOf uninit sampleFormat) *
                    sampleFormat.nChannels * k := by ring
            omega
  | Shrink alloc toFrames c c1 _ h ih =>
    unfold DspChunk.Shrink at h
    by_cases ht : toFrames < c.GetFrameCount
    · rw [if_pos ht] at h
      cases hidc : DspChunk.InvokeDelayedCopy alloc c with
      | error e => simp [hidc] at h
      | ok c2 =>
        obtain ⟨hf, hch, _, _⟩ := InvokeDelayedCopy_fields alloc c c2 hidc
        simp only [hidc, Except.ok.injEq] at h
        subst h
        have hlt : toFrames * c.m_channels < 2 ^ 61 :=
          calc toFrames * c.m_channels ≤ c.GetFrameCount * c.m_channels :=
                Nat.mul_le_mul_right _ ht.le
            _ < 2 ^ 61 := ih.2.2
        exact invariant_of_size
          { c2 with m_dataSize := mulSize (mulUInt32 c2.GetFormatSize c2.GetChannelCount) toFrames }
          c.m_format c.m_channels toFrames hf hch
          (by simp [DspChunk.GetFormatSize, DspChunk.GetChannelCount, hf, hch]) ih.2.1 hlt
    · simp only [if_neg ht, Except.ok.injEq] at h
      subst h
      exact ih
  | ToFormat alloc format c c1 _ h ih =>
    unfold DspChunk.ToFormat at h
    by_cases h8 : format = DspFormat.Pcm8
    · simp [h8] at h
    · rw [if_neg h8] at h
      by_cases hsame : (c.IsEmpty || decide (format = c.GetFormat)) = true
      · simp only [hsame, if_true, Except.ok.injEq] at h
        subst h
        exact ih
      · rw [if_neg hsame] at h
        have hconv : ConvertChunk alloc format c = Except.ok c1 := by
          cases format <;> first | exact absurd rfl h8 | exact h
        obtain ⟨hf, hch, _, hsz⟩ := ConvertChunk_format alloc format c c1 hconv
        exact invariant_of_size c1 format c.m_channels c.GetFrameCount hf hch hsz ih.2.1 ih.2.2
  | ctorMove_new c _ ih => exact ih
  | ctorMove_old c _ ih =>
    refine ⟨⟨0, by simp [DspChunk.ctorMove]⟩, ih.2.1, ?_⟩
    simp [DspChunk.ctorMove, DspChunk.GetFrameCount]
  | assignMove_new self c _ ih => exact ih
  | assignMove_old self c _ ih =>
    refine ⟨⟨0, by simp [DspChunk.assignMove]⟩, ih.2.1, ?_⟩
    simp [DspChunk.assignMove, DspChunk.GetFrameCount]


/-- C8, amended.  Every chunk built by the default or the sized constructor, or by the sample
constructor on a media sample that holds whole frames, and then taken through any sequence of
`Shrink`, `ToFormat` and moves, has a byte length that is an exact multiple of
(bytes per sample x channel count). -/
theorem Built_FrameAligned (c : DspChunk) (hc : c.Built) :
    DspChunk.GetFormatSize c * DspChunk.GetChannelCount c ∣ c.m_dataSize :=
  (Built_invariant c hc).1

/-- Witness for `Built_FrameAligned`: the default chunk, and a sized stereo `Pcm16` chunk of
three frames, also after it has been shrunk to two frames. -/
theorem Built_FrameAligned_witness :
    DspChunk.GetFormatSize DspChunk.ctorDefault * DspChunk.GetChannelCount DspChunk.ctorDefault ∣
      DspChunk.ctorDefault.m_dataSize ∧
    ∃ c c1, DspChunk.ctorSized (fun _ => some (fun _ => 0)) DspFormat.Pcm16 2 3 44100 =
        Except.ok c ∧
      DspChunk.Shrink (fun _ => some (fun _ => 0)) 2 c = Except.ok c1 ∧
      c.m_dataSize = 12 ∧ c1.m_dataSize = 8 ∧
      DspChunk.GetFormatSize c1 * DspChunk.GetChannelCount c1 ∣ c1.m_dataSize :=
  ⟨Built_FrameAligned _ DspChunk.Built.ctorDefault, _, _, rfl, rfl, rfl, rfl,
    Built_FrameAligned _ (DspChunk.Built.Shrink (fun _ => some (fun _ => 0)) 2 _ _
      (DspChunk.Built.ctorSized (fun _ => some (fun _ => 0)) DspFormat.Pcm16 2 3 44100 _
        (by decide) (by decide) rfl) rfl)⟩

/-! ## Round trip through a wider integer format -/

theorem length_storePcm (format : DspFormat) (v : Int) (h : format.isPcm = true) :
    (storePcm format v).length = DspFormatSize format := by
  cases format <;> first
    | exact absurd h (by decide)
    | simp [storePcm, storeInt8, storeInt16, storeInt32, length_leBytes, DspFormatSize]

theorem storeInt16_loadInt16 (mem : List Byte) (i : Nat) (h : (i + 1) * 2 ≤ mem.length) :
    storeInt16 (loadInt16 mem i) = slice mem (i * 2) 2 := by
  have hl : (slice mem (i * 2) 2).length = 2 := length_slice mem _ _ (by omega)
  have hlt := leValue_lt (slice mem (i * 2) 2)
  rw [hl] at hlt
  have hv : (toInt16 (leValue (slice mem (i * 2) 2)) % 65536).toNat =
      leValue (slice mem (i * 2) 2) := by
    unfold toInt16; omega
  unfold storeInt16 loadInt16
  rw [hv]
  have := leBytes_leValue (slice mem (i * 2) 2)
  rw [hl] at this
  exact this

theorem storeInt32_loadInt32 (mem : List Byte) (i : Nat) (h : (i + 1) * 4 ≤ mem.length) :
    storeInt32 (loadInt32 mem i) = slice mem (i * 4) 4 := by
  have hl : (slice mem (i * 4) 4).length = 4 := length_slice mem _ _ (by omega)
  have hlt := leValue_lt (slice mem (i * 4) 4)
  rw [hl] at hlt
  have hv : (toInt32 (leValue (slice mem (i * 4) 4)) % 4294967296).toNat =
      leValue (slice mem (i * 4) 4) := by
    unfold toInt32; omega
  unfold storeInt32 loadInt32
  rw [hv]
  have := leBytes_leValue (slice mem (i * 4) 4)
  rw [hl] at this
  exact this

/-- Widening an in-range sample, storing it, reading it back and narrowing it gives the
sample. -/
theorem convertedSample_roundtrip (A B : DspFormat) (hAB : WiderPcm A B) (mem : List Byte)
    (n i : Nat) (hi : i < n) (hmem : n * DspFormatSize A ≤ mem.length)
    (hx : InRange A (loadPcm A mem i)) :
    convertedSample B A ((List.range n).flatMap (convertedSample A B mem)) i =
      slice mem (i * DspFormatSize A) (DspFormatSize A) := by
  have hle : (i + 1) * DspFormatSize A ≤ mem.length :=
    le_trans (Nat.mul_le_mul_right _ hi) hmem
  rcases hAB with ⟨rfl, rfl | rfl⟩ | ⟨rfl, rfl⟩ <;>
    simp only [InRange, DspFormat.pcmBits] at hx
  · have h1 : convertedSample DspFormat.Pcm16 DspFormat.Pcm24 mem =
        fun j => storeInt32 (ConvertSample.Pcm16_Pcm24 (loadInt16 mem j)) := by
      funext j; rfl
    have h2 : ∀ (m : List Byte) (k : Nat), convertedSample DspFormat.Pcm24 DspFormat.Pcm16 m k =
        storeInt16 (ConvertSample.Pcm24_Pcm16 (loadInt32 m k)) := fun _ _ => rfl
    have e : DspFormatSize DspFormat.Pcm16 = 2 := rfl
    rw [e] at hle ⊢
    rw [h1, h2, loadInt32_flatMap_storeInt32 _ n i hi, ← storeInt16_loadInt16 mem i hle]
    refine congrArg storeInt16 ?_
    have e3 : loadPcm DspFormat.Pcm16 mem i = loadInt16 mem i := rfl
    rw [e3] at hx
    generalize loadInt16 mem i = x at hx
    norm_num at hx
    simp only [ConvertSample.Pcm24_Pcm16, ConvertSample.Pcm16_Pcm24, shr32, shl32, toInt32,
      toInt16, Int.shiftRight_eq_div_pow]
    norm_num
    omega
  · have h1 : convertedSample DspFormat.Pcm16 DspFormat.Pcm32 mem =
        fun j => storeInt32 (ConvertSample.Pcm16_Pcm32 (loadInt16 mem j)) := by
      funext j; rfl
    have h2 : ∀ (m : List Byte) (k : Nat), convertedSample DspFormat.Pcm32 DspFormat.Pcm16 m k =
        storeInt16 (ConvertSample.Pcm32_Pcm16 (loadInt32 m k)) := fun _ _ => rfl
    have e : DspFormatSize DspFormat.Pcm16 = 2 := rfl
    rw [e] at hle ⊢
    rw [h1, h2, loadInt32_flatMap_storeInt32 _ n i hi, ← storeInt16_loadInt16 mem i hle]
    refine congrArg storeInt16 ?_
    have e3 : loadPcm DspFormat.Pcm16 mem i = loadInt16 mem i := rfl
    rw [e3] at hx
    generalize loadInt16 mem i = x at hx
    norm_num at hx
    simp only [ConvertSample.Pcm32_Pcm16, ConvertSample.Pcm16_Pcm32, shr32, shl32, toInt32,
      toInt16, Int.shiftRight_eq_div_pow]
    norm_num
    omega
  · have h1 : convertedSample DspFormat.Pcm24 DspFormat.Pcm32 mem =
        fun j => storeInt32 (ConvertSample.Pcm24_Pcm32 (loadInt32 mem j)) := by
      funext j; rfl
    have h2 : ∀ (m : List Byte) (k : Nat), convertedSample DspFormat.Pcm32 DspFormat.Pcm24 m k =
        storeInt32 (ConvertSample.Pcm32_Pcm24 (loadInt32 m k)) := fun _ _ => rfl
    have e : DspFormatSize DspFormat.Pcm24 = 4 := rfl
    rw [e] at hle ⊢
    rw [h1, h2, loadInt32_flatMap_storeInt32 _ n i hi, ← storeInt32_loadInt32 mem i hle]
    refine congrArg storeInt32 ?_
    have e3 : loadPcm DspFormat.Pcm24 mem i = loadInt32 mem i := rfl
    rw [e3] at hx
    generalize loadInt32 mem i = x at hx
    norm_num at hx
    simp only [ConvertSample.Pcm32_Pcm24, ConvertSample.Pcm24_Pcm32, shr32, shl32, toInt32,
      toInt16, Int.shiftRight_eq_div_pow]
    norm_num
    omega

theorem length_convertedSample (A B : DspFormat) (hAB : WiderPcm A B) (mem : List Byte)
    (i : Nat) : (convertedSample A B mem i).length = DspFormatSize B ∧
      (convertedSample B A mem i).length = DspFormatSize A := by
  rcases hAB with ⟨rfl, rfl | rfl⟩ | ⟨rfl, rfl⟩ <;>
    exact ⟨length_leBytes _ _, length_leBytes _ _⟩

/-- Conversion by `ConvertSamples` to a wider integer format and back reproduces the leading `samples`
samples of the input. -/
theorem ConvertSamples_roundtrip (A B : DspFormat) (hAB : WiderPcm A B) (mem : List Byte)
    (n : Nat) (hmem : n * DspFormatSize A ≤ mem.length)
    (hx : ∀ i, i < n → InRange A (loadPcm A mem i)) :
    (ConvertSamples A B mem n).length = n * DspFormatSize B ∧
    ConvertSamples B A (ConvertSamples A B mem n) n = mem.take (n * DspFormatSize A) := by
  refine ⟨length_flatMap_range _ _ (fun i => (length_convertedSample A B hAB mem i).1) n, ?_⟩
  rw [← flatMap_slice mem (DspFormatSize A) n hmem]
  unfold ConvertSamples
  apply List.flatMap_congr
  intro i hi
  exact convertedSample_roundtrip A B hAB mem n i (List.mem_range.mp hi) hmem
    (hx i (List.mem_range.mp hi))

theorem ToFormat_eq_ConvertChunk (alloc : Allocator) (format : DspFormat) (c : DspChunk)
    (hf : format ≠ DspFormat.Pcm8)
    (hne : (c.IsEmpty || decide (format = c.GetFormat)) = false) :
    DspChunk.ToFormat alloc format c = ConvertChunk alloc format c := by
  unfold DspChunk.ToFormat
  rw [if_neg hf, hne]
  cases format <;> first | exact absurd rfl hf | rfl

/-- Source function `ConvertChunk` when the allocation succeeds and the converted samples fill the new block
exactly. -/
theorem ConvertChunk_owned (alloc : Allocator) (o : DspFormat) (c : DspChunk) (size : Nat)
    (hne : (c.IsEmpty || decide (o = c.GetFormat)) = false)
    (hsize : mulSize (mulUInt32 (DspFormatSize o) c.m_channels) c.GetFrameCount = size)
    (hpos : 0 < size) (hg : (alloc size).isSome = true)
    (hlen : (ConvertSamples c.m_format o (c.GetConstData.getD []) c.GetSampleCount).length =
      size) :
    ConvertChunk alloc o c = Except.ok
      { m_mediaSample := false
        m_format := o
        m_channels := c.m_channels
        m_rate := c.m_rate
        m_dataSize := size
        m_constData := none
        m_delayedCopy := false
        m_data := some (ConvertSamples c.m_format o (c.GetConstData.getD []) c.GetSampleCount) } := by
  obtain ⟨g, hg⟩ := Option.isSome_iff_exists.mp hg
  rw [ConvertChunk_eq alloc o c hne, hsize, if_pos hpos, hg]
  simp only
  rw [memWrite_of_length_eq _ _ (by rw [hlen, length_freshBlock])]

theorem loadPcm_take (A : DspFormat) (mem : List Byte) (size i : Nat)
    (h : (i + 1) * DspFormatSize A ≤ size) :
    loadPcm A (mem.take size) i = loadPcm A mem i := by
  cases A
  · have e : DspFormatSize DspFormat.Pcm8 = 1 := rfl
    rw [e] at h
    show toInt8 (leValue (slice (mem.take size) i 1)) = toInt8 (leValue (slice mem i 1))
    rw [slice_take _ _ _ _ (by omega)]
  · have e : DspFormatSize DspFormat.Pcm16 = 2 := rfl
    rw [e] at h
    show toInt16 (leValue (slice (mem.take size) (i * 2) 2)) = toInt16 (leValue (slice mem (i * 2) 2))
    rw [slice_take _ _ _ _ (by omega)]
  all_goals
    have e : (i + 1) * 4 ≤ size ∨ (i + 1) * 8 ≤ size := by
      first
        | exact Or.inl h
        | exact Or.inr h
    show toInt32 (leValue (slice (mem.take size) (i * 4) 4)) = toInt32 (leValue (slice mem (i * 4) 4))
    rw [slice_take _ _ _ _ (by omega)]

/-- C1 as stated fails for `Pcm8`: a `Pcm8` chunk converts to `Pcm16`, but the conversion back
is rejected by the assertion of `ToFormat`, so the original samples are never reproduced.
Nor is a floating-point format a "wider format" in this sense: the `Pcm16` sample `1` comes
back from `Double` as `0`. -/
theorem ToFormat_roundtrip_fails_for_Pcm8 :
    (∃ c1, DspChunk.ToFormat (fun _ => some (fun _ => 0)) DspFormat.Pcm16
        { DspChunk.ctorDefault with
          m_format := DspFormat.Pcm8, m_dataSize := 1, m_data := some [5] } = Except.ok c1 ∧
      c1.m_format = DspFormat.Pcm16 ∧ c1.bytes = [0, 5] ∧
      DspChunk.ToFormat (fun _ => some (fun _ => 0)) DspFormat.Pcm8 c1 =
        Except.error Failure.assertion) ∧
    ConvertSample.Double_Pcm16 (ConvertSample.Pcm16_Double 1) = 0 := by
  refine ⟨⟨_, rfl, rfl, rfl, rfl⟩, ?_⟩
  rw [Double_Pcm16_Pcm16_Double 1 (by decide)]
  decide

/-- C1, amended.  For an integer format `A` that has a wider integer format (`Pcm16` or
`Pcm24`), every wider integer format `B`, and every chunk of whole frames of in-range samples
in format `A`, `ToFormat(B)` followed by `ToFormat(A)` returns (the allocations succeeding) a
chunk of format `A` with the same channel count, rate and byte length whose data are byte for
byte the original samples. -/
theorem ToFormat_roundtrip (alloc : Allocator) (A B : DspFormat) (c : DspChunk)
    (hAB : WiderPcm A B) (hfmt : c.m_format = A)
    (hlen : c.bytes.length = c.m_dataSize) (hal : c.FrameAligned)
    (hch : c.m_channels < 2 ^ 29) (hsz : c.m_dataSize < 2 ^ 61)
    (hrange : ∀ i, i < c.GetSampleCount → InRange A (loadPcm A c.bytes i))
    (halloc : ∀ n, (alloc n).isSome = true) :
    ∃ c1 c2, DspChunk.ToFormat alloc B c = Except.ok c1 ∧
      DspChunk.ToFormat alloc A c1 = Except.ok c2 ∧
      (c.IsEmpty = false → c1.m_format = B) ∧
      c2.m_format = A ∧ c2.m_channels = c.m_channels ∧ c2.m_rate = c.m_rate ∧
      c2.m_dataSize = c.m_dataSize ∧ c2.bytes = c.bytes := by
  have hA8 : A ≠ DspFormat.Pcm8 := by
    rcases hAB with ⟨rfl, _⟩ | ⟨rfl, _⟩ <;> decide
  have hB8 : B ≠ DspFormat.Pcm8 := by
    rcases hAB with ⟨_, rfl | rfl⟩ | ⟨_, rfl⟩ <;> decide
  have hBA : B ≠ A := by
    rcases hAB with ⟨rfl, rfl | rfl⟩ | ⟨rfl, rfl⟩ <;> decide
  by_cases hempty : c.IsEmpty = true
  · refine ⟨c, c, ?_, ?_, ?_, hfmt, rfl, rfl, rfl, rfl⟩
    · exact ToFormat_noop alloc B c hB8 (Or.inl hempty)
    · exact ToFormat_noop alloc A c hA8 (Or.inl hempty)
    · intro h; rw [h] at hempty; cases hempty
  have hpos : 0 < c.m_dataSize := by
    simp only [DspChunk.IsEmpty, beq_iff_eq] at hempty
    omega
  obtain ⟨k, hk⟩ := hal
  have hfsz : c.GetFrameSize = DspFormatSize A * c.m_channels := by
    simp [DspChunk.GetFrameSize, DspChunk.GetFormatSize, DspChunk.GetChannelCount, hfmt]
  rw [hfsz] at hk
  have hA1 := DspFormatSize_le A
  have hB1 := DspFormatSize_le B
  have hchpos : 0 < c.m_channels := by
    rcases Nat.eq_zero_or_pos c.m_channels with h | h
    · rw [h] at hk; simp at hk; omega
    · exact h
  have hkpos : 0 < k := by
    rcases Nat.eq_zero_or_pos k with h | h
    · rw [h] at hk; simp at hk; omega
    · exact h
  have hfc : c.GetFrameCount = k := by
    unfold DspChunk.GetFrameCount
    rw [hfsz, hk]
    exact Nat.mul_div_cancel_left _ (Nat.mul_pos (by omega) hchpos)
  have hsc : c.GetSampleCount = c.m_channels * k := by
    unfold DspChunk.GetSampleCount DspChunk.GetFormatSize
    rw [hfmt, hk, Nat.mul_assoc]
    exact Nat.mul_div_cancel_left _ (by omega)
  have hkch : k * c.m_channels < 2 ^ 61 := by
    have : k * c.m_channels ≤ c.m_dataSize := by
      rw [hk]
      calc k * c.m_channels = 1 * (c.m_channels * k) := by ring
        _ ≤ DspFormatSize A * (c.m_channels * k) := Nat.mul_le_mul_right _ hA1.1
        _ = DspFormatSize A * c.m_channels * k := by ring
    omega
  -- the memory behind the chunk
  have hmem : c.m_dataSize ≤ (c.GetConstData.getD []).length := by
    have := hlen
    simp only [DspChunk.bytes, List.length_take] at this
    omega
  have hnA : c.m_channels * k * DspFormatSize A = c.m_dataSize := by rw [hk]; ring
  have hrange1 : ∀ i, i < c.m_channels * k →
      InRange A (loadPcm A (c.GetConstData.getD []) i) := by
    intro i hi
    have := hrange i (by rw [hsc]; exact hi)
    rw [DspChunk.bytes, loadPcm_take A _ _ i (by
      rw [← hnA]; exact Nat.mul_le_mul_right _ hi)] at this
    exact this
  obtain ⟨hl1, hrt⟩ := ConvertSamples_roundtrip A B hAB (c.GetConstData.getD [])
    (c.m_channels * k) (by rw [hnA]; exact hmem) hrange1
  -- first conversion
  have hne1 : (c.IsEmpty || decide (B = c.GetFormat)) = false := by
    simp only [Bool.not_eq_true] at hempty
    simp [hempty, DspChunk.GetFormat, hfmt, hBA]
  have hsize1 : mulSize (mulUInt32 (DspFormatSize B) c.m_channels) c.GetFrameCount =
      DspFormatSize B * c.m_channels * k := by
    rw [hfc]; exact mulSize_exact B c.m_channels k hch hkch
  have hpos1 : 0 < DspFormatSize B * c.m_channels * k :=
    Nat.mul_pos (Nat.mul_pos (by omega) hchpos) hkpos
  have hconv1 := ConvertChunk_owned alloc B c _ hne1 hsize1 hpos1 (halloc _)
    (by rw [hfmt, hsc, hl1]; ring)
  rw [hfmt, hsc] at hconv1
  -- second conversion
  obtain ⟨c1, hc1⟩ : ∃ c1 : DspChunk, c1 =
      { m_mediaSample := false
        m_format := B
        m_channels := c.m_channels
        m_rate := c.m_rate
        m_dataSize := DspFormatSize B * c.m_channels * k
        m_constData := none
        m_delayedCopy := false
        m_data := some (ConvertSamples A B (c.GetConstData.getD []) (c.m_channels * k)) } :=
    ⟨_, rfl⟩
  rw [← hc1] at hconv1
  have hc1f : c1.m_format = B := by rw [hc1]
  have hc1ch : c1.m_channels = c.m_channels := by rw [hc1]
  have hc1r : c1.m_rate = c.m_rate := by rw [hc1]
  have hc1sz : c1.m_dataSize = DspFormatSize B * c.m_channels * k := by rw [hc1]
  have hc1d : c1.GetConstData.getD [] =
      ConvertSamples A B (c.GetConstData.getD []) (c.m_channels * k) := by rw [hc1]; rfl
  have hc1fc : c1.GetFrameCount = k := by
    simp only [DspChunk.GetFrameCount, DspChunk.GetFrameSize, DspChunk.GetFormatSize,
      DspChunk.GetChannelCount, hc1f, hc1ch, hc1sz]
    exact Nat.mul_div_cancel_left _ (Nat.mul_pos (by omega) hchpos)
  have hc1sc : c1.GetSampleCount = c.m_channels * k := by
    simp only [DspChunk.GetSampleCount, DspChunk.GetFormatSize, hc1f, hc1sz, Nat.mul_assoc]
    exact Nat.mul_div_cancel_left _ (by omega)
  have hne2 : (c1.IsEmpty || decide (A = c1.GetFormat)) = false := by
    have : c1.IsEmpty = false := by
      simp only [DspChunk.IsEmpty, hc1sz, beq_eq_false_iff_ne]
      omega
    simp [this, DspChunk.GetFormat, hc1f, hBA.symm]
  have hsize2 : mulSize (mulUInt32 (DspFormatSize A) c1.m_channels) c1.GetFrameCount =
      c.m_dataSize := by
    rw [hc1fc, hc1ch, mulSize_exact A c.m_channels k hch hkch, hk]
  have hconv2 := ConvertChunk_owned alloc A c1 _ hne2 hsize2 hpos (halloc _)
    (by rw [hc1f, hc1d, hc1sc, hrt, List.length_take, hnA]; omega)
  rw [hc1f, hc1d, hc1sc, hrt, hnA] at hconv2
  rw [← ToFormat_eq_ConvertChunk alloc A c1 hA8 hne2] at hconv2
  rw [← ToFormat_eq_ConvertChunk alloc B c hB8 hne1] at hconv1
  exact ⟨c1, _, hconv1, hconv2, fun _ => hc1f, rfl, hc1ch, hc1r, rfl,
    by simp [DspChunk.bytes, DspChunk.GetConstData]⟩

/-- Witness for `ToFormat_roundtrip`: two `Pcm16` samples through `Pcm32` and back. -/
theorem ToFormat_roundtrip_witness :
    ∃ c1 c2, DspChunk.ToFormat (fun _ => some (fun _ => 0)) DspFormat.Pcm32
        { DspChunk.ctorDefault with m_dataSize := 4, m_data := some [1, 2, 0xFF, 0xFF] } =
          Except.ok c1 ∧
      DspChunk.ToFormat (fun _ => some (fun _ => 0)) DspFormat.Pcm16 c1 = Except.ok c2 ∧
      c2.bytes = [1, 2, 0xFF, 0xFF] := by
  obtain ⟨c1, c2, h1, h2, _, _, _, _, _, h8⟩ := ToFormat_roundtrip
    (fun _ => some (fun _ => 0)) DspFormat.Pcm16 DspFormat.Pcm32
    { DspChunk.ctorDefault with m_dataSize := 4, m_data := some [1, 2, 0xFF, 0xFF] }
    (Or.inl ⟨rfl, Or.inr rfl⟩) rfl rfl (by decide) (by decide) (by decide)
    (by
      intro i hi
      have hi2 : i < 2 := hi
      interval_cases i <;> decide)
    (fun _ => rfl)
  exact ⟨c1, c2, h1, h2, h8⟩

/-! ## AudioRenderer: playback state machine -/

/-- C17 as stated fails: `Pause` has no guard.  Called in a stopped renderer it returns and
leaves the state `Paused`, so `Stopped -> Paused` is a transition, and so is
`Paused -> Paused`. -/
theorem Pause_accepted_when_Stopped :
    AudioRenderer.Transition FILTER_STATE.State_Stopped FILTER_STATE.State_Paused ∧
    AudioRenderer.Transition FILTER_STATE.State_Paused FILTER_STATE.State_Paused ∧
    (AudioRenderer.Pause ⟨FILTER_STATE.State_Stopped, none, none, 0, false, false, 0, 0, []⟩).m_state =
      FILTER_STATE.State_Paused :=
  ⟨⟨⟨.State_Stopped, none, none, 0, false, false, 0, 0, []⟩, _, rfl, rfl, Or.inr (Or.inl rfl)⟩,
   ⟨⟨.State_Paused, none, none, 0, false, false, 0, 0, []⟩, _, rfl, rfl, Or.inr (Or.inl rfl)⟩,
   rfl⟩

theorem StartDevice_state (r r1 : AudioRenderer) (h : AudioRenderer.StartDevice r = Except.ok r1) :
    r1.m_state = r.m_state ∧ r1.m_device = r.m_device := by
  unfold AudioRenderer.StartDevice at h
  split at h
  · cases h
  · split at h <;> (cases h; exact ⟨rfl, by simp [*]⟩)

theorem Play_spec (startTime : Int) (r : AudioRenderer) :
    (r.m_state = FILTER_STATE.State_Running →
      AudioRenderer.Play startTime r = Except.error Thrown.assertion) ∧
    (r.m_state ≠ FILTER_STATE.State_Running →
      ∃ r1, AudioRenderer.Play startTime r = Except.ok r1 ∧
        r1.m_state = FILTER_STATE.State_Running) := by
  constructor
  · intro h
    simp [AudioRenderer.Play, h]
  · intro h
    simp only [AudioRenderer.Play, if_neg h, AudioRenderer.StartDevice]
    cases hd : r.m_device <;> simp

theorem Pause_state (r : AudioRenderer) :
    (AudioRenderer.Pause r).m_state = FILTER_STATE.State_Paused := by
  unfold AudioRenderer.Pause
  cases r.m_device <;> rfl

theorem Stop_state (r : AudioRenderer) :
    (AudioRenderer.Stop r).m_state = FILTER_STATE.State_Stopped ∧
    (AudioRenderer.Stop r).m_device = none := by
  unfold AudioRenderer.Stop AudioRenderer.ClearDevice
  cases hd : r.m_device <;> simp [hd]

/-- C17, amended.  Over `Play`, `Pause` and `Stop` the transitions are exactly
`Stopped -> Running` and `Paused -> Running` (`Play`), any state `-> Paused` (`Pause`) and any
state `-> Stopped` (`Stop`): `Play` fails its assertion in `Running`, `Pause` is accepted in
every state, and after `Stop` the state is `Stopped` and no device is held. -/
theorem Transition_iff (a b : FILTER_STATE) :
    (AudioRenderer.Transition a b ↔
      (a ≠ FILTER_STATE.State_Running ∧ b = FILTER_STATE.State_Running) ∨
      b = FILTER_STATE.State_Paused ∨ b = FILTER_STATE.State_Stopped) ∧
    (∀ (r : AudioRenderer) (startTime : Int), r.m_state = FILTER_STATE.State_Running →
      AudioRenderer.Play startTime r = Except.error Thrown.assertion) ∧
    (∀ r : AudioRenderer, (AudioRenderer.Pause r).m_state = FILTER_STATE.State_Paused) ∧
    (∀ r : AudioRenderer, (AudioRenderer.Stop r).m_state = FILTER_STATE.State_Stopped ∧
      (AudioRenderer.Stop r).m_device = none) := by
  refine ⟨⟨?_, ?_⟩, fun r t h => (Play_spec t r).1 h, Pause_state, Stop_state⟩
  · rintro ⟨r, r1, ha, hb, ⟨t, h⟩ | h | h⟩
    · left
      have hnr : r.m_state ≠ FILTER_STATE.State_Running := by
        intro hr
        rw [(Play_spec t r).1 hr] at h
        cases h
      obtain ⟨r2, h2, h3⟩ := (Play_spec t r).2 hnr
      rw [h] at h2
      cases h2
      exact ⟨ha ▸ hnr, hb ▸ h3⟩
    · right; left
      rw [← hb, ← h]; exact Pause_state r
    · right; right
      rw [← hb, ← h]; exact (Stop_state r).1
  · rintro (⟨ha, hb⟩ | hb | hb)
    · obtain ⟨r1, h1, h2⟩ := (Play_spec 0 ⟨a, none, none, 0, false, false, 0, 0, []⟩).2 ha
      exact ⟨_, r1, rfl, hb ▸ h2, Or.inl ⟨0, h1⟩⟩
    · exact ⟨⟨a, none, none, 0, false, false, 0, 0, []⟩, _, rfl,
        hb ▸ Pause_state _, Or.inr (Or.inl rfl)⟩
    · exact ⟨⟨a, none, none, 0, false, false, 0, 0, []⟩, _, rfl,
        hb ▸ (Stop_state _).1, Or.inr (Or.inr rfl)⟩

/-- Witness for `Transition_iff`: `Play` takes a paused renderer to `Running` and is rejected
in a running one. -/
theorem Transition_iff_witness :
    AudioRenderer.Transition FILTER_STATE.State_Paused FILTER_STATE.State_Running ∧
    AudioRenderer.Play 5 ⟨FILTER_STATE.State_Running, none, none, 0, false, false, 0, 0, []⟩ =
      Except.error Thrown.assertion :=
  ⟨(Transition_iff FILTER_STATE.State_Paused FILTER_STATE.State_Running).1.2
      (Or.inl ⟨by decide, rfl⟩),
   (Transition_iff FILTER_STATE.State_Paused FILTER_STATE.State_Running).2.1 _ 5 rfl⟩

/-! ## AudioRenderer: clock correction -/

/-- C20. In a running renderer with a device, `ApplyClockCorrection` forms
`offset = timing error - slaved clock offset` and calls `OffsetSlavedClock` exactly when
`|offset|` exceeds 1000 ticks of 100 ns (100 microseconds), passing `offset` itself; up to
1000 ticks it makes no call and changes nothing. -/
theorem ApplyClockCorrection_spec (timingsError slavedClockOffset : Int) (r : AudioRenderer)
    (hin : r.m_inputFormat.isSome = true) (hdev : r.m_device.isSome = true)
    (hrun : r.m_state = FILTER_STATE.State_Running)
    (hte : |timingsError| < 2 ^ 62) (hso : |slavedClockOffset| < 2 ^ 62) :
    ∃ r1, AudioRenderer.ApplyClockCorrection timingsError slavedClockOffset r = Except.ok r1 ∧
      (1000 < |timingsError - slavedClockOffset| →
        r1 = { r with calls := r.calls ++
          [Call.OffsetSlavedClock (timingsError - slavedClockOffset)] }) ∧
      (|timingsError - slavedClockOffset| ≤ 1000 → r1 = r) ∧
      (∀ x, Call.OffsetSlavedClock x ∈ r1.calls.drop r.calls.length ↔
        1000 < |timingsError - slavedClockOffset| ∧ x = timingsError - slavedClockOffset) := by
  have h1 : r.m_inputFormat.isNone = false := by
    cases h : r.m_inputFormat <;> simp_all
  have h2 : r.m_device.isNone = false := by
    cases h : r.m_device <;> simp_all
  rw [abs_lt] at hte hso
  have hoff : toInt64 (timingsError - slavedClockOffset) = timingsError - slavedClockOffset := by
    unfold toInt64; omega
  have habs : abs64 (timingsError - slavedClockOffset) = |timingsError - slavedClockOffset| := by
    unfold abs64 toInt64
    rcases abs_cases (timingsError - slavedClockOffset) with ⟨h, _⟩ | ⟨h, _⟩ <;> rw [h] <;> omega
  simp only [AudioRenderer.ApplyClockCorrection, h1, h2, hrun, hoff, habs, Bool.false_eq_true,
    if_false, ne_eq, not_true_eq_false]
  by_cases hbig : 1000 < |timingsError - slavedClockOffset|
  · rw [if_pos hbig]
    refine ⟨_, rfl, fun _ => rfl, fun h => absurd hbig (not_lt.mpr h), ?_⟩
    intro x
    simp [hbig, eq_comm]
  · rw [if_neg hbig]
    refine ⟨r, rfl, fun h => absurd h hbig, fun _ => rfl, ?_⟩
    intro x
    simp [hbig]

/-- Witness for `ApplyClockCorrection_spec`: an error of 1001 ticks is applied. -/
theorem ApplyClockCorrection_spec_witness :
    ∃ r1, AudioRenderer.ApplyClockCorrection 1001 0
        ⟨FILTER_STATE.State_Running,
          some ⟨⟨1, 2, 48000, 16, KSDATAFORMAT_SUBTYPE.other⟩, 100, 0, false, false,
            DspFormat.Pcm16⟩,
          some ⟨1, 2, 48000, 16, KSDATAFORMAT_SUBTYPE.other⟩, 0, false, false, 0, 0, []⟩ =
        Except.ok r1 ∧
      r1.calls = [Call.OffsetSlavedClock 1001] := by
  obtain ⟨r1, h1, h2, _⟩ := ApplyClockCorrection_spec 1001 0
    ⟨FILTER_STATE.State_Running,
      some ⟨⟨1, 2, 48000, 16, KSDATAFORMAT_SUBTYPE.other⟩, 100, 0, false, false,
        DspFormat.Pcm16⟩,
      some ⟨1, 2, 48000, 16, KSDATAFORMAT_SUBTYPE.other⟩, 0, false, false, 0, 0, []⟩
    rfl rfl rfl (by norm_num) (by norm_num)
  refine ⟨r1, h1, ?_⟩
  rw [h2 (by norm_num)]
  rfl

/-! ## AudioRenderer::Push: the value returned -/

theorem Push_nullDevice_cases (env : PushEnv) (l : PushLocals) (r : AudioRenderer) :
    AudioRenderer.Push.nullDevice env l r = Except.error Thrown.assertion ∧
      r.m_device.isSome = true ∨
    r.m_device = none ∧
      (AudioRenderer.Push.nullDevice env l r =
          Except.ok (LoopStep.brk, { r with m_bufferFilled := true }) ∨
       AudioRenderer.Push.nullDevice env l r =
          Except.ok (LoopStep.next { l with sleepDuration := 1 },
            { r with m_bufferFilled := true })) := by
  simp only [AudioRenderer.Push.nullDevice]
  cases hd : r.m_device with
  | some d => left; simp
  | none =>
    right
    refine ⟨rfl, ?_⟩
    simp only [Option.isSome_none, Bool.false_eq_true, if_false]
    split
    · left; rfl
    · right; rfl

/-- The `try` block leaves the state, the device and the input format of the renderer as
they are, and only adds to the recorded calls. -/
theorem Push_tryWrite_fields (env : PushEnv) (chunk : DspChunk) (frameSize chunkFrames : Nat)
    (l : PushLocals) (d : AudioDeviceBackend) (r : AudioRenderer) :
    (AudioRenderer.Push.tryWrite env chunk frameSize chunkFrames l d r).2.m_state = r.m_state ∧
    (AudioRenderer.Push.tryWrite env chunk frameSize chunkFrames l d r).2.m_device =
      r.m_device ∧
    (∀ l1, (AudioRenderer.Push.tryWrite env chunk frameSize chunkFrames l d r).1 =
      Except.ok l1 → l1.firstIteration = l.firstIteration) := by
  simp only [AudioRenderer.Push.tryWrite]
  repeat' split
  all_goals simp

/-- A pass of the loop returns only from the wait on the flush signal, and then `false`. -/
theorem Push_iteration_ret (env : PushEnv) (chunk : DspChunk) (frameSize chunkFrames : Nat)
    (l : PushLocals) (r r1 : AudioRenderer) (b : Bool)
    (h : AudioRenderer.Push.iteration env chunk frameSize chunkFrames l r =
      Except.ok (LoopStep.ret b, r1)) :
    b = false ∧ l.firstIteration = false ∧ env.flushWait = true ∧ r1 = r := by
  simp only [AudioRenderer.Push.iteration] at h
  split at h
  · rename_i hw
    simp only [Except.ok.injEq, Prod.mk.injEq, LoopStep.ret.injEq] at h
    exact ⟨h.1.symm, hw.1, hw.2, h.2.symm⟩
  · split at h
    · cases h
    · have hnull : ∀ l0 r0, AudioRenderer.Push.nullDevice env l0 r0 ≠
          Except.ok (LoopStep.ret b, r1) := by
        intro l0 r0 h0
        rcases Push_nullDevice_cases env l0 r0 with ⟨h1, _⟩ | ⟨_, h1 | h1⟩ <;>
          (rw [h1] at h0; simp at h0)
      cases hd : r.m_device with
      | none =>
        simp only [hd] at h
        exact absurd h (hnull _ _)
      | some d =>
        simp only [hd] at h
        generalize AudioRenderer.Push.tryWrite env chunk frameSize chunkFrames
          { l with firstIteration := false } d r = res at h
        obtain ⟨res1, r2⟩ := res
        cases res1 with
        | ok l2 => simp at h
        | error e =>
          cases e with
          | hresult hr => exact absurd h (hnull _ _)
          | assertion => simp at h
          | bad_alloc => simp at h

/-- After a pass the loop is no longer in its first iteration. -/
theorem Push_iteration_next (env : PushEnv) (chunk : DspChunk) (frameSize chunkFrames : Nat)
    (l l1 : PushLocals) (r r1 : AudioRenderer)
    (h : AudioRenderer.Push.iteration env chunk frameSize chunkFrames l r =
      Except.ok (LoopStep.next l1, r1)) : l1.firstIteration = false := by
  simp only [AudioRenderer.Push.iteration] at h
  split at h
  · cases h
  · split at h
    · cases h
    · have hnull : ∀ r0, AudioRenderer.Push.nullDevice env { l with firstIteration := false } r0 =
          Except.ok (LoopStep.next l1, r1) → l1.firstIteration = false := by
        intro r0 h0
        rcases Push_nullDevice_cases env { l with firstIteration := false } r0 with
          ⟨h1, _⟩ | ⟨_, h1 | h1⟩ <;> rw [h1] at h0
        · cases h0
        · simp at h0
        · simp only [Except.ok.injEq, Prod.mk.injEq, LoopStep.next.injEq] at h0
          rw [← h0.1]
      cases hd : r.m_device with
      | none =>
        simp only [hd] at h
        exact hnull _ h
      | some d =>
        simp only [hd] at h
        have hf := (Push_tryWrite_fields env chunk frameSize chunkFrames
          { l with firstIteration := false } d r).2.2
        generalize AudioRenderer.Push.tryWrite env chunk frameSize chunkFrames
          { l with firstIteration := false } d r = res at h hf
        obtain ⟨res1, r2⟩ := res
        cases res1 with
        | ok l2 =>
          simp only [Except.ok.injEq, Prod.mk.injEq, LoopStep.next.injEq] at h
          rw [← h.1]
          exact hf l2 rfl
        | error e =>
          cases e with
          | hresult hr => exact hnull _ h
          | assertion => simp at h
          | bad_alloc => simp at h

theorem Push_loop_false (envs : Nat → PushEnv) (chunk : DspChunk) (frameSize chunkFrames : Nat)
    (fuel i : Nat) (l : PushLocals) (r r1 : AudioRenderer)
    (h : AudioRenderer.Push.loop envs chunk frameSize chunkFrames fuel i l r =
      Except.ok (some false, r1)) :
    ∃ j, i ≤ j ∧ (envs j).flushWait = true ∧ (j = i → l.firstIteration = false) := by
  induction fuel generalizing i l r with
  | zero =>
    unfold AudioRenderer.Push.loop at h
    split at h <;> simp at h
  | succ n ih =>
    unfold AudioRenderer.Push.loop at h
    split at h
    · simp only at h
      split at h
      · cases h
      · rename_i b r2 heq
        simp only [Except.ok.injEq, Prod.mk.injEq, Option.some.injEq] at h
        obtain ⟨hb, hf, hw, _⟩ := Push_iteration_ret _ _ _ _ _ _ _ _ heq
        exact ⟨i, le_refl _, hw, fun _ => hf⟩
      · simp at h
      · rename_i l1 r2 heq
        obtain ⟨j, hj, hw, _⟩ := ih (i + 1) l1 r2 h
        exact ⟨j, by omega, hw, fun hji => by omega⟩
    · simp at h

/-- What the `try` block can throw: an `HRESULT` of one of its four device calls, or the
assertion on the frame size. -/
theorem Push_tryWrite_error (env : PushEnv) (chunk : DspChunk) (frameSize chunkFrames : Nat)
    (l : PushLocals) (d : AudioDeviceBackend) (r : AudioRenderer) (e : Thrown)
    (h : (AudioRenderer.Push.tryWrite env chunk frameSize chunkFrames l d r).1 =
      Except.error e) :
    (e = Thrown.assertion ∨ ∃ hr, e = Thrown.hresult hr ∧ FAILED hr = true ∧
      (hr = env.device.GetBufferSize.1 ∨ hr = env.device.GetCurrentPadding.1 ∨
        hr = env.device.GetBuffer ∨ hr = env.device.ReleaseBuffer)) ∧
    (AudioRenderer.Push.tryWrite env chunk frameSize chunkFrames l d r).2.m_pushedFrames =
      r.m_pushedFrames := by
  simp only [AudioRenderer.Push.tryWrite] at h ⊢
  split at h
  · rename_i h1
    rw [if_pos h1]
    simp only [Except.error.injEq] at h
    subst h
    exact ⟨Or.inr ⟨_, rfl, h1, Or.inl rfl⟩, rfl⟩
  · rename_i h1
    rw [if_neg h1]
    split at h
    · rename_i h2
      rw [if_pos h2]
      simp only [Except.error.injEq] at h
      subst h
      exact ⟨Or.inr ⟨_, rfl, h2, Or.inr (Or.inl rfl)⟩, rfl⟩
    · rename_i h2
      rw [if_neg h2]
      split at h
      · cases h
      · rename_i h3
        rw [if_neg h3]
        split at h
        · rename_i h4
          rw [if_pos h4]
          simp only [Except.error.injEq] at h
          subst h
          exact ⟨Or.inr ⟨_, rfl, h4, Or.inr (Or.inr (Or.inl rfl))⟩, rfl⟩
        · rename_i h4
          rw [if_neg h4]
          split at h
          · rename_i h5
            rw [if_pos h5]
            simp only [Except.error.injEq] at h
            subst h
            exact ⟨Or.inl rfl, rfl⟩
          · rename_i h5
            rw [if_neg h5]
            split at h
            · rename_i h6
              rw [if_pos h6]
              simp only [Except.error.injEq] at h
              subst h
              exact ⟨Or.inr ⟨_, rfl, h6, Or.inr (Or.inr (Or.inr rfl))⟩, rfl⟩
            · cases h

/-- The `try` block only adds calls on the device to the record of calls. -/
theorem Push_tryWrite_calls (env : PushEnv) (chunk : DspChunk) (frameSize chunkFrames : Nat)
    (l : PushLocals) (d : AudioDeviceBackend) (r : AudioRenderer) :
    ∃ pre, (AudioRenderer.Push.tryWrite env chunk frameSize chunkFrames l d r).2.calls =
        r.calls ++ pre ∧
      ∀ c ∈ pre, c = Call.GetBufferSize ∨ c = Call.GetCurrentPadding ∨
        (∃ n, c = Call.GetBuffer n) ∨ ∃ n data, c = Call.ReleaseBuffer n data false := by
  simp only [AudioRenderer.Push.tryWrite]
  repeat' split
  all_goals simp only [List.append_assoc]
  all_goals refine ⟨_, rfl, ?_⟩
  all_goals simp

/-- A failing device call makes the `try` block throw an `HRESULT`. -/
theorem Push_tryWrite_throws (env : PushEnv) (chunk : DspChunk) (frameSize chunkFrames : Nat)
    (l : PushLocals) (d : AudioDeviceBackend) (r : AudioRenderer)
    (hfail : FAILED env.device.GetBufferSize.1 = true ∨
      FAILED env.device.GetCurrentPadding.1 = true ∨
      (min (toUInt32 ((env.device.GetBufferSize.2 : Int) - env.device.GetCurrentPadding.2))
          (toUInt32 ((chunkFrames : Int) - l.doneFrames)) ≠ 0 ∧
        (FAILED env.device.GetBuffer = true ∨
          (frameSize = d.waveFormat.wBitsPerSample / 8 * d.waveFormat.nChannels ∧
            FAILED env.device.ReleaseBuffer = true)))) :
    ∃ hr, (AudioRenderer.Push.tryWrite env chunk frameSize chunkFrames l d r).1 =
      Except.error (Thrown.hresult hr) := by
  simp only [AudioRenderer.Push.tryWrite]
  by_cases h1 : FAILED env.device.GetBufferSize.1 = true
  · exact ⟨_, by rw [if_pos h1]⟩
  · rw [if_neg h1]
    by_cases h2 : FAILED env.device.GetCurrentPadding.1 = true
    · exact ⟨_, by rw [if_pos h2]⟩
    · rw [if_neg h2]
      rcases hfail with h | h | ⟨h3, h⟩
      · exact absurd h h1
      · exact absurd h h2
      · rw [if_neg h3]
        by_cases h4 : FAILED env.device.GetBuffer = true
        · exact ⟨_, by rw [if_pos h4]⟩
        · rw [if_neg h4]
          rcases h with h | ⟨h5, h6⟩
          · exact absurd h h4
          · rw [if_neg (not_not.mpr h5), if_pos h6]
            exact ⟨_, rfl⟩

/-- Without a device a pass of the loop makes no call and holds no device afterwards. -/
theorem Push_iteration_nullDevice (env : PushEnv) (chunk : DspChunk)
    (frameSize chunkFrames : Nat) (l : PushLocals) (r : AudioRenderer)
    (hdev : r.m_device = none) (hstate : r.m_state ≠ FILTER_STATE.State_Stopped) :
    ∃ step r1, AudioRenderer.Push.iteration env chunk frameSize chunkFrames l r =
        Except.ok (step, r1) ∧
      r1.m_device = none ∧ r1.calls = r.calls ∧ r1.m_pushedFrames = r.m_pushedFrames ∧
      r1.m_state = r.m_state ∧ (r.m_bufferFilled = true → r1.m_bufferFilled = true) := by
  simp only [AudioRenderer.Push.iteration, hdev]
  by_cases hw : l.firstIteration = false ∧ env.flushWait = true
  · rw [if_pos hw]
    exact ⟨_, _, rfl, hdev, rfl, rfl, rfl, id⟩
  · rw [if_neg hw, if_neg hstate]
    rcases Push_nullDevice_cases env { l with firstIteration := false } r with
      ⟨_, h1⟩ | ⟨_, h1 | h1⟩
    · rw [hdev] at h1; cases h1
    · rw [h1]
      exact ⟨_, _, rfl, hdev, rfl, rfl, rfl, fun _ => rfl⟩
    · rw [h1]
      exact ⟨_, _, rfl, hdev, rfl, rfl, rfl, fun _ => rfl⟩

/-- Without a device the loop of `Push` makes no call at all, holds no device afterwards, and
does not fail in a renderer that is not stopped. -/
theorem Push_loop_nullDevice (envs : Nat → PushEnv) (chunk : DspChunk)
    (frameSize chunkFrames : Nat) (fuel i : Nat) (l : PushLocals) (r : AudioRenderer)
    (hdev : r.m_device = none) (hstate : r.m_state ≠ FILTER_STATE.State_Stopped) :
    ∃ res r1, AudioRenderer.Push.loop envs chunk frameSize chunkFrames fuel i l r =
        Except.ok (res, r1) ∧
      r1.m_device = none ∧ r1.calls = r.calls ∧ r1.m_pushedFrames = r.m_pushedFrames ∧
      r1.m_state = r.m_state ∧ (r.m_bufferFilled = true → r1.m_bufferFilled = true) := by
  induction fuel generalizing i l r with
  | zero =>
    unfold AudioRenderer.Push.loop
    by_cases hlt : l.doneFrames < chunkFrames
    · rw [if_pos hlt]
      exact ⟨_, _, rfl, hdev, rfl, rfl, rfl, id⟩
    · rw [if_neg hlt]
      exact ⟨_, _, rfl, hdev, rfl, rfl, rfl, id⟩
  | succ n ih =>
    unfold AudioRenderer.Push.loop
    by_cases hlt : l.doneFrames < chunkFrames
    · rw [if_pos hlt]
      obtain ⟨step, r1, h1, h2, h3, h4, h5, h6⟩ :=
        Push_iteration_nullDevice (envs i) chunk frameSize chunkFrames l r hdev hstate
      simp only [h1]
      cases step with
      | ret b => exact ⟨_, _, rfl, h2, h3, h4, h5, h6⟩
      | brk => exact ⟨_, _, rfl, h2, h3, h4, h5, h6⟩
      | next l1 =>
        obtain ⟨res, r2, k1, k2, k3, k4, k5, k6⟩ :=
          ih (i + 1) l1 r1 h2 (by rw [h5]; exact hstate)
        exact ⟨res, r2, k1, k2, by rw [k3, h3], by rw [k4, h4], by rw [k5, h5],
          fun hf => k6 (h6 hf)⟩
    · rw [if_neg hlt]
      exact ⟨_, _, rfl, hdev, rfl, rfl, rfl, id⟩

/-- A pass of the loop throws nothing but a failed assertion: an `HRESULT` thrown by a device
call is caught. -/
theorem Push_iteration_error (env : PushEnv) (chunk : DspChunk) (frameSize chunkFrames : Nat)
    (l : PushLocals) (r : AudioRenderer) (e : Thrown)
    (h : AudioRenderer.Push.iteration env chunk frameSize chunkFrames l r = Except.error e) :
    e = Thrown.assertion := by
  have hnull : ∀ l0 r0, AudioRenderer.Push.nullDevice env l0 r0 = Except.error e →
      e = Thrown.assertion := by
    intro l0 r0 h0
    rcases Push_nullDevice_cases env l0 r0 with ⟨h1, _⟩ | ⟨_, h1 | h1⟩ <;> rw [h1] at h0
    · cases h0; rfl
    · cases h0
    · cases h0
  simp only [AudioRenderer.Push.iteration] at h
  split at h
  · cases h
  · split at h
    · cases h; rfl
    · cases hd : r.m_device with
      | none =>
        simp only [hd] at h
        exact hnull _ _ h
      | some d =>
        simp only [hd] at h
        have herr := Push_tryWrite_error env chunk frameSize chunkFrames
          { l with firstIteration := false } d r
        generalize AudioRenderer.Push.tryWrite env chunk frameSize chunkFrames
          { l with firstIteration := false } d r = res at h herr
        obtain ⟨res1, r2⟩ := res
        cases res1 with
        | ok l2 => cases h
        | error e1 =>
          cases e1 with
          | hresult hr => exact hnull _ _ h
          | assertion => cases h; rfl
          | bad_alloc =>
            rcases (herr _ rfl).1 with h1 | ⟨hr, h1, _⟩ <;> cases h1

theorem Push_loop_error (envs : Nat → PushEnv) (chunk : DspChunk) (frameSize chunkFrames : Nat)
    (fuel i : Nat) (l : PushLocals) (r : AudioRenderer) (e : Thrown)
    (h : AudioRenderer.Push.loop envs chunk frameSize chunkFrames fuel i l r =
      Except.error e) : e = Thrown.assertion := by
  induction fuel generalizing i l r with
  | zero =>
    unfold AudioRenderer.Push.loop at h
    split at h <;> cases h
  | succ n ih =>
    unfold AudioRenderer.Push.loop at h
    by_cases hlt : l.doneFrames < chunkFrames
    · rw [if_pos hlt] at h
      cases hit : AudioRenderer.Push.iteration (envs i) chunk frameSize chunkFrames l r with
      | error e1 =>
        simp only [hit] at h
        cases h
        exact Push_iteration_error _ _ _ _ _ _ _ hit
      | ok p =>
        obtain ⟨step, r1⟩ := p
        simp only [hit] at h
        cases step with
        | ret b => cases h
        | brk => cases h
        | next l1 => exact ih _ _ _ h
    · rw [if_neg hlt] at h
      cases h

/-! ## AudioRenderer::Push: C18 and C19 -/

/-- C18. `AudioRenderer::Push` returns `false` only when one of its waits on the flush signal
(before the second or a later pass of the loop) finds the signal raised; when the signal is
never raised every value it returns is `true`, whatever the device does; a failure of a
device call never leaves `Push`; and for an empty chunk `Push` returns `true` at once,
leaving the renderer, and with it the record of calls, exactly as it was. -/
theorem Push_false_only_on_flush (fuel : Nat) (envs : Nat → PushEnv) (chunk : DspChunk)
    (r : AudioRenderer) :
    (∀ r1, AudioRenderer.Push fuel envs chunk r = Except.ok (some false, r1) →
      ∃ j, 0 < j ∧ (envs j).flushWait = true) ∧
    ((∀ j, (envs j).flushWait = false) → ∀ b r1,
      AudioRenderer.Push fuel envs chunk r = Except.ok (some b, r1) → b = true) ∧
    (∀ hr, AudioRenderer.Push fuel envs chunk r ≠ Except.error (Thrown.hresult hr)) ∧
    (chunk.IsEmpty = true → AudioRenderer.Push fuel envs chunk r = Except.ok (some true, r)) := by
  have hfalse : ∀ r1, AudioRenderer.Push fuel envs chunk r = Except.ok (some false, r1) →
      ∃ j, 0 < j ∧ (envs j).flushWait = true := by
    intro r1 h
    unfold AudioRenderer.Push at h
    split at h
    · simp at h
    · obtain ⟨j, _, hw, hj⟩ := Push_loop_false _ _ _ _ _ _ _ _ _ h
      refine ⟨j, ?_, hw⟩
      rcases Nat.eq_zero_or_pos j with h0 | h0
      · have := hj h0
        simp at this
      · exact h0
  refine ⟨hfalse, ?_, ?_, ?_⟩
  · intro hnever b r1 h
    cases b with
    | true => rfl
    | false =>
      obtain ⟨j, _, hw⟩ := hfalse r1 h
      rw [hnever j] at hw
      cases hw
  · intro hr h
    unfold AudioRenderer.Push at h
    split at h
    · cases h
    · have := Push_loop_error _ _ _ _ _ _ _ _ _ h
      cases this
  · intro he
    simp [AudioRenderer.Push, he]

/-- Witness for `Push_false_only_on_flush`: an empty chunk, and a one-frame chunk pushed into
a device whose buffer-size query fails while the graph clock has passed the sample end; both
return `true`. -/
theorem Push_false_only_on_flush_witness :
    AudioRenderer.Push 3 (fun _ => ⟨false, ⟨(E_FAIL, 0), (0, 0), 0, 0⟩, (0, 100), 10⟩)
        DspChunk.ctorDefault
        ⟨FILTER_STATE.State_Running, none, none, 0, false, false, 0, 0, []⟩ =
      Except.ok (some true,
        ⟨FILTER_STATE.State_Running, none, none, 0, false, false, 0, 0, []⟩) ∧
    ∃ r1, AudioRenderer.Push 3 (fun _ => ⟨false, ⟨(E_FAIL, 0), (0, 0), 0, 0⟩, (0, 100), 10⟩)
        { DspChunk.ctorDefault with m_dataSize := 2, m_data := some [1, 2] }
        ⟨FILTER_STATE.State_Running,
          some ⟨⟨1, 1, 48000, 16, KSDATAFORMAT_SUBTYPE.other⟩, 100, 0, false, false,
            DspFormat.Pcm16⟩,
          none, 7, false, false, 0, 0, []⟩ = Except.ok (some true, r1) ∧
      r1.m_device = none :=
  ⟨(Push_false_only_on_flush 3 _ DspChunk.ctorDefault _).2.2.2 rfl,
   _, by
    have h := (Push_false_only_on_flush 3
      (fun _ => ⟨false, ⟨(E_FAIL, 0), (0, 0), 0, 0⟩, (0, 100), 10⟩)
      { DspChunk.ctorDefault with m_dataSize := 2, m_data := some [1, 2] }
      ⟨FILTER_STATE.State_Running,
        some ⟨⟨1, 1, 48000, 16, KSDATAFORMAT_SUBTYPE.other⟩, 100, 0, false, false,
          DspFormat.Pcm16⟩,
        none, 7, false, false, 0, 0, []⟩).2.1 (fun _ => rfl) true _ rfl
    exact rfl, rfl⟩

/-- What `ClearDevice` does to a renderer that holds a device. -/
theorem ClearDevice_some (r : AudioRenderer) (d : AudioDeviceBackend)
    (hdev : r.m_device = some d) :
    AudioRenderer.ClearDevice r =
      { r with
        m_bufferFilled := false
        m_pushedFrames := 0
        m_device := none
        calls := r.calls ++ [Call.UnslaveClockFromAudio, Call.Stop, Call.NewBuffer,
          Call.ReleaseDevice] } := by
  simp only [AudioRenderer.ClearDevice, hdev]

/-- C19. If a device call made in a pass of the loop of `AudioRenderer::Push` fails (the
buffer-size query, the padding query, or, when there are frames to write, the acquiring or
the releasing of the buffer), the pass ends normally, by `break` or by going on to the next
pass: nothing reaches the caller.  Afterwards no device is held, the pushed-frame counter is
zero and the buffer-filled signal is set; the calls made in the pass are the device calls up
to the failing one followed by those of `ClearDevice`, which discards the device; and the
rest of the loop, whatever the surroundings answer, makes no call at all and leaves all this
as it is.  Every `Push` into a renderer that holds no device and is not stopped likewise makes
no call, throws nothing and leaves the renderer without a device. -/
theorem Push_device_failure (env : PushEnv) (chunk : DspChunk) (frameSize chunkFrames : Nat)
    (l : PushLocals) (r : AudioRenderer) (d : AudioDeviceBackend)
    (hdev : r.m_device = some d) (hstate : r.m_state ≠ FILTER_STATE.State_Stopped)
    (hwait : ¬ (l.firstIteration = false ∧ env.flushWait = true))
    (hfail : FAILED env.device.GetBufferSize.1 = true ∨
      FAILED env.device.GetCurrentPadding.1 = true ∨
      (min (toUInt32 ((env.device.GetBufferSize.2 : Int) - env.device.GetCurrentPadding.2))
          (toUInt32 ((chunkFrames : Int) - l.doneFrames)) ≠ 0 ∧
        (FAILED env.device.GetBuffer = true ∨
          (frameSize = d.waveFormat.wBitsPerSample / 8 * d.waveFormat.nChannels ∧
            FAILED env.device.ReleaseBuffer = true)))) :
    (∃ step r1 pre,
      AudioRenderer.Push.iteration env chunk frameSize chunkFrames l r = Except.ok (step, r1) ∧
      (step = LoopStep.brk ∨ ∃ l1, step = LoopStep.next l1) ∧
      r1.m_device = none ∧ r1.m_pushedFrames = 0 ∧ r1.m_bufferFilled = true ∧
      r1.m_state = r.m_state ∧
      r1.calls = r.calls ++ pre ++
        [Call.UnslaveClockFromAudio, Call.Stop, Call.NewBuffer, Call.ReleaseDevice] ∧
      (∀ c ∈ pre, c = Call.GetBufferSize ∨ c = Call.GetCurrentPadding ∨
        (∃ n, c = Call.GetBuffer n) ∨ ∃ n data, c = Call.ReleaseBuffer n data false) ∧
      ∀ (envs : Nat → PushEnv) (chunk2 : DspChunk) (fs cf fuel i : Nat) (l2 : PushLocals),
        ∃ res r2, AudioRenderer.Push.loop envs chunk2 fs cf fuel i l2 r1 = Except.ok (res, r2) ∧
          r2.calls = r1.calls ∧ r2.m_device = none ∧ r2.m_pushedFrames = 0 ∧
          r2.m_bufferFilled = true) ∧
    ∀ r0 : AudioRenderer, r0.m_device = none → r0.m_state ≠ FILTER_STATE.State_Stopped →
      ∀ (fuel : Nat) (envs : Nat → PushEnv) (chunk2 : DspChunk),
        ∃ res r2, AudioRenderer.Push fuel envs chunk2 r0 = Except.ok (res, r2) ∧
          r2.calls = r0.calls ∧ r2.m_device = none ∧ r2.m_pushedFrames = r0.m_pushedFrames ∧
          r2.m_state = r0.m_state := by
  constructor
  · obtain ⟨hr, hthrow⟩ := Push_tryWrite_throws env chunk frameSize chunkFrames
      { l with firstIteration := false } d r hfail
    obtain ⟨hfs, hfd, _⟩ := Push_tryWrite_fields env chunk frameSize chunkFrames
      { l with firstIteration := false } d r
    obtain ⟨pre, hcalls, hpre⟩ := Push_tryWrite_calls env chunk frameSize chunkFrames
      { l with firstIteration := false } d r
    simp only [AudioRenderer.Push.iteration]
    rw [if_neg hwait, if_neg hstate]
    simp only [hdev]
    generalize AudioRenderer.Push.tryWrite env chunk frameSize chunkFrames
      { l with firstIteration := false } d r = res at hthrow hfs hfd hcalls
    obtain ⟨res1, r2⟩ := res
    simp only at hthrow hfs hfd hcalls
    subst hthrow
    simp only
    have hd2 : r2.m_device = some d := by rw [hfd, hdev]
    have hclear := ClearDevice_some r2 d hd2
    have key : ∀ step, (step = LoopStep.brk ∨ ∃ l1, step = LoopStep.next l1) →
        AudioRenderer.Push.nullDevice env { l with firstIteration := false }
          (AudioRenderer.ClearDevice r2) =
          Except.ok (step, { AudioRenderer.ClearDevice r2 with m_bufferFilled := true }) →
        ∃ step r1 pre,
          AudioRenderer.Push.nullDevice env { l with firstIteration := false }
            (AudioRenderer.ClearDevice r2) = Except.ok (step, r1) ∧
          (step = LoopStep.brk ∨ ∃ l1, step = LoopStep.next l1) ∧
          r1.m_device = none ∧ r1.m_pushedFrames = 0 ∧ r1.m_bufferFilled = true ∧
          r1.m_state = r.m_state ∧
          r1.calls = r.calls ++ pre ++
            [Call.UnslaveClockFromAudio, Call.Stop, Call.NewBuffer, Call.ReleaseDevice] ∧
          (∀ c ∈ pre, c = Call.GetBufferSize ∨ c = Call.GetCurrentPadding ∨
            (∃ n, c = Call.GetBuffer n) ∨ ∃ n data, c = Call.ReleaseBuffer n data false) ∧
          ∀ (envs : Nat → PushEnv) (chunk2 : DspChunk) (fs cf fuel i : Nat)
            (l2 : PushLocals),
            ∃ res r2, AudioRenderer.Push.loop envs chunk2 fs cf fuel i l2 r1 =
                Except.ok (res, r2) ∧
              r2.calls = r1.calls ∧ r2.m_device = none ∧ r2.m_pushedFrames = 0 ∧
              r2.m_bufferFilled = true := by
      intro step hstep h1
      have e1 : ({ AudioRenderer.ClearDevice r2 with m_bufferFilled := true } :
          AudioRenderer).m_device = none := by rw [hclear]
      have e2 : ({ AudioRenderer.ClearDevice r2 with m_bufferFilled := true } :
          AudioRenderer).m_pushedFrames = 0 := by rw [hclear]
      have e3 : ({ AudioRenderer.ClearDevice r2 with m_bufferFilled := true } :
          AudioRenderer).m_state = r.m_state := by rw [hclear]; exact hfs
      have e4 : ({ AudioRenderer.ClearDevice r2 with m_bufferFilled := true } :
          AudioRenderer).calls = r.calls ++ pre ++
            [Call.UnslaveClockFromAudio, Call.Stop, Call.NewBuffer, Call.ReleaseDevice] := by
        rw [hclear]
        exact congrArg (fun cs => cs ++
          [Call.UnslaveClockFromAudio, Call.Stop, Call.NewBuffer, Call.ReleaseDevice]) hcalls
      refine ⟨step, _, pre, h1, hstep, e1, e2, rfl, e3, e4, hpre, ?_⟩
      intro envs chunk2 fs cf fuel i l2
      obtain ⟨res, r3, k1, k2, k3, k4, _, k6⟩ := Push_loop_nullDevice envs chunk2 fs cf fuel i l2
        { AudioRenderer.ClearDevice r2 with m_bufferFilled := true } e1
        (by rw [e3]; exact hstate)
      exact ⟨res, r3, k1, k3, k2, by rw [k4, e2], k6 rfl⟩
    rcases Push_nullDevice_cases env { l with firstIteration := false }
      (AudioRenderer.ClearDevice r2) with ⟨_, h1⟩ | ⟨_, h1 | h1⟩
    · rw [hclear] at h1
      cases h1
    · exact key _ (Or.inl rfl) h1
    · exact key _ (Or.inr ⟨_, rfl⟩) h1
  · intro r0 h0 hs0 fuel envs chunk2
    unfold AudioRenderer.Push
    split
    · exact ⟨_, _, rfl, rfl, h0, rfl, rfl⟩
    · obtain ⟨res, r3, k1, k2, k3, k4, k5, _⟩ := Push_loop_nullDevice envs chunk2
        chunk2.GetFrameSize chunk2.GetFrameCount fuel 0
        { doneFrames := 0, sleepDuration := 0, firstIteration := true } r0 h0 hs0
      exact ⟨res, r3, k1, k3, k2, k4, k5⟩

/-- Witness for `Push_device_failure`: the first pass of a running renderer whose device fails
the buffer-size query. -/
theorem Push_device_failure_witness :
    ∃ step r1,
      AudioRenderer.Push.iteration ⟨false, ⟨(E_FAIL, 0), (0, 0), 0, 0⟩, (0, 0), 10⟩
        { DspChunk.ctorDefault with m_dataSize := 2, m_data := some [1, 2] } 2 1
        ⟨0, 0, true⟩
        ⟨FILTER_STATE.State_Running,
          some ⟨⟨1, 1, 48000, 16, KSDATAFORMAT_SUBTYPE.other⟩, 100, 0, false, false,
            DspFormat.Pcm16⟩,
          none, 7, false, false, 0, 0, []⟩ = Except.ok (step, r1) ∧
      r1.m_device = none ∧ r1.m_pushedFrames = 0 ∧ r1.m_bufferFilled = true ∧
      r1.calls = [Call.GetBufferSize, Call.UnslaveClockFromAudio, Call.Stop, Call.NewBuffer,
        Call.ReleaseDevice] := by
  obtain ⟨step, r1, pre, h, _, h1, h2, h3, _⟩ :=
    (Push_device_failure ⟨false, ⟨(E_FAIL, 0), (0, 0), 0, 0⟩, (0, 0), 10⟩
      { DspChunk.ctorDefault with m_dataSize := 2, m_data := some [1, 2] } 2 1
      ⟨0, 0, true⟩
      ⟨FILTER_STATE.State_Running,
        some ⟨⟨1, 1, 48000, 16, KSDATAFORMAT_SUBTYPE.other⟩, 100, 0, false, false,
          DspFormat.Pcm16⟩,
        none, 7, false, false, 0, 0, []⟩
      ⟨⟨1, 1, 48000, 16, KSDATAFORMAT_SUBTYPE.other⟩, 100, 0, false, false, DspFormat.Pcm16⟩
      rfl (by decide) (by decide) (Or.inl rfl)).1
  refine ⟨step, r1, h, h1, h2, h3, ?_⟩
  have h4 : Except.ok (step, r1) = (Except.ok (LoopStep.next ⟨0, 1, false⟩,
      ⟨FILTER_STATE.State_Running, none, none, 0, true, false, 0, 0,
        [Call.GetBufferSize, Call.UnslaveClockFromAudio, Call.Stop, Call.NewBuffer,
          Call.ReleaseDevice]⟩) : Except Thrown (LoopStep PushLocals × AudioRenderer)) :=
    h.symm.trans rfl
  cases h4
  rfl

/-! ## AudioRenderer::Finish: C16 -/

theorem doBlock_loop_stalled (envs : Nat → BlockEnv) (env : BlockEnv) (d : AudioDeviceBackend)
    (henvs : ∀ i, envs i = env)
    (hfreq : FAILED env.GetFrequency.1 = false) (hpos : FAILED env.GetPosition.1 = false)
    (hflush : env.flushWait = false)
    (fuel i : Nat) (r : AudioRenderer) (hdev : r.m_device = some d)
    (hend : llMulDiv (toInt64 env.GetPosition.2) OneSecond (toInt64 env.GetFrequency.2) 0 ≠
      llMulDiv (toInt64 r.m_pushedFrames) OneSecond d.waveFormat.nSamplesPerSec 0)
    (hmax : llMulDiv (toInt64 env.GetPosition.2) OneSecond (toInt64 env.GetFrequency.2) 0 ≠
      INT64_MAX) :
    AudioRenderer.Finish.doBlock.loop envs fuel i r =
      (none, { r with calls := r.calls ++
        (List.replicate fuel [Call.GetFrequency, Call.GetPosition]).flatten }) := by
  induction fuel generalizing i r with
  | zero => simp [AudioRenderer.Finish.doBlock.loop]
  | succ n ih =>
    have hit : AudioRenderer.Finish.doBlock.iteration (envs i) r =
        (LoopStep.next (), { r with calls := r.calls ++ [Call.GetFrequency] ++
          [Call.GetPosition] }) := by
      rw [henvs i]
      simp only [AudioRenderer.Finish.doBlock.iteration, hdev, hfreq, hpos, hflush]
      simp [hend, hmax]
    unfold AudioRenderer.Finish.doBlock.loop
    simp only [hit]
    have h := ih (i + 1) { r with calls := r.calls ++ [Call.GetFrequency] ++
      [Call.GetPosition] } hdev hend
    rw [h]
    simp [List.replicate_succ]

/-- C16 (the code against the claim). With a device present, in any state (`State_Running`
included), the flush signal never raised and the device answering every poll with the same
position, short of the end of the stream, `doBlock` does not return at the second poll nor
at any later one:
for every number of passes the loop is still running, having polled the position once in
each pass.  The position of the pass before is not kept: `previous` is `INT64_MAX` in every
pass. -/
theorem doBlock_stalled_never_returns (fuel : Nat) (envs : Nat → BlockEnv) (env : BlockEnv)
    (d : AudioDeviceBackend) (r : AudioRenderer)
    (henvs : ∀ i, envs i = env)
    (hfreq : FAILED env.GetFrequency.1 = false) (hpos : FAILED env.GetPosition.1 = false)
    (hflush : env.flushWait = false)
    (hdev : r.m_device = some d)
    (hend : llMulDiv (toInt64 env.GetPosition.2) OneSecond (toInt64 env.GetFrequency.2) 0 ≠
      llMulDiv (toInt64 r.m_pushedFrames) OneSecond d.waveFormat.nSamplesPerSec 0)
    (hmax : llMulDiv (toInt64 env.GetPosition.2) OneSecond (toInt64 env.GetFrequency.2) 0 ≠
      INT64_MAX) :
    AudioRenderer.Finish.doBlock fuel envs r =
      (none, { r with calls := r.calls ++ [Call.UnslaveClockFromAudio] ++
        (List.replicate fuel [Call.GetFrequency, Call.GetPosition]).flatten }) := by
  unfold AudioRenderer.Finish.doBlock
  exact doBlock_loop_stalled envs env d henvs hfreq hpos hflush fuel 0
    { r with calls := r.calls ++ [Call.UnslaveClockFromAudio] } hdev hend hmax

/-- Witness for `doBlock_stalled_never_returns`: 48000 frames pushed at 48 kHz, the device
clock standing at half a second, five passes. -/
theorem doBlock_stalled_never_returns_witness :
    AudioRenderer.Finish.doBlock 5 (fun _ => ⟨(0, 1000), (0, 500), false⟩)
      ⟨FILTER_STATE.State_Running,
        some ⟨⟨1, 2, 48000, 16, KSDATAFORMAT_SUBTYPE.other⟩, 100, 0, false, false,
          DspFormat.Pcm16⟩,
        none, 48000, true, false, 0, 0, []⟩ =
      (none, ⟨FILTER_STATE.State_Running,
        some ⟨⟨1, 2, 48000, 16, KSDATAFORMAT_SUBTYPE.other⟩, 100, 0, false, false,
          DspFormat.Pcm16⟩,
        none, 48000, true, false, 0, 0,
        [Call.UnslaveClockFromAudio,
          Call.GetFrequency, Call.GetPosition, Call.GetFrequency, Call.GetPosition,
          Call.GetFrequency, Call.GetPosition, Call.GetFrequency, Call.GetPosition,
          Call.GetFrequency, Call.GetPosition]⟩) :=
  doBlock_stalled_never_returns 5 (fun _ => ⟨(0, 1000), (0, 500), false⟩)
    ⟨(0, 1000), (0, 500), false⟩
    ⟨⟨1, 2, 48000, 16, KSDATAFORMAT_SUBTYPE.other⟩, 100, 0, false, false, DspFormat.Pcm16⟩
    ⟨FILTER_STATE.State_Running,
      some ⟨⟨1, 2, 48000, 16, KSDATAFORMAT_SUBTYPE.other⟩, 100, 0, false, false,
        DspFormat.Pcm16⟩,
      none, 48000, true, false, 0, 0, []⟩
    (fun _ => rfl) rfl rfl rfl rfl (by decide) (by decide)

/-! ## AudioDevice: writing a chunk to the device -/

theorem toUInt32_natCast (n : Nat) (h : n < 2 ^ 32) : toUInt32 (n : Int) = n := by
  unfold toUInt32
  omega

theorem Feedable_frames (backend : AudioDeviceBackend) (c : DspChunk)
    (hf : c.Feedable backend) :
    c.GetFrameCount * c.GetFrameSize = c.m_dataSize ∧ c.GetFrameCount < 2 ^ 32 ∧
    c.bytes.length = c.m_dataSize := by
  obtain ⟨_, hal, hlt, _, hlen⟩ := hf
  refine ⟨Nat.div_mul_cancel hal, ?_, ?_⟩
  · exact lt_of_le_of_lt (Nat.div_le_self _ _) hlt
  · simp only [DspChunk.bytes, List.length_take]
    omega

/-- Method `GetData` on a chunk that can be fed: the chunk owns its data afterwards, and
nothing visible has changed. -/
theorem GetData_feedable (alloc : Allocator) (backend : AudioDeviceBackend) (c : DspChunk)
    (hf : c.Feedable backend) (halloc : (alloc c.m_dataSize).isSome = true) :
    ∃ c1, c.GetData alloc = Except.ok (c1, c1.m_data) ∧ c1.m_delayedCopy = false ∧
      c1.Feedable backend ∧ c1.m_dataSize = c.m_dataSize ∧
      c1.GetFrameSize = c.GetFrameSize ∧ c1.GetFrameCount = c.GetFrameCount ∧
      c1.bytes = c.bytes := by
  obtain ⟨hfs, hal, hlt, hv, hlen⟩ := hf
  obtain ⟨c1, h1, h2, h3, _, h5, h6, h7⟩ := InvokeDelayedCopy_spec alloc c hv halloc
  have hsize : c1.GetFrameSize = c.GetFrameSize := by
    simp only [DspChunk.GetFrameSize, DspChunk.GetFormatSize, DspChunk.GetChannelCount, h2, h3]
  have hbytes : c1.bytes = c.bytes := by
    rw [← h7, DspChunk.bytes, h5]
  have hlen1 : c1.m_dataSize ≤ (c1.GetConstData.getD []).length := by
    have h8 := congrArg List.length h7
    simp only [DspChunk.bytes, List.length_take] at h8
    omega
  refine ⟨c1, ?_, h6, ⟨?_, ?_, ?_, ?_, hlen1⟩, h5, hsize, ?_, hbytes⟩
  · simp only [DspChunk.GetData, h1]
  · rw [hsize]; exact hfs
  · simp only [DspChunk.FrameAligned, hsize, h5]; exact hal
  · rw [h5]; exact hlt
  · intro hd; rw [h6] at hd; cases hd
  · simp only [DspChunk.GetFrameCount, hsize, h5]

/-- Method `ShrinkHead` on a chunk that owns its data and can be fed, shrunk by `d` of its
frames: what is left are the bytes after the first `d` frames. -/
theorem ShrinkHead_feedable (alloc : Allocator) (backend : AudioDeviceBackend) (c : DspChunk)
    (d : Nat) (hf : c.Feedable backend) (hown : c.m_delayedCopy = false)
    (hd : d ≤ c.GetFrameCount) :
    ∃ c2, c.ShrinkHead alloc (c.GetFrameCount - d) = Except.ok c2 ∧
      c2.m_delayedCopy = false ∧ c2.Feedable backend ∧
      c2.m_dataSize = c.m_dataSize - d * c.GetFrameSize ∧
      c2.GetFrameSize = c.GetFrameSize ∧ c2.GetFrameCount = c.GetFrameCount - d ∧
      c2.bytes = c.bytes.drop (d * c.GetFrameSize) := by
  obtain ⟨hmul, hfc, _⟩ := Feedable_frames backend c hf
  obtain ⟨hfs, hal, hlt, hv, hlen⟩ := hf
  by_cases h0 : d = 0
  · subst h0
    refine ⟨c, ?_, hown, ⟨hfs, hal, hlt, hv, hlen⟩, by simp, rfl, by simp, by simp⟩
    simp [DspChunk.ShrinkHead]
  · have hlt2 : c.GetFrameCount - d < c.GetFrameCount := by omega
    have hle : d * c.GetFrameSize ≤ c.m_dataSize := by
      rw [← hmul]; exact Nat.mul_le_mul_right _ hd
    have hsub : c.GetFrameCount - (c.GetFrameCount - d) = d := by omega
    have hms : mulSize d c.GetFrameSize = d * c.GetFrameSize := by
      unfold mulSize
      exact Nat.mod_eq_of_lt (by omega)
    have hidc : c.InvokeDelayedCopy alloc = Except.ok c := by
      simp [DspChunk.InvokeDelayedCopy, hown]
    have hgc : c.GetConstData = c.m_data := by simp [DspChunk.GetConstData, hown]
    rw [hgc] at hlen
    refine ⟨{ c with
        m_data := c.m_data.map (fun block => block.drop (d * c.GetFrameSize))
        m_dataSize := c.m_dataSize - d * c.GetFrameSize }, ?_, hown, ⟨hfs, ?_, ?_, ?_, ?_⟩,
      rfl, rfl, ?_, ?_⟩
    · simp only [DspChunk.ShrinkHead, if_pos hlt2, hidc, hsub, hms]
    · simp only [DspChunk.FrameAligned]
      exact (Nat.dvd_sub' hal (Dvd.intro_left d rfl))
    · simp only; omega
    · intro hd2; rw [hown] at hd2; cases hd2
    · simp only [DspChunk.GetConstData, hown, Bool.false_eq_true, if_false]
      cases hm : c.m_data with
      | none => simp [hm] at hlen; simp; omega
      | some blk => simp [hm] at hlen ⊢; omega
    · simp only [DspChunk.GetFrameCount]
      show (c.m_dataSize - d * c.GetFrameSize) / c.GetFrameSize = c.m_dataSize / c.GetFrameSize - d
      have hpos : 0 < c.GetFrameSize := by
        rcases Nat.eq_zero_or_pos c.GetFrameSize with hz | hz
        · have hz2 : c.GetFrameCount = 0 := by simp [DspChunk.GetFrameCount, hz]
          omega
        · exact hz
      rw [Nat.mul_comm d, Nat.sub_mul_div _ _ _ (by rw [Nat.mul_comm]; exact hle)]
    · simp only [DspChunk.bytes, DspChunk.GetConstData, hown, Bool.false_eq_true, if_false]
      cases hm : c.m_data with
      | none => simp
      | some blk =>
        simp only [Option.map_some', Option.getD_some]
        rw [List.drop_take]


/-- What `PushToDevice` does with a chunk that can be fed, when no device call fails and the
heap does not run out: it writes the first `d` frames of the chunk in one `ReleaseBuffer`,
`d` being the smaller of the room in the device buffer and the frame count, leaves the rest
in the chunk, and counts the `d` frames as pushed. -/
theorem PushToDevice_feedable (reply : DeviceReply) (alloc : Allocator) (c : DspChunk)
    (filled : Option Bool) (dev : AudioDevice) (d : Nat)
    (hf : c.Feedable dev.m_backend)
    (h1 : FAILED reply.GetBufferSize.1 = false) (h2 : FAILED reply.GetCurrentPadding.1 = false)
    (h3 : FAILED reply.GetBuffer = false) (h4 : FAILED reply.ReleaseBuffer = false)
    (halloc : ∀ n, (alloc n).isSome = true)
    (hd : d = min (toUInt32 ((reply.GetBufferSize.2 : Int) - reply.GetCurrentPadding.2))
      c.GetFrameCount) :
    ∃ c2, dev.PushToDevice reply alloc c filled =
        ⟨none, c2,
          if d ≠ 0 ∧ filled.isSome = true ∧
              toUInt32 ((reply.GetCurrentPadding.2 : Int) + d) = reply.GetBufferSize.2
            then some true else filled,
          { dev with
            calls := dev.calls ++ [Call.GetBufferSize, Call.GetCurrentPadding] ++
              (if d = 0 then []
                else [Call.GetBuffer d,
                  Call.ReleaseBuffer d (c.bytes.take (d * c.GetFrameSize)) false])
            m_pushedFrames :=
              if d = 0 then dev.m_pushedFrames else addSize dev.m_pushedFrames d }⟩ ∧
      c2.Feedable dev.m_backend ∧ c2.bytes = c.bytes.drop (d * c.GetFrameSize) ∧
      c2.GetFrameCount = c.GetFrameCount - d ∧ c2.GetFrameSize = c.GetFrameSize ∧
      c2.m_dataSize = c.m_dataSize - d * c.GetFrameSize ∧ (d = 0 → c2 = c) := by
  obtain ⟨hmul, hfc, hblen⟩ := Feedable_frames _ c hf
  have hcast : toUInt32 (c.GetFrameCount : Int) = c.GetFrameCount := toUInt32_natCast _ hfc
  simp only [AudioDevice.PushToDevice, h1, h2, h3, h4, hcast, ← hd, Bool.false_eq_true,
    if_false]
  by_cases h0 : d = 0
  · refine ⟨c, ?_, hf, by simp [h0], by simp [h0], rfl, by simp [h0], fun _ => rfl⟩
    simp [h0]
  · have hdle : d ≤ c.GetFrameCount := by rw [hd]; exact Nat.min_le_right _ _
    obtain ⟨c1, g1, g2, g3, g4, g5, g6, g7⟩ :=
      GetData_feedable alloc dev.m_backend c hf (halloc _)
    obtain ⟨c2, k1, k2, k3, k4, k5, k6, k7⟩ :=
      ShrinkHead_feedable alloc dev.m_backend c1 d g3 g2 (by rw [g6]; exact hdle)
    have hle : d * c.GetFrameSize ≤ c.m_dataSize := by
      rw [← hmul]; exact Nat.mul_le_mul_right _ hdle
    have hmu : mulUInt32 d c1.GetFrameSize = d * c.GetFrameSize := by
      rw [g5]
      unfold mulUInt32
      exact Nat.mod_eq_of_lt (lt_of_le_of_lt hle hf.2.2.1)
    have hcopied : slice (c1.m_data.getD []) 0 (mulUInt32 d c1.GetFrameSize) =
        c.bytes.take (d * c.GetFrameSize) := by
      rw [hmu, ← g7]
      simp only [slice, List.drop_zero, DspChunk.bytes, DspChunk.GetConstData, g2,
        Bool.false_eq_true, if_false, List.take_take]
      rw [g4, Nat.min_eq_left hle]
    refine ⟨c2, ?_, k3, by rw [k7, g7, g5], by rw [k6, g6], by rw [k5, g5],
      by rw [k4, g4, g5], fun h => absurd h h0⟩
    rw [g6] at k1
    simp only [if_neg h0, hf.1, ne_eq, not_true_eq_false, if_false, g1, hcopied, g6, hdle,
      not_true_eq_false, if_false, k1, h0, not_false_eq_true, true_and, List.append_assoc,
      List.cons_append, List.nil_append]


/-! ## AudioDevice::Push on a direct-write device: C13 and C14 -/

/-- C13. On a direct-write device, for a chunk of whole frames in the device format whose
data is present (byte length below `2 ^ 32`), a device that reports padding <= buffer size
and fails no call, and a heap that does not run out, one call of `AudioDevice::Push` returns
normally after at most one write: with `d = min(bufferFrames - padding, n)`, `n` the frame
count of the chunk, the calls made are the two queries and, unless `d = 0`, one `GetBuffer`
and one `ReleaseBuffer` of `d` frames carrying the first `d` frames of the chunk; the chunk
is left holding the other `n - d` frames, and the pushed-frame counter has grown by exactly
`d`.  A "filled" event that was supplied is set when the write has filled the buffer. -/
theorem Push_direct_write (reply : DeviceReply) (alloc : Allocator) (dequeAlloc : Bool)
    (c : DspChunk) (filled : Option Bool) (dev : AudioDevice) (d : Nat)
    (hrt : dev.IsRealtime = false) (hf : c.Feedable dev.m_backend)
    (h1 : FAILED reply.GetBufferSize.1 = false) (h2 : FAILED reply.GetCurrentPadding.1 = false)
    (h3 : FAILED reply.GetBuffer = false) (h4 : FAILED reply.ReleaseBuffer = false)
    (halloc : ∀ n, (alloc n).isSome = true)
    (hpad : reply.GetCurrentPadding.2 ≤ reply.GetBufferSize.2)
    (hbuf : reply.GetBufferSize.2 < 2 ^ 32)
    (hcount : dev.m_pushedFrames + c.GetFrameCount < 2 ^ 64)
    (hd : d = min (reply.GetBufferSize.2 - reply.GetCurrentPadding.2) c.GetFrameCount) :
    ∃ c2, dev.Push reply alloc dequeAlloc c filled =
        ⟨none, c2,
          if d ≠ 0 ∧ filled.isSome = true ∧
              reply.GetCurrentPadding.2 + d = reply.GetBufferSize.2
            then some true else filled,
          { dev with
            calls := dev.calls ++ [Call.GetBufferSize, Call.GetCurrentPadding] ++
              (if d = 0 then []
                else [Call.GetBuffer d,
                  Call.ReleaseBuffer d (c.bytes.take (d * c.GetFrameSize)) false])
            m_pushedFrames := dev.m_pushedFrames + d }⟩ ∧
      c2.GetFrameCount = c.GetFrameCount - d ∧
      c2.bytes = c.bytes.drop (d * c.GetFrameSize) ∧
      c2.bytes.length = (c.GetFrameCount - d) * c.GetFrameSize ∧
      c2.GetFrameSize = c.GetFrameSize := by
  have hsub : toUInt32 ((reply.GetBufferSize.2 : Int) - reply.GetCurrentPadding.2) =
      reply.GetBufferSize.2 - reply.GetCurrentPadding.2 := by
    unfold toUInt32
    omega
  obtain ⟨c2, k1, k2, k3, k4, k5, k6, _⟩ := PushToDevice_feedable reply alloc c filled dev d hf
    h1 h2 h3 h4 halloc (by rw [hsub]; exact hd)
  have hdle : d ≤ c.GetFrameCount := by rw [hd]; exact Nat.min_le_right _ _
  have hpush : (if d = 0 then dev.m_pushedFrames else addSize dev.m_pushedFrames d) =
      dev.m_pushedFrames + d := by
    by_cases h0 : d = 0
    · simp [h0]
    · rw [if_neg h0]
      unfold addSize
      exact Nat.mod_eq_of_lt (by omega)
  have hcast : toUInt32 ((reply.GetCurrentPadding.2 : Int) + d) =
      reply.GetCurrentPadding.2 + d := by
    have hle : d ≤ reply.GetBufferSize.2 - reply.GetCurrentPadding.2 := by
      rw [hd]; exact Nat.min_le_left _ _
    unfold toUInt32
    omega
  refine ⟨c2, ?_, k4, k3, ?_, k5⟩
  · simp only [AudioDevice.Push, hrt, Bool.false_eq_true, if_false, k1, hpush, hcast]
  · obtain ⟨m1, _, m3⟩ := Feedable_frames _ c2 k2
    rw [m3, ← m1, k4, k5]

/-- Witness for `Push_direct_write`: a mono 16-bit chunk of three frames pushed into a buffer
of eight frames that has room for two. -/
theorem Push_direct_write_witness :
    ∃ c2,
      AudioDevice.Push ⟨(0, 8), (0, 6), 0, 0⟩ (fun _ => some (fun _ => 0)) true
        { DspChunk.ctorDefault with m_dataSize := 6, m_data := some [1, 2, 3, 4, 5, 6] }
        (some false)
        ⟨⟨⟨1, 1, 48000, 16, KSDATAFORMAT_SUBTYPE.other⟩, 100, 0, false, false, DspFormat.Pcm16⟩,
          10, 0, 0, [], false, []⟩ =
        ⟨none, c2, some true,
          ⟨⟨⟨1, 1, 48000, 16, KSDATAFORMAT_SUBTYPE.other⟩, 100, 0, false, false,
            DspFormat.Pcm16⟩,
            12, 0, 0, [], false,
            [Call.GetBufferSize, Call.GetCurrentPadding, Call.GetBuffer 2,
              Call.ReleaseBuffer 2 [1, 2, 3, 4] false]⟩⟩ ∧
      c2.GetFrameCount = 1 ∧ c2.bytes = [5, 6] := by
  obtain ⟨c2, h, k1, k2, _, _⟩ := Push_direct_write ⟨(0, 8), (0, 6), 0, 0⟩
    (fun _ => some (fun _ => 0)) true
    { DspChunk.ctorDefault with m_dataSize := 6, m_data := some [1, 2, 3, 4, 5, 6] }
    (some false)
    ⟨⟨⟨1, 1, 48000, 16, KSDATAFORMAT_SUBTYPE.other⟩, 100, 0, false, false, DspFormat.Pcm16⟩,
      10, 0, 0, [], false, []⟩ 2 rfl
    ⟨by decide, by decide, by decide, fun h => (by cases h), by decide⟩
    rfl rfl rfl rfl (fun _ => rfl) (by decide) (by decide) (by decide) (by decide)
  exact ⟨c2, h, k1, k2⟩

/-- C14 (the claim as stated fails). A direct-write `AudioDevice::Push` of a one-frame chunk
with a "filled" event that is not set, into a device whose padding equals its buffer size,
returns with the event still not set; and the pass of `AudioRenderer::Push` in the same
situation goes on to the next pass with `m_bufferFilled` still not set. -/
theorem Push_full_buffer_not_signalled :
    (AudioDevice.Push ⟨(0, 8), (0, 8), 0, 0⟩ (fun _ => some (fun _ => 0)) true
        { DspChunk.ctorDefault with m_dataSize := 2, m_data := some [1, 2] } (some false)
        ⟨⟨⟨1, 1, 48000, 16, KSDATAFORMAT_SUBTYPE.other⟩, 100, 0, false, false, DspFormat.Pcm16⟩,
          10, 0, 0, [], false, []⟩).pFilledEvent = some false ∧
    AudioRenderer.Push.iteration ⟨false, ⟨(0, 8), (0, 8), 0, 0⟩, (0, 0), 10⟩
        { DspChunk.ctorDefault with m_dataSize := 2, m_data := some [1, 2] } 2 1 ⟨0, 0, true⟩
        ⟨FILTER_STATE.State_Running,
          some ⟨⟨1, 1, 48000, 16, KSDATAFORMAT_SUBTYPE.other⟩, 100, 0, false, false,
            DspFormat.Pcm16⟩,
          none, 7, false, false, 0, 0, []⟩ =
      Except.ok (LoopStep.next ⟨0, 25, false⟩,
        ⟨FILTER_STATE.State_Running,
          some ⟨⟨1, 1, 48000, 16, KSDATAFORMAT_SUBTYPE.other⟩, 100, 0, false, false,
            DspFormat.Pcm16⟩,
          none, 7, false, false, 0, 0, [Call.GetBufferSize, Call.GetCurrentPadding]⟩) := by
  constructor
  · rfl
  · rfl

/-- C14 (amended). When the device reports, without failing, current padding equal to its
full buffer size, a direct-write `AudioDevice::Push` of any chunk, with any "filled" event or
none, makes the two queries and nothing else: it writes zero frames and leaves the chunk, the
pushed-frame counter and the "filled" event as they were.  The same holds for the `try`
block of `AudioRenderer::Push`: it goes on to the next pass with `doneFrames`,
`m_pushedFrames` and `m_bufferFilled` as they were. -/
theorem Push_full_buffer (reply : DeviceReply) (alloc : Allocator) (dequeAlloc : Bool)
    (c : DspChunk) (filled : Option Bool) (dev : AudioDevice)
    (hrt : dev.IsRealtime = false)
    (h1 : FAILED reply.GetBufferSize.1 = false) (h2 : FAILED reply.GetCurrentPadding.1 = false)
    (hfull : reply.GetCurrentPadding.2 = reply.GetBufferSize.2) :
    dev.Push reply alloc dequeAlloc c filled =
      ⟨none, c, filled,
        { dev with calls := dev.calls ++ [Call.GetBufferSize, Call.GetCurrentPadding] }⟩ ∧
    ∀ (env : PushEnv) (frameSize chunkFrames : Nat) (l : PushLocals) (d : AudioDeviceBackend)
      (r : AudioRenderer), env.device = reply →
      AudioRenderer.Push.tryWrite env c frameSize chunkFrames l d r =
        (Except.ok { l with sleepDuration := d.bufferDuration / 4 },
          { r with calls := r.calls ++ [Call.GetBufferSize, Call.GetCurrentPadding] }) := by
  have hz : toUInt32 ((reply.GetBufferSize.2 : Int) - reply.GetCurrentPadding.2) = 0 := by
    rw [hfull]
    simp [toUInt32]
  constructor
  · simp [AudioDevice.Push, hrt, AudioDevice.PushToDevice, h1, h2, hz]
  · intro env frameSize chunkFrames l d r henv
    subst henv
    simp [AudioRenderer.Push.tryWrite, h1, h2, hz]

/-- Witness for `Push_full_buffer`: the buffer of eight frames is full. -/
theorem Push_full_buffer_witness :
    AudioDevice.Push ⟨(0, 8), (0, 8), 0, 0⟩ (fun _ => some (fun _ => 0)) true
        { DspChunk.ctorDefault with m_dataSize := 2, m_data := some [1, 2] } (some false)
        ⟨⟨⟨1, 1, 48000, 16, KSDATAFORMAT_SUBTYPE.other⟩, 100, 0, false, false, DspFormat.Pcm16⟩,
          10, 0, 0, [], false, []⟩ =
      ⟨none, { DspChunk.ctorDefault with m_dataSize := 2, m_data := some [1, 2] }, some false,
        ⟨⟨⟨1, 1, 48000, 16, KSDATAFORMAT_SUBTYPE.other⟩, 100, 0, false, false, DspFormat.Pcm16⟩,
          10, 0, 0, [], false, [Call.GetBufferSize, Call.GetCurrentPadding]⟩⟩ :=
  (Push_full_buffer ⟨(0, 8), (0, 8), 0, 0⟩ (fun _ => some (fun _ => 0)) true
    { DspChunk.ctorDefault with m_dataSize := 2, m_data := some [1, 2] } (some false)
    ⟨⟨⟨1, 1, 48000, 16, KSDATAFORMAT_SUBTYPE.other⟩, 100, 0, false, false, DspFormat.Pcm16⟩,
      10, 0, 0, [], false, []⟩ rfl rfl rfl rfl).1

/-! ## The feeding thread with nothing pending: C15 -/

theorem toInt64_of_range (x : Int) (h1 : -9223372036854775808 ≤ x)
    (h2 : x < 9223372036854775808) : toInt64 x = x := by
  unfold toInt64
  omega

theorem toInt64_of_abs (x : Int) (h : |x| < 2 ^ 62) : toInt64 x = x := by
  have h1 := abs_lt.mp h
  exact toInt64_of_range _ (by omega) (by omega)

theorem toInt64_sub_of_abs (x y : Int) (hx : |x| < 2 ^ 62) (hy : |y| < 2 ^ 62) :
    toInt64 (x - y) = x - y := by
  have h1 := abs_lt.mp hx
  have h2 := abs_lt.mp hy
  exact toInt64_of_range _ (by omega) (by omega)

theorem toInt64_natCast (n : Nat) (h : n < 2 ^ 63) : toInt64 (n : Int) = n :=
  toInt64_of_range _ (by omega) (by omega)

theorem toUInt32_sub (a b : Nat) (h : b ≤ a) (ha : a < 2 ^ 32) :
    toUInt32 ((a : Int) - b) = a - b := by
  unfold toUInt32
  omega

theorem addSize_of_lt (a b : Nat) (h : a + b < 2 ^ 64) : addSize a b = a + b :=
  Nat.mod_eq_of_lt h

/-- What `PushSilenceToDevice` does when no device call fails. -/
theorem PushSilenceToDevice_ok (reply : DeviceReply) (frames : Nat) (dev : AudioDevice)
    (d : Nat)
    (h1 : FAILED reply.GetBufferSize.1 = false) (h2 : FAILED reply.GetCurrentPadding.1 = false)
    (h3 : FAILED reply.GetBuffer = false) (h4 : FAILED reply.ReleaseBuffer = false)
    (hd : d = min (toUInt32 ((reply.GetBufferSize.2 : Int) - reply.GetCurrentPadding.2))
      frames) :
    dev.PushSilenceToDevice reply frames =
      (Except.ok d,
        { dev with
          calls := dev.calls ++ [Call.GetBufferSize, Call.GetCurrentPadding] ++
            (if d = 0 then [] else [Call.GetBuffer d, Call.ReleaseBuffer d [] true])
          m_pushedFrames :=
            if d = 0 then dev.m_pushedFrames else addSize dev.m_pushedFrames d }) := by
  simp only [AudioDevice.PushSilenceToDevice, h1, h2, h3, h4, ← hd, Bool.false_eq_true,
    if_false]
  by_cases h0 : d = 0
  · simp [h0]
  · simp [h0]

/-- C15. A pass of the feeding thread that finds the FIFO empty holds an empty chunk after
the first locked block.  For such a chunk, with `L` = stream latency + 2 ms and
`R` = `GetEnd()` - `GetPosition()` (100 ns units, no call failing, the values within range):
if `R < L` the thread writes `d = min(bufferFrames - padding, F)` frames flagged as silence,
`F` = floor(sampleRate * (L - R) / 10^7), in at most one `ReleaseBuffer`, and adds `d` to the
silence-frame counter and to the pushed-frame counter; if `R >= L` it only reads the clock,
writes nothing and changes no counter.  Either way it is back at the loop condition. -/
theorem RealtimeFeed_silence (env : FeedEnv) (dev : AudioDevice) (L R : Int) (F d : Nat)
    (hc1 : FAILED env.clock.GetFrequency.1 = false)
    (hc2 : FAILED env.clock.GetPosition.1 = false)
    (h1 : FAILED env.device.GetBufferSize.1 = false)
    (h2 : FAILED env.device.GetCurrentPadding.1 = false)
    (h3 : FAILED env.device.GetBuffer = false) (h4 : FAILED env.device.ReleaseBuffer = false)
    (hfreq : 0 < env.clock.GetFrequency.2 ∧ env.clock.GetFrequency.2 < 2 ^ 63)
    (hpos : env.clock.GetPosition.2 < 2 ^ 63)
    (hL : L = dev.GetStreamLatency + 2 * OneMillisecond)
    (hR : R = dev.GetEnd -
      llMulDiv env.clock.GetPosition.2 OneSecond env.clock.GetFrequency.2 0)
    (hLr : |L| < 2 ^ 62) (hRr : |R| < 2 ^ 62)
    (hF : R < L → (F : Int) = dev.m_backend.waveFormat.nSamplesPerSec * (L - R) / 10000000)
    (hfit : F < 2 ^ 32)
    (hpad : env.device.GetCurrentPadding.2 ≤ env.device.GetBufferSize.2)
    (hbuf : env.device.GetBufferSize.2 < 2 ^ 32)
    (hd : d = min (env.device.GetBufferSize.2 - env.device.GetCurrentPadding.2) F)
    (hsil : dev.m_silenceFrames + d < 2 ^ 64) (hpush : dev.m_pushedFrames + d < 2 ^ 64) :
    (dev.m_exit = false → dev.m_buffer = [] →
      AudioDevice.RealtimeFeed.step env FeedPc.top dev =
        Except.ok (FeedPc.popped DspChunk.ctorDefault, dev) ∧
      DspChunk.ctorDefault.IsEmpty = true) ∧
    ∀ chunk : DspChunk, chunk.IsEmpty = true →
      AudioDevice.RealtimeFeed.step env (FeedPc.popped chunk) dev =
        Except.ok (FeedPc.top,
          if R < L then
            { dev with
              calls := dev.calls ++ [Call.GetFrequency, Call.GetPosition, Call.GetBufferSize,
                  Call.GetCurrentPadding] ++
                (if d = 0 then [] else [Call.GetBuffer d, Call.ReleaseBuffer d [] true])
              m_silenceFrames := dev.m_silenceFrames + d
              m_pushedFrames := dev.m_pushedFrames + d }
          else { dev with calls := dev.calls ++ [Call.GetFrequency, Call.GetPosition] }) := by
  constructor
  · intro hexit hempty
    refine ⟨?_, rfl⟩
    simp only [AudioDevice.RealtimeFeed.step, hexit, Bool.false_eq_true, if_false,
      AudioDevice.RealtimeFeed.pop, hempty]
  · intro chunk hchunk
    have hlat : toInt64 (dev.GetStreamLatency + toInt64 (OneMillisecond * 2)) = L := by
      have e1 : toInt64 (OneMillisecond * 2) = 2 * OneMillisecond := by
        unfold OneMillisecond toInt64; norm_num
      rw [e1, ← hL]
      exact toInt64_of_abs _ hLr
    have hgp : dev.GetPosition env.clock =
        (Except.ok (llMulDiv env.clock.GetPosition.2 OneSecond env.clock.GetFrequency.2 0),
          { dev with calls := dev.calls ++ [Call.GetFrequency, Call.GetPosition] }) := by
      have e1 : toInt64 (env.clock.GetPosition.2 : Int) = env.clock.GetPosition.2 :=
        toInt64_natCast _ hpos
      have e2 : toInt64 (env.clock.GetFrequency.2 : Int) = env.clock.GetFrequency.2 :=
        toInt64_natCast _ hfreq.2
      simp only [AudioDevice.GetPosition, hc1, hc2, e1, e2, Bool.false_eq_true, if_false,
        List.append_assoc, List.singleton_append]
    have hrem : toInt64 (AudioDevice.GetEnd
        { dev with calls := dev.calls ++ [Call.GetFrequency, Call.GetPosition] } -
        llMulDiv env.clock.GetPosition.2 OneSecond env.clock.GetFrequency.2 0) = R := by
      have e1 : AudioDevice.GetEnd
          { dev with calls := dev.calls ++ [Call.GetFrequency, Call.GetPosition] } =
          dev.GetEnd := rfl
      rw [e1, ← hR]
      exact toInt64_of_abs _ hRr
    simp only [AudioDevice.RealtimeFeed.step, hchunk, if_true, AudioDevice.RealtimeFeed.silence,
      hlat, hgp, hrem]
    by_cases hlt : R < L
    · have hsub : toUInt32 ((env.device.GetBufferSize.2 : Int) - env.device.GetCurrentPadding.2) =
          env.device.GetBufferSize.2 - env.device.GetCurrentPadding.2 :=
        toUInt32_sub _ _ hpad hbuf
      have hdiff : toInt64 (L - R) = L - R := toInt64_sub_of_abs _ _ hLr hRr
      have hnum : (0 : Int) ≤ dev.m_backend.waveFormat.nSamplesPerSec * (L - R) :=
        Int.mul_nonneg (Int.natCast_nonneg _) (sub_nonneg.mpr (le_of_lt hlt))
      have hframes : toUInt32 (llMulDiv dev.m_backend.waveFormat.nSamplesPerSec
          (toInt64 (L - R)) OneSecond 0) = F := by
        rw [hdiff]
        unfold llMulDiv OneSecond
        rw [add_zero, Int.tdiv_eq_ediv hnum (by norm_num), ← hF hlt]
        exact toUInt32_natCast _ hfit
      have hps := PushSilenceToDevice_ok env.device F
        { dev with calls := dev.calls ++ [Call.GetFrequency, Call.GetPosition] } d h1 h2 h3 h4
        (by rw [hsub]; exact hd)
      simp only [if_pos hlt, hframes, hps]
      have hp2 : (if d = 0 then dev.m_pushedFrames else addSize dev.m_pushedFrames d) =
          dev.m_pushedFrames + d := by
        by_cases h0 : d = 0
        · simp [h0]
        · rw [if_neg h0]
          exact addSize_of_lt _ _ hpush
      have hs2 : addSize dev.m_silenceFrames d = dev.m_silenceFrames + d :=
        addSize_of_lt _ _ hsil
      simp only [hp2, hs2, AudioDevice.RealtimeFeed.handle, List.append_assoc,
        List.cons_append, List.nil_append]
    · simp only [if_neg hlt]


/-- Witness for `RealtimeFeed_silence`: at 48 kHz with 24000 frames pushed and the device
clock at half a second nothing remains to be played; the latency of 10 ms plus 2 ms asks for
576 frames of silence, of which the buffer has room for 100. -/
theorem RealtimeFeed_silence_witness :
    AudioDevice.RealtimeFeed.step
        ⟨⟨(0, 1000), (0, 900), 0, 0⟩, ⟨(0, 1000), (0, 500)⟩, fun _ => none, true⟩
        (FeedPc.popped DspChunk.ctorDefault)
        ⟨⟨⟨1, 2, 48000, 16, KSDATAFORMAT_SUBTYPE.other⟩, 100, 100000, true, false,
          DspFormat.Pcm16⟩, 24000, 7, 0, [], false, []⟩ =
      Except.ok (FeedPc.top,
        ⟨⟨⟨1, 2, 48000, 16, KSDATAFORMAT_SUBTYPE.other⟩, 100, 100000, true, false,
          DspFormat.Pcm16⟩, 24100, 107, 0, [], false,
          [Call.GetFrequency, Call.GetPosition, Call.GetBufferSize, Call.GetCurrentPadding,
            Call.GetBuffer 100, Call.ReleaseBuffer 100 [] true]⟩) :=
  (RealtimeFeed_silence
    ⟨⟨(0, 1000), (0, 900), 0, 0⟩, ⟨(0, 1000), (0, 500)⟩, fun _ => none, true⟩
    ⟨⟨⟨1, 2, 48000, 16, KSDATAFORMAT_SUBTYPE.other⟩, 100, 100000, true, false,
      DspFormat.Pcm16⟩, 24000, 7, 0, [], false, []⟩
    120000 0 576 100 rfl rfl rfl rfl rfl rfl (by decide) (by decide) (by decide) (by decide)
    (by norm_num) (by norm_num) (fun _ => by decide) (by decide) (by decide) (by decide)
    (by decide) (by decide) (by decide)).2 DspChunk.ctorDefault rfl

/-! ## The FIFO of a real-time-feed device: C11 and C12 -/

theorem bytes_of_empty (c : DspChunk) (h : c.IsEmpty = true) : c.bytes = [] := by
  have h0 : c.m_dataSize = 0 := by simpa [DspChunk.IsEmpty] using h
  simp [DspChunk.bytes, h0]

theorem ctorMove_fst (c : DspChunk) : (DspChunk.ctorMove c).1 = c := rfl

theorem assignMove_fst (c0 c : DspChunk) : (DspChunk.assignMove c0 c).1 = c := rfl

/-- What `PushToBuffer` can do to the device feeder: nothing that matters here, or the chunk,
which is not empty, is appended to the FIFO. -/
theorem PushToBuffer_cases (dequeAlloc : Bool) (chunk : DspChunk) (dev : AudioDevice) :
    ((dev.PushToBuffer dequeAlloc chunk).2.2.m_buffer = dev.m_buffer ∨
      (chunk.IsEmpty = false ∧
        (dev.PushToBuffer dequeAlloc chunk).2.2.m_buffer = dev.m_buffer ++ [chunk])) ∧
    (dev.PushToBuffer dequeAlloc chunk).2.2.calls = dev.calls ∧
    (dev.PushToBuffer dequeAlloc chunk).2.2.m_backend = dev.m_backend := by
  unfold AudioDevice.PushToBuffer
  by_cases h1 : dev.m_exit = true
  · simp [h1]
  · by_cases h2 : chunk.IsEmpty = true
    · simp [h1, h2]
    · by_cases h3 : dev.m_bufferFrameCount > dev.m_backend.waveFormat.nSamplesPerSec / 3
      · simp [h1, h2, h3]
      · cases dequeAlloc
        · simp [h1, h2, h3]
        · simp only [h1, h2, h3, if_false, if_true, ctorMove_fst]
          exact ⟨Or.inr ⟨trivial, rfl⟩, rfl, rfl⟩


/-- A push keeps the ordering invariant. -/
theorem Inv_push (backend : AudioDeviceBackend) (s : FeedSystem) (chunk : DspChunk)
    (dequeAlloc : Bool) (hinv : s.Inv backend)
    (hsound : chunk.IsEmpty = true ∨ chunk.Feedable backend) :
    ∃ s1, FeedSystem.step (FeedEvent.push chunk dequeAlloc) s = Except.ok s1 ∧
      s1.Inv backend := by
  obtain ⟨hb, hbuf, hpc, hbytes⟩ := hinv
  obtain ⟨hcase, hcalls, hback⟩ := PushToBuffer_cases dequeAlloc chunk s.device
  refine ⟨_, rfl, ?_⟩
  simp only [FeedSystem.Inv, FeedSystem.written, FeedSystem.inflight, FeedSystem.pending]
    at hbytes ⊢
  refine ⟨by rw [hback]; exact hb, ?_, hpc, ?_⟩
  · rcases hcase with h | ⟨hne, h⟩
    · rw [h]; exact hbuf
    · rw [h]
      intro c hc
      rcases List.mem_append.mp hc with h1 | h1
      · exact hbuf c h1
      · rw [List.mem_singleton.mp h1]
        rcases hsound with h2 | h2
        · rw [hne] at h2; cases h2
        · exact h2
  · rw [hcalls]
    rcases hcase with h | ⟨_, h⟩
    · rw [h]
      simpa using hbytes
    · rw [h]
      simp only [List.drop_left, List.flatMap_append, List.flatMap_cons, List.flatMap_nil,
        List.append_nil]
      rw [← hbytes]
      simp only [List.append_assoc]


/-- The silence branch, when nothing fails: it returns normally, and what it adds to the
recorded calls holds no audio data; the FIFO is not touched. -/
theorem silence_ok (env : FeedEnv) (dev : AudioDevice) (hsound : env.Sound) :
    ∃ dev1 extra, AudioDevice.RealtimeFeed.silence env dev = (Except.ok (), dev1) ∧
      dev1.calls = dev.calls ++ extra ∧ extra.flatMap Call.written = [] ∧
      dev1.m_buffer = dev.m_buffer ∧ dev1.m_backend = dev.m_backend := by
  obtain ⟨hc1, hc2, h1, h2, h3, h4, _, _⟩ := hsound
  have hgp : dev.GetPosition env.clock =
      (Except.ok (llMulDiv (toInt64 env.clock.GetPosition.2) OneSecond
          (toInt64 env.clock.GetFrequency.2) 0),
        { dev with calls := dev.calls ++ [Call.GetFrequency, Call.GetPosition] }) := by
    simp only [AudioDevice.GetPosition, hc1, hc2, Bool.false_eq_true, if_false,
      List.append_assoc, List.singleton_append]
  simp only [AudioDevice.RealtimeFeed.silence, hgp]
  split
  · generalize toUInt32 (llMulDiv _ _ _ _) = frames
    obtain ⟨d, hd⟩ : ∃ d, d = min (toUInt32 ((env.device.GetBufferSize.2 : Int) -
      env.device.GetCurrentPadding.2)) frames := ⟨_, rfl⟩
    rw [PushSilenceToDevice_ok env.device frames _ d h1 h2 h3 h4 hd]
    simp only
    refine ⟨_, [Call.GetFrequency, Call.GetPosition, Call.GetBufferSize,
      Call.GetCurrentPadding] ++
        (if d = 0 then [] else [Call.GetBuffer d, Call.ReleaseBuffer d [] true]),
      rfl, ?_, ?_, rfl, rfl⟩
    · simp only [List.append_assoc, List.cons_append, List.nil_append]
    · split <;> rfl
  · exact ⟨_, [Call.GetFrequency, Call.GetPosition], rfl, rfl, rfl, rfl, rfl⟩

/-- A step of the feeding thread that meets no failure keeps the ordering invariant. -/
theorem Inv_feed (backend : AudioDeviceBackend) (s : FeedSystem) (env : FeedEnv)
    (hinv : s.Inv backend) (hsound : env.Sound) :
    ∃ s1, FeedSystem.step (FeedEvent.feed env) s = Except.ok s1 ∧ s1.Inv backend := by
  obtain ⟨device, pc, accepted⟩ := s
  obtain ⟨hb, hbuf, hpc, hbytes⟩ := hinv
  simp only [FeedSystem.written, FeedSystem.inflight, FeedSystem.pending] at hb hbuf hpc hbytes
  simp only [FeedSystem.step]
  cases pc with
  | exited =>
    exact ⟨_, rfl, hb, hbuf, hpc, hbytes⟩
  | top =>
    simp only [AudioDevice.RealtimeFeed.step]
    by_cases hexit : device.m_exit = true
    · simp only [hexit, if_true]
      exact ⟨_, rfl, hb, hbuf, trivial, hbytes⟩
    · simp only [hexit, if_false]
      refine ⟨_, rfl, ?_⟩
      cases hm : device.m_buffer with
      | nil =>
        simp only [AudioDevice.RealtimeFeed.pop, hm]
        refine ⟨hb, hbuf, Or.inl rfl, ?_⟩
        simp only [FeedSystem.written, FeedSystem.inflight, FeedSystem.pending, hm] at hbytes ⊢
        rw [← hbytes]
        simp [bytes_of_empty DspChunk.ctorDefault rfl]
      | cons front rest =>
        simp only [AudioDevice.RealtimeFeed.pop, hm, assignMove_fst]
        rw [hm] at hbuf hbytes
        refine ⟨hb, fun c hc => hbuf c (List.mem_cons_of_mem _ hc),
          Or.inr (hbuf front (List.mem_cons_self _ _)), ?_⟩
        simp only [FeedSystem.written, FeedSystem.inflight, FeedSystem.pending] at hbytes ⊢
        rw [← hbytes]
        simp only [List.flatMap_cons, List.append_assoc, List.nil_append]
  | popped chunk =>
    simp only [AudioDevice.RealtimeFeed.step]
    by_cases hempty : chunk.IsEmpty = true
    · obtain ⟨dev1, extra, k1, k2, k3, k4, k5⟩ := silence_ok env device hsound
      simp only [hempty, if_true, k1]
      refine ⟨_, rfl, by rw [k5]; exact hb, by rw [k4]; exact hbuf, trivial, ?_⟩
      simp only [FeedSystem.written, FeedSystem.inflight, FeedSystem.pending] at hbytes ⊢
      rw [bytes_of_empty chunk hempty] at hbytes
      rw [← hbytes, k2, k4, List.flatMap_append, k3]
      simp only [List.append_nil]
    · have hfeed : chunk.Feedable device.m_backend := by
        rcases hpc with h | h
        · exact absurd h hempty
        · rw [hb]; exact h
      obtain ⟨hc1, hc2, h1, h2, h3, h4, halloc, _⟩ := hsound
      obtain ⟨c2, k1, k2, k3, _⟩ := PushToDevice_feedable env.device env.alloc chunk none
        device _ hfeed h1 h2 h3 h4 halloc rfl
      simp only [hempty, if_false, k1]
      refine ⟨_, rfl, hb, hbuf, Or.inr (by rw [← hb]; exact k2), ?_⟩
      simp only [FeedSystem.written, FeedSystem.inflight, FeedSystem.pending] at hbytes ⊢
      rw [← hbytes, k3, List.flatMap_append, List.flatMap_append]
      split
      · rename_i h0
        simp [h0, Call.written]
      · simp [Call.written]
  | written chunk =>
    simp only [AudioDevice.RealtimeFeed.step, AudioDevice.RealtimeFeed.reinsert]
    by_cases hempty : chunk.IsEmpty = true
    · simp only [hempty, if_true]
      refine ⟨_, rfl, hb, hbuf, trivial, ?_⟩
      simp only [FeedSystem.written, FeedSystem.inflight, FeedSystem.pending] at hbytes ⊢
      rw [bytes_of_empty chunk hempty] at hbytes
      exact hbytes
    · have hfeed : chunk.Feedable backend := by
        rcases hpc with h | h
        · exact absurd h hempty
        · exact h
      simp only [hempty, if_false, hsound.2.2.2.2.2.2.2, if_true, ctorMove_fst]
      refine ⟨_, rfl, hb, ?_, trivial, ?_⟩
      · intro c hc
        rcases List.mem_cons.mp hc with h | h
        · rw [h]; exact hfeed
        · exact hbuf c h
      · simp only [FeedSystem.written, FeedSystem.inflight, FeedSystem.pending] at hbytes ⊢
        rw [← hbytes]
        simp only [List.flatMap_cons, List.append_assoc, List.nil_append, List.append_nil]


/-- A run without failures keeps the ordering invariant, and does not fail. -/
theorem Inv_run (backend : AudioDeviceBackend) (events : List FeedEvent) (s : FeedSystem)
    (hinv : s.Inv backend) (hsound : ∀ e ∈ events, e.Sound backend) :
    ∃ s1, FeedSystem.run events s = Except.ok s1 ∧ s1.Inv backend := by
  induction events generalizing s with
  | nil => exact ⟨s, rfl, hinv⟩
  | cons e es ih =>
    have he : e.Sound backend := hsound e (List.mem_cons_self _ _)
    have hstep : ∃ s1, FeedSystem.step e s = Except.ok s1 ∧ s1.Inv backend := by
      cases e with
      | push chunk dequeAlloc => exact Inv_push backend s chunk dequeAlloc hinv he
      | feed env => exact Inv_feed backend s env hinv he
    obtain ⟨s1, h1, h2⟩ := hstep
    obtain ⟨s2, h3, h4⟩ := ih s1 h2 (fun e1 h => hsound e1 (List.mem_cons_of_mem _ h))
    refine ⟨s2, ?_, h4⟩
    simp only [FeedSystem.run, h1, h3]

/-- C11. For a real-time-feed device, from its construction on, and every interleaving of
`PushToBuffer` calls with the steps of the feeding thread (its two locked blocks and the
device write between them taken one at a time), with chunks of whole frames in the device
format, no device call failing and no allocation failing: the run does not fail, and at
every point the audio bytes written to the device, followed by what the thread holds of a
chunk it has popped, followed by the contents of the FIFO, are the bytes of the accepted
chunks in the order of acceptance.  Between two passes of the thread it holds nothing, and
the bytes written followed by the FIFO are the accepted bytes; at every point the bytes
written are a prefix of the accepted bytes, so chunks reach the device in the order they were
enqueued, also when a chunk goes in several writes with its remainder put back at the
front. -/
theorem RealtimeFeed_fifo_order (backend : AudioDeviceBackend) (events : List FeedEvent)
    (hsound : ∀ e ∈ events, e.Sound backend) :
    ∃ s, FeedSystem.run events (FeedSystem.init backend) = Except.ok s ∧
      s.written ++ s.inflight ++ s.pending = s.accepted ∧
      (s.pc = FeedPc.top ∨ s.pc = FeedPc.exited → s.written ++ s.pending = s.accepted) ∧
      s.written <+: s.accepted := by
  have hinit : (FeedSystem.init backend).Inv backend :=
    ⟨rfl, fun c hc => (by cases hc), trivial, rfl⟩
  obtain ⟨s, h1, _, _, _, h2⟩ := Inv_run backend events _ hinit hsound
  refine ⟨s, h1, h2, ?_, ?_⟩
  · intro hpc
    have h0 : s.inflight = [] := by
      rcases hpc with h | h <;> simp [FeedSystem.inflight, h]
    rw [h0, List.append_nil] at h2
    exact h2
  · rw [← h2, List.append_assoc]
    exact ⟨_, rfl⟩


theorem Example_chunk_feedable (rate : Nat) (data : List Byte) (h2 : 2 ∣ data.length)
    (hlt : data.length < 2 ^ 32) : (Example.chunk data).Feedable (Example.backend rate) :=
  ⟨by simp [Example.chunk, Example.backend, DspChunk.ctorDefault, DspChunk.GetFrameSize,
      DspChunk.GetFormatSize, DspChunk.GetChannelCount, DspFormatSize],
    h2, hlt, fun h => (by simp [Example.chunk, DspChunk.ctorDefault] at h), Nat.le_refl _⟩

theorem Example_env_sound (bufferFrames padding : Nat) :
    (Example.env bufferFrames padding).Sound :=
  ⟨rfl, rfl, rfl, rfl, rfl, rfl, fun _ => rfl, rfl⟩

/-- Witness for `RealtimeFeed_fifo_order`: three chunks are enqueued, the third while the
thread holds the first; the first goes to the device in two writes of one frame, its
remainder being put back at the front in between. -/
theorem RealtimeFeed_fifo_order_witness :
    (∃ s, FeedSystem.run
        [FeedEvent.push (Example.chunk [1, 2, 3, 4]) true,
          FeedEvent.push (Example.chunk [5, 6]) true,
          FeedEvent.feed (Example.env 8 7),
          FeedEvent.push (Example.chunk [7, 8]) true,
          FeedEvent.feed (Example.env 8 7),
          FeedEvent.feed (Example.env 8 7),
          FeedEvent.feed (Example.env 8 7),
          FeedEvent.feed (Example.env 8 7)]
        (FeedSystem.init (Example.backend 48000)) = Except.ok s ∧
      s.written ++ s.inflight ++ s.pending = s.accepted ∧
      s.written <+: s.accepted) ∧
    (match FeedSystem.run
        [FeedEvent.push (Example.chunk [1, 2, 3, 4]) true,
          FeedEvent.push (Example.chunk [5, 6]) true,
          FeedEvent.feed (Example.env 8 7),
          FeedEvent.push (Example.chunk [7, 8]) true,
          FeedEvent.feed (Example.env 8 7),
          FeedEvent.feed (Example.env 8 7),
          FeedEvent.feed (Example.env 8 7),
          FeedEvent.feed (Example.env 8 7)]
        (FeedSystem.init (Example.backend 48000)) with
      | Except.ok s => (s.written, s.inflight, s.pending, s.accepted)
      | Except.error _ => ([], [], [], [])) =
      ([1, 2, 3, 4], [], [5, 6, 7, 8], [1, 2, 3, 4, 5, 6, 7, 8]) := by
  constructor
  · obtain ⟨s, h1, h2, _, h3⟩ := RealtimeFeed_fifo_order (Example.backend 48000)
      [FeedEvent.push (Example.chunk [1, 2, 3, 4]) true,
        FeedEvent.push (Example.chunk [5, 6]) true,
        FeedEvent.feed (Example.env 8 7),
        FeedEvent.push (Example.chunk [7, 8]) true,
        FeedEvent.feed (Example.env 8 7),
        FeedEvent.feed (Example.env 8 7),
        FeedEvent.feed (Example.env 8 7),
        FeedEvent.feed (Example.env 8 7)]
      (by
        intro e he
        simp only [List.mem_cons, List.mem_singleton, List.not_mem_nil, or_false] at he
        rcases he with rfl | rfl | rfl | rfl | rfl | rfl | rfl | rfl
        · exact Or.inr (Example_chunk_feedable _ _ (by decide) (by decide))
        · exact Or.inr (Example_chunk_feedable _ _ (by decide) (by decide))
        · exact Example_env_sound _ _
        · exact Or.inr (Example_chunk_feedable _ _ (by decide) (by decide))
        · exact Example_env_sound _ _
        · exact Example_env_sound _ _
        · exact Example_env_sound _ _
        · exact Example_env_sound _ _)
    exact ⟨s, h1, h2, h3⟩
  · rfl

/-- C12 (the claim as stated fails). At a sample rate of 3 (bound 1): a chunk of four frames
is accepted and popped by the thread; while the thread holds it a second chunk of four frames
is accepted; the thread writes one frame and puts the other three back at the front; a third
push is then dropped.  After that push the buffered-frame count is 7, more than the bound
plus the four frames of the last accepted chunk. -/
theorem PushToBuffer_count_exceeds_bound :
    ∃ s, FeedSystem.run
        [FeedEvent.push (Example.chunk [1, 2, 3, 4, 5, 6, 7, 8]) true,
          FeedEvent.feed (Example.env 8 7),
          FeedEvent.push (Example.chunk [9, 10, 11, 12, 13, 14, 15, 16]) true,
          FeedEvent.feed (Example.env 8 7),
          FeedEvent.feed (Example.env 8 7),
          FeedEvent.push (Example.chunk [17, 18]) true]
        (FeedSystem.init (Example.backend 3)) = Except.ok s ∧
      s.device.m_bufferFrameCount = 7 ∧
      s.device.m_buffer.map DspChunk.GetFrameCount = [3, 4] ∧
      s.device.m_backend.waveFormat.nSamplesPerSec / 3 + 4 < s.device.m_bufferFrameCount :=
  ⟨_, rfl, rfl, rfl, by decide⟩

/-- C12 (amended). `PushToBuffer` of a non-empty chunk into a real-time-feed device whose exit
flag is clear: if the buffered-frame count exceeds (sample rate / 3) the push is dropped,
returning normally with the chunk, the FIFO and the count as they were; otherwise, the FIFO
taking the node, the chunk is moved to the back of the FIFO, the caller's chunk is left
empty, and the count has grown by the frame count of the chunk, so right after an accepted
push it is at most rate / 3 plus the frame count of that chunk. -/
theorem PushToBuffer_backpressure (dequeAlloc : Bool) (chunk : DspChunk) (dev : AudioDevice)
    (hexit : dev.m_exit = false) (hne : chunk.IsEmpty = false)
    (hrate : dev.m_backend.waveFormat.nSamplesPerSec < 2 ^ 32)
    (hframes : chunk.GetFrameCount < 2 ^ 63) :
    (dev.m_backend.waveFormat.nSamplesPerSec / 3 < dev.m_bufferFrameCount →
      dev.PushToBuffer dequeAlloc chunk = (none, chunk, dev)) ∧
    (dev.m_bufferFrameCount ≤ dev.m_backend.waveFormat.nSamplesPerSec / 3 →
      dev.PushToBuffer true chunk =
        (none, (DspChunk.ctorMove chunk).2,
          { dev with
            m_buffer := dev.m_buffer ++ [chunk]
            m_bufferFrameCount := dev.m_bufferFrameCount + chunk.GetFrameCount }) ∧
      (DspChunk.ctorMove chunk).2.IsEmpty = true ∧
      dev.m_bufferFrameCount + chunk.GetFrameCount ≤
        dev.m_backend.waveFormat.nSamplesPerSec / 3 + chunk.GetFrameCount) := by
  constructor
  · intro h
    simp only [AudioDevice.PushToBuffer, hexit, hne, Bool.false_eq_true, if_false]
    rw [if_pos h]
  · intro h
    have hadd : addSize dev.m_bufferFrameCount chunk.GetFrameCount =
        dev.m_bufferFrameCount + chunk.GetFrameCount := by
      have h3 : dev.m_backend.waveFormat.nSamplesPerSec / 3 < 2 ^ 32 :=
        lt_of_le_of_lt (Nat.div_le_self _ _) hrate
      exact addSize_of_lt _ _ (by omega)
    refine ⟨?_, rfl, Nat.add_le_add_right h _⟩
    simp only [AudioDevice.PushToBuffer, hexit, hne, Bool.false_eq_true, if_false]
    rw [if_neg (by omega), hadd]
    rfl

/-- Witness for `PushToBuffer_backpressure`: at 48 kHz a chunk of two frames is accepted into
an empty FIFO. -/
theorem PushToBuffer_backpressure_witness :
    AudioDevice.PushToBuffer true (Example.chunk [1, 2, 3, 4])
        (FeedSystem.init (Example.backend 48000)).device =
      (none, (DspChunk.ctorMove (Example.chunk [1, 2, 3, 4])).2,
        { (FeedSystem.init (Example.backend 48000)).device with
          m_buffer := [Example.chunk [1, 2, 3, 4]]
          m_bufferFrameCount := 2 }) :=
  ((PushToBuffer_backpressure true (Example.chunk [1, 2, 3, 4])
    (FeedSystem.init (Example.backend 48000)).device rfl rfl (by decide) (by decide)).2
    (by decide)).1

/-! ## AudioDevice::Push on a real-time-feed device: C22 -/

/-- C22. `AudioDevice::Push` on a real-time-feed device whose exit flag is clear.  A non-empty
chunk that is accepted (the buffered-frame count does not exceed sample rate / 3, and the
FIFO gets its node) is moved to the back of the FIFO: the caller's chunk is empty on return,
without data, and the "filled" event is left as it was.  A non-empty chunk that is dropped by
the backpressure bound is left with the caller, and a "filled" event that was supplied is
set.  An empty chunk changes nothing and sets nothing.  Whenever `Push` returns normally,
the event is set by it exactly when one was supplied and the chunk is not empty after the
attempt, and the chunk is not empty after the attempt exactly when it was not empty and the
count exceeded the bound. -/
theorem Push_realtime (reply : DeviceReply) (alloc : Allocator) (dequeAlloc : Bool)
    (chunk : DspChunk) (filled : Option Bool) (dev : AudioDevice)
    (hrt : dev.IsRealtime = true) (hexit : dev.m_exit = false) :
    (chunk.IsEmpty = false →
      dev.m_bufferFrameCount ≤ dev.m_backend.waveFormat.nSamplesPerSec / 3 →
      dev.Push reply alloc true chunk filled =
        ⟨none, { chunk with m_mediaSample := false, m_dataSize := 0, m_data := none }, filled,
          { dev with
            m_buffer := dev.m_buffer ++ [chunk]
            m_bufferFrameCount := addSize dev.m_bufferFrameCount chunk.GetFrameCount }⟩ ∧
      DspChunk.IsEmpty
        { chunk with m_mediaSample := false, m_dataSize := 0, m_data := none } = true) ∧
    (chunk.IsEmpty = false →
      dev.m_backend.waveFormat.nSamplesPerSec / 3 < dev.m_bufferFrameCount →
      dev.Push reply alloc dequeAlloc chunk filled =
        ⟨none, chunk, if filled.isSome = true then some true else filled, dev⟩) ∧
    (chunk.IsEmpty = true →
      dev.Push reply alloc dequeAlloc chunk filled = ⟨none, chunk, filled, dev⟩) ∧
    ((dev.Push reply alloc dequeAlloc chunk filled).thrown = none →
      (dev.Push reply alloc dequeAlloc chunk filled).pFilledEvent =
        (if filled.isSome = true ∧
            (dev.Push reply alloc dequeAlloc chunk filled).chunk.IsEmpty = false
          then some true else filled) ∧
      ((dev.Push reply alloc dequeAlloc chunk filled).chunk.IsEmpty = false ↔
        chunk.IsEmpty = false ∧
          dev.m_backend.waveFormat.nSamplesPerSec / 3 < dev.m_bufferFrameCount)) := by
  have hacc : chunk.IsEmpty = false →
      dev.m_bufferFrameCount ≤ dev.m_backend.waveFormat.nSamplesPerSec / 3 →
      dev.Push reply alloc true chunk filled =
        ⟨none, { chunk with m_mediaSample := false, m_dataSize := 0, m_data := none }, filled,
          { dev with
            m_buffer := dev.m_buffer ++ [chunk]
            m_bufferFrameCount := addSize dev.m_bufferFrameCount chunk.GetFrameCount }⟩ := by
    intro hne hle
    have hmoved : DspChunk.IsEmpty (DspChunk.ctorMove chunk).2 = true := rfl
    simp only [AudioDevice.Push, hrt, if_true, AudioDevice.PushToBuffer, hexit, hne,
      Bool.false_eq_true, if_false, if_neg (Nat.not_lt.mpr hle), hmoved, and_false,
      Bool.true_eq_false, ctorMove_fst]
    rfl
  have hfail : chunk.IsEmpty = false →
      dev.m_bufferFrameCount ≤ dev.m_backend.waveFormat.nSamplesPerSec / 3 →
      (dev.Push reply alloc false chunk filled).thrown = some (Thrown.hresult E_OUTOFMEMORY) := by
    intro hne hle
    simp only [AudioDevice.Push, hrt, if_true, AudioDevice.PushToBuffer, hexit, hne,
      Bool.false_eq_true, if_false, if_neg (Nat.not_lt.mpr hle)]
  have hdrop : chunk.IsEmpty = false →
      dev.m_backend.waveFormat.nSamplesPerSec / 3 < dev.m_bufferFrameCount →
      dev.Push reply alloc dequeAlloc chunk filled =
        ⟨none, chunk, if filled.isSome = true then some true else filled, dev⟩ := by
    intro hne hlt
    simp only [AudioDevice.Push, hrt, if_true, AudioDevice.PushToBuffer, hexit, hne,
      Bool.false_eq_true, if_false, if_pos hlt, and_true]
  have hempty : chunk.IsEmpty = true →
      dev.Push reply alloc dequeAlloc chunk filled = ⟨none, chunk, filled, dev⟩ := by
    intro he
    simp only [AudioDevice.Push, hrt, if_true, AudioDevice.PushToBuffer, hexit, he,
      Bool.false_eq_true, if_false, and_false, Bool.true_eq_false]
  refine ⟨fun hne hle => ⟨hacc hne hle, rfl⟩, hdrop, hempty, ?_⟩
  by_cases he : chunk.IsEmpty = true
  · intro _
    rw [hempty he]
    simp [he]
  · have hne : chunk.IsEmpty = false := Bool.eq_false_iff.mpr he
    by_cases hlt : dev.m_backend.waveFormat.nSamplesPerSec / 3 < dev.m_bufferFrameCount
    · intro _
      rw [hdrop hne hlt]
      simp [hne, hlt]
    · cases dequeAlloc
      · intro h
        rw [hfail hne (Nat.not_lt.mp hlt)] at h
        cases h
      · intro _
        rw [hacc hne (Nat.not_lt.mp hlt)]
        simp [hlt, DspChunk.IsEmpty]

/-- Witness for `Push_realtime`: at 48 kHz a chunk of two frames is accepted into the empty
FIFO and the event stays unset; at a sample rate of 3 with four frames buffered the same
chunk is dropped and the event is set. -/
theorem Push_realtime_witness :
    AudioDevice.Push ⟨(0, 8), (0, 0), 0, 0⟩ (fun _ => none) true (Example.chunk [1, 2, 3, 4])
        (some false) (FeedSystem.init (Example.backend 48000)).device =
      ⟨none,
        { Example.chunk [1, 2, 3, 4] with m_mediaSample := false, m_dataSize := 0, m_data := none },
        some false,
        { (FeedSystem.init (Example.backend 48000)).device with
          m_buffer := [Example.chunk [1, 2, 3, 4]]
          m_bufferFrameCount := 2 }⟩ ∧
    AudioDevice.Push ⟨(0, 8), (0, 0), 0, 0⟩ (fun _ => none) true (Example.chunk [1, 2, 3, 4])
        (some false)
        { (FeedSystem.init (Example.backend 3)).device with
          m_buffer := [Example.chunk [5, 6, 7, 8, 9, 10, 11, 12]]
          m_bufferFrameCount := 4 } =
      ⟨none, Example.chunk [1, 2, 3, 4], some true,
        { (FeedSystem.init (Example.backend 3)).device with
          m_buffer := [Example.chunk [5, 6, 7, 8, 9, 10, 11, 12]]
          m_bufferFrameCount := 4 }⟩ :=
  ⟨((Push_realtime ⟨(0, 8), (0, 0), 0, 0⟩ (fun _ => none) true (Example.chunk [1, 2, 3, 4])
      (some false) (FeedSystem.init (Example.backend 48000)).device rfl rfl).1 rfl
      (by decide)).1,
   (Push_realtime ⟨(0, 8), (0, 0), 0, 0⟩ (fun _ => none) true (Example.chunk [1, 2, 3, 4])
      (some false)
      { (FeedSystem.init (Example.backend 3)).device with
        m_buffer := [Example.chunk [5, 6, 7, 8, 9, 10, 11, 12]]
        m_bufferFrameCount := 4 } rfl rfl).2.1 rfl (by decide)⟩

/-! ## The buffer lock: C21 -/

theorem GetData_frames (alloc : Allocator) (c c1 : DspChunk) (data : Option (List Byte))
    (h : c.GetData alloc = Except.ok (c1, data)) : c1.GetFrameCount = c.GetFrameCount := by
  unfold DspChunk.GetData at h
  cases hidc : c.InvokeDelayedCopy alloc with
  | error e => simp [hidc] at h
  | ok c2 =>
    simp only [hidc, Except.ok.injEq, Prod.mk.injEq] at h
    obtain ⟨k1, k2, _, k4⟩ := InvokeDelayedCopy_fields alloc c c2 hidc
    rw [← h.1]
    simp only [DspChunk.GetFrameCount, DspChunk.GetFrameSize, DspChunk.GetFormatSize,
      DspChunk.GetChannelCount, k1, k2, k4]

theorem ShrinkHead_frames (alloc : Allocator) (toFrames : Nat) (c c2 : DspChunk)
    (h : c.ShrinkHead alloc toFrames = Except.ok c2) : c2.GetFrameCount ≤ c.GetFrameCount := by
  unfold DspChunk.ShrinkHead at h
  by_cases hlt : toFrames < c.GetFrameCount
  · rw [if_pos hlt] at h
    cases hidc : c.InvokeDelayedCopy alloc with
    | error e => simp [hidc] at h
    | ok c1 =>
      simp only [hidc, Except.ok.injEq] at h
      obtain ⟨k1, k2, _, k4⟩ := InvokeDelayedCopy_fields alloc c c1 hidc
      rw [← h]
      simp only [DspChunk.GetFrameCount, DspChunk.GetFrameSize, DspChunk.GetFormatSize,
        DspChunk.GetChannelCount, k1, k2, k4]
      exact Nat.div_le_div_right (Nat.sub_le _ _)
  · rw [if_neg hlt] at h
    cases h
    exact Nat.le_refl _

/-- Method `PushToDevice` does not touch the FIFO or its counter, whatever the device does. -/
theorem PushToDevice_buffer (reply : DeviceReply) (alloc : Allocator) (chunk : DspChunk)
    (filled : Option Bool) (dev : AudioDevice) :
    (dev.PushToDevice reply alloc chunk filled).device.m_buffer = dev.m_buffer ∧
    (dev.PushToDevice reply alloc chunk filled).device.m_bufferFrameCount =
      dev.m_bufferFrameCount ∧
    (dev.PushToDevice reply alloc chunk filled).device.m_backend = dev.m_backend := by
  simp only [AudioDevice.PushToDevice]
  repeat' split
  all_goals exact ⟨rfl, rfl, rfl⟩

/-- When `PushToDevice` returns normally the chunk has no more frames than before. -/
theorem PushToDevice_frames (reply : DeviceReply) (alloc : Allocator) (chunk : DspChunk)
    (filled : Option Bool) (dev : AudioDevice)
    (h : (dev.PushToDevice reply alloc chunk filled).thrown = none) :
    (dev.PushToDevice reply alloc chunk filled).chunk.GetFrameCount ≤ chunk.GetFrameCount := by
  revert h
  simp only [AudioDevice.PushToDevice]
  repeat' split
  all_goals intro h
  all_goals try cases h
  all_goals first
    | exact Nat.le_refl _
    | (rename_i _ c1 data hgd _ _ _ c2 hsh _
       exact le_trans (ShrinkHead_frames _ _ _ _ hsh) (le_of_eq (GetData_frames _ _ _ _ hgd)))


theorem GetPosition_buffer (clock : ClockReply) (dev : AudioDevice) :
    (dev.GetPosition clock).2.m_buffer = dev.m_buffer ∧
    (dev.GetPosition clock).2.m_bufferFrameCount = dev.m_bufferFrameCount ∧
    (dev.GetPosition clock).2.m_backend = dev.m_backend := by
  simp only [AudioDevice.GetPosition]
  repeat' split
  all_goals exact ⟨rfl, rfl, rfl⟩

theorem PushSilenceToDevice_buffer (reply : DeviceReply) (frames : Nat) (dev : AudioDevice) :
    (dev.PushSilenceToDevice reply frames).2.m_buffer = dev.m_buffer ∧
    (dev.PushSilenceToDevice reply frames).2.m_bufferFrameCount = dev.m_bufferFrameCount ∧
    (dev.PushSilenceToDevice reply frames).2.m_backend = dev.m_backend := by
  simp only [AudioDevice.PushSilenceToDevice]
  repeat' split
  all_goals exact ⟨rfl, rfl, rfl⟩

/-- The silence branch does not touch the FIFO or its counter, whatever the device does. -/
theorem silence_buffer (env : FeedEnv) (dev : AudioDevice) :
    (AudioDevice.RealtimeFeed.silence env dev).2.m_buffer = dev.m_buffer ∧
    (AudioDevice.RealtimeFeed.silence env dev).2.m_bufferFrameCount = dev.m_bufferFrameCount ∧
    (AudioDevice.RealtimeFeed.silence env dev).2.m_backend = dev.m_backend := by
  have hg := GetPosition_buffer env.clock dev
  simp only [AudioDevice.RealtimeFeed.silence]
  generalize dev.GetPosition env.clock = gp at hg
  obtain ⟨res, dev1⟩ := gp
  cases res with
  | error e => exact hg
  | ok position =>
    simp only at hg ⊢
    split
    · generalize toUInt32 (llMulDiv _ _ _ _) = frames
      have hs := PushSilenceToDevice_buffer env.device frames dev1
      generalize dev1.PushSilenceToDevice env.device frames = ps at hs
      obtain ⟨res2, dev2⟩ := ps
      cases res2 with
      | error e => exact ⟨hs.1.trans hg.1, hs.2.1.trans hg.2.1, hs.2.2.trans hg.2.2⟩
      | ok n => exact ⟨hs.1.trans hg.1, hs.2.1.trans hg.2.1, hs.2.2.trans hg.2.2⟩
    · exact hg

theorem subSize_of_le (a b : Nat) (h : b ≤ a) (ha : a < 2 ^ 64) : subSize a b = a - b := by
  unfold subSize
  omega

theorem bound_accept (count n held rate : Nat) (h1 : count ≤ rate / 3) (hr : rate < 2 ^ 32)
    (hn : n < 2 ^ 62) (hp : held < 2 ^ 62) :
    count + n < 2 ^ 64 ∧ count + n + held < 2 ^ 32 + 2 ^ 63 := by
  omega

theorem bound_reinsert (count held : Nat) (h : count + held < 2 ^ 32 + 2 ^ 63) :
    count + held < 2 ^ 64 := by
  omega

/-- The invariant of the buffer lock only looks at the device record, the FIFO, its counter,
and the frames the thread holds. -/
theorem LockInv_of_fields (backend : AudioDeviceBackend) (pc pc1 : FeedPc)
    (dev dev1 : AudioDevice) (hinv : LockInv backend (pc, dev))
    (h1 : dev1.m_buffer = dev.m_buffer) (h2 : dev1.m_bufferFrameCount = dev.m_bufferFrameCount)
    (h3 : dev1.m_backend = dev.m_backend) (h4 : pc1.frames ≤ pc.frames) :
    LockInv backend (pc1, dev1) := by
  obtain ⟨k1, ⟨k2, k3⟩, k4, k5, k6⟩ := hinv
  simp only at k1 k2 k3 k4 k5 k6
  refine ⟨h3.trans k1, ⟨?_, ?_⟩, ?_, lt_of_le_of_lt h4 k5, ?_⟩
  · simp only [h1, h2]; exact k2
  · simp only [h1]; exact k3
  · simp only [h1]; exact k4
  · simp only [h2]
    exact lt_of_le_of_lt (Nat.add_le_add_left h4 _) k6

theorem handle_ok (e : Thrown) (dev : AudioDevice) (s1 : FeedPc × AudioDevice)
    (h : AudioDevice.RealtimeFeed.handle e dev = Except.ok s1) :
    s1 = (FeedPc.exited, { dev with m_exit := true }) := by
  cases e <;> simp only [AudioDevice.RealtimeFeed.handle] at h
  · cases h
  · cases h; rfl
  · cases h; rfl


/-- A push whose node is allocated keeps the invariant of the buffer lock. -/
theorem LockInv_push (backend : AudioDeviceBackend) (pc : FeedPc) (dev : AudioDevice)
    (chunk : DspChunk) (hrate : backend.waveFormat.nSamplesPerSec < 2 ^ 32)
    (hn : chunk.GetFrameCount < 2 ^ 62) (hinv : LockInv backend (pc, dev)) :
    LockInv backend (pc, (dev.PushToBuffer true chunk).2.2) := by
  by_cases h1 : dev.m_exit = true
  · have hev : dev.PushToBuffer true chunk = (some (Thrown.hresult E_FAIL), chunk, dev) := by
      simp only [AudioDevice.PushToBuffer, h1, if_true]
    rw [hev]; exact hinv
  · have h1f : dev.m_exit = false := Bool.eq_false_iff.mpr h1
    by_cases h2 : chunk.IsEmpty = true
    · have hev : dev.PushToBuffer true chunk = (none, chunk, dev) := by
        simp only [AudioDevice.PushToBuffer, h1f, h2, Bool.false_eq_true, if_true, if_false]
      rw [hev]; exact hinv
    · have h2f : chunk.IsEmpty = false := Bool.eq_false_iff.mpr h2
      by_cases h3 : dev.m_bufferFrameCount > dev.m_backend.waveFormat.nSamplesPerSec / 3
      · have hev : dev.PushToBuffer true chunk = (none, chunk, dev) := by
          simp only [AudioDevice.PushToBuffer, h1f, h2f, Bool.false_eq_true, if_false,
            if_pos h3]
        rw [hev]; exact hinv
      · have hev : dev.PushToBuffer true chunk =
            (none, (DspChunk.ctorMove chunk).2,
              { dev with
                m_bufferFrameCount := addSize dev.m_bufferFrameCount chunk.GetFrameCount
                m_buffer := dev.m_buffer ++ [chunk] }) := by
          simp only [AudioDevice.PushToBuffer, h1f, h2f, Bool.false_eq_true, if_false,
            if_neg h3, if_true, ctorMove_fst]
        rw [hev]
        obtain ⟨k1, ⟨k2, k3⟩, k4, k5, k6⟩ := hinv
        simp only at k1 k2 k3 k4 k5 k6
        rw [k1] at h3
        obtain ⟨b1, b2⟩ := bound_accept _ _ _ _ (Nat.not_lt.mp h3) hrate hn k5
        have hadd := addSize_of_lt _ _ b1
        refine ⟨k1, ⟨?_, ?_⟩, ?_, k5, ?_⟩
        · simp only [List.map_append, List.sum_append, List.map_cons, List.map_nil,
            List.sum_cons, List.sum_nil, Nat.add_zero]
          rw [hadd, ← k2]
        · intro c hc
          rcases List.mem_append.mp hc with h | h
          · exact k3 c h
          · rw [List.mem_singleton.mp h]; exact h2f
        · intro c hc
          rcases List.mem_append.mp hc with h | h
          · exact k4 c h
          · rw [List.mem_singleton.mp h]; exact hn
        · simp only
          rw [hadd]
          exact b2

/-- A step of the feeding thread in which the FIFO gets its node keeps the invariant of the
buffer lock, whatever the device does. -/
theorem LockInv_feed (backend : AudioDeviceBackend) (pc : FeedPc) (dev : AudioDevice)
    (env : FeedEnv) (s1 : FeedPc × AudioDevice) (hdq : env.dequeAlloc = true)
    (hinv : LockInv backend (pc, dev))
    (hstep : AudioDevice.RealtimeFeed.step env pc dev = Except.ok s1) :
    LockInv backend s1 := by
  cases pc with
  | exited =>
    simp only [AudioDevice.RealtimeFeed.step] at hstep
    cases hstep
    exact hinv
  | top =>
    simp only [AudioDevice.RealtimeFeed.step] at hstep
    by_cases hexit : dev.m_exit = true
    · simp only [hexit, if_true] at hstep
      cases hstep
      exact LockInv_of_fields backend _ _ dev dev hinv rfl rfl rfl (Nat.le_refl _)
    · simp only [hexit, if_false] at hstep
      cases hstep
      obtain ⟨k1, ⟨k2, k3⟩, k4, k5, k6⟩ := hinv
      simp only [FeedPc.frames, Nat.add_zero] at k1 k2 k3 k4 k5 k6
      cases hm : dev.m_buffer with
      | nil =>
        simp only [AudioDevice.RealtimeFeed.pop, hm]
        refine ⟨k1, ⟨k2, k3⟩, k4, ?_, ?_⟩
        · exact k5
        · exact k6
      | cons front rest =>
        simp only [AudioDevice.RealtimeFeed.pop, hm, assignMove_fst]
        rw [hm] at k2 k3 k4
        simp only [List.map_cons, List.sum_cons] at k2
        have hle : front.GetFrameCount ≤ dev.m_bufferFrameCount := by
          rw [k2]; exact Nat.le_add_right _ _
        have hsub : subSize dev.m_bufferFrameCount front.GetFrameCount =
            (rest.map DspChunk.GetFrameCount).sum := by
          rw [subSize_of_le _ _ hle (bound_reinsert _ 0 (by simpa using k6)), k2]
          exact Nat.add_sub_cancel_left _ _
        refine ⟨k1, ⟨hsub, fun c hc => k3 c (List.mem_cons_of_mem _ hc)⟩,
          fun c hc => k4 c (List.mem_cons_of_mem _ hc), k4 front (List.mem_cons_self _ _), ?_⟩
        simp only [FeedPc.frames]
        rw [hsub, Nat.add_comm, ← k2]
        exact k6
  | popped chunk =>
    simp only [AudioDevice.RealtimeFeed.step] at hstep
    by_cases hempty : chunk.IsEmpty = true
    · simp only [hempty, if_true] at hstep
      obtain ⟨g1, g2, g3⟩ := silence_buffer env dev
      generalize AudioDevice.RealtimeFeed.silence env dev = res at hstep g1 g2 g3
      obtain ⟨r, dev1⟩ := res
      cases r with
      | error e =>
        simp only at hstep
        rw [handle_ok e dev1 s1 hstep]
        exact LockInv_of_fields backend _ _ dev _ hinv g1 g2 g3 (Nat.zero_le _)
      | ok u =>
        simp only at hstep
        cases hstep
        exact LockInv_of_fields backend _ _ dev _ hinv g1 g2 g3 (Nat.zero_le _)
    · simp only [hempty, if_false] at hstep
      obtain ⟨g1, g2, g3⟩ := PushToDevice_buffer env.device env.alloc chunk none dev
      have g4 := PushToDevice_frames env.device env.alloc chunk none dev
      generalize dev.PushToDevice env.device env.alloc chunk none = out at hstep g1 g2 g3 g4
      cases ht : out.thrown with
      | some e =>
        simp only [ht] at hstep
        rw [handle_ok e _ s1 hstep]
        exact LockInv_of_fields backend _ _ dev _ hinv g1 g2 g3 (Nat.zero_le _)
      | none =>
        simp only [ht] at hstep
        cases hstep
        exact LockInv_of_fields backend _ _ dev _ hinv g1 g2 g3 (g4 ht)
  | written chunk =>
    simp only [AudioDevice.RealtimeFeed.step, AudioDevice.RealtimeFeed.reinsert, hdq,
      if_true] at hstep
    by_cases hempty : chunk.IsEmpty = true
    · simp only [hempty, if_true] at hstep
      cases hstep
      exact LockInv_of_fields backend _ _ dev dev hinv rfl rfl rfl (Nat.zero_le _)
    · simp only [hempty, if_false, ctorMove_fst] at hstep
      cases hstep
      obtain ⟨k1, ⟨k2, k3⟩, k4, k5, k6⟩ := hinv
      simp only [FeedPc.frames] at k1 k2 k3 k4 k5 k6
      have hadd := addSize_of_lt _ _ (bound_reinsert _ _ k6)
      refine ⟨k1, ⟨?_, ?_⟩, ?_, ?_, ?_⟩
      · simp only [List.map_cons, List.sum_cons]
        rw [hadd, k2, Nat.add_comm]
      · intro c hc
        rcases List.mem_cons.mp hc with h | h
        · rw [h]; exact Bool.eq_false_iff.mpr hempty
        · exact k3 c h
      · intro c hc
        rcases List.mem_cons.mp hc with h | h
        · rw [h]; exact k5
        · exact k4 c h
      · simp only [FeedPc.frames]
        exact Nat.two_pow_pos 62
      · simp only [FeedPc.frames, Nat.add_zero]
        rw [hadd]
        exact k6

/-- Method `Reset` on a real-time-feed device keeps the invariant of the buffer lock. -/
theorem LockInv_reset (backend : AudioDeviceBackend) (pc : FeedPc) (dev : AudioDevice)
    (hrt : backend.realtime = true) (hinv : LockInv backend (pc, dev)) :
    LockInv backend (pc, dev.Reset) := by
  obtain ⟨k1, _, _, k5, _⟩ := hinv
  simp only at k1 k5
  have hr : dev.m_backend.realtime = true := by rw [k1]; exact hrt
  simp only [AudioDevice.Reset, hr, if_true]
  refine ⟨k1, ⟨rfl, fun c hc => (by cases hc)⟩, fun c hc => (by cases hc), k5, ?_⟩
  simp only [Nat.zero_add]
  exact lt_of_lt_of_le k5 (by norm_num)


/-- A run in which the FIFO always gets its node keeps the invariant of the buffer lock. -/
theorem LockInv_run (backend : AudioDeviceBackend) (events : List LockEvent)
    (s : FeedPc × AudioDevice) (hrt : backend.realtime = true)
    (hrate : backend.waveFormat.nSamplesPerSec < 2 ^ 32)
    (hserved : ∀ e ∈ events, e.Served) (hinv : LockInv backend s) :
    LockInv backend (LockEvent.run events s).2 := by
  induction events generalizing s with
  | nil => exact hinv
  | cons e es ih =>
    have he : e.Served := hserved e (List.mem_cons_self _ _)
    have hes : ∀ e1 ∈ es, e1.Served := fun e1 h => hserved e1 (List.mem_cons_of_mem _ h)
    obtain ⟨pc, dev⟩ := s
    simp only [LockEvent.run]
    cases e with
    | push chunk dequeAlloc =>
      obtain ⟨hdq, hn⟩ := he
      subst hdq
      simp only [LockEvent.step]
      exact ih _ hes (LockInv_push backend pc dev chunk hrate hn hinv)
    | feed env =>
      simp only [LockEvent.step]
      cases hstep : AudioDevice.RealtimeFeed.step env pc dev with
      | error t => exact hinv
      | ok s1 => exact ih _ hes (LockInv_feed backend pc dev env s1 he hinv hstep)
    | reset =>
      simp only [LockEvent.step]
      exact ih _ hes (LockInv_reset backend pc dev hrt hinv)

/-- C21 (the claim as stated fails). A push into the empty FIFO of a fresh device whose node
allocation fails leaves, when the buffer lock is released, the buffered-frame counter at the
two frames of the chunk with nothing in the FIFO, and the exit flag set. -/
theorem PushToBuffer_failed_node_counter :
    (LockEvent.run [LockEvent.push (Example.chunk [1, 2, 3, 4]) false]
      (FeedPc.top, (FeedSystem.init (Example.backend 48000)).device)).2.2.m_bufferFrameCount = 2 ∧
    (LockEvent.run [LockEvent.push (Example.chunk [1, 2, 3, 4]) false]
      (FeedPc.top, (FeedSystem.init (Example.backend 48000)).device)).2.2.m_buffer = [] ∧
    (LockEvent.run [LockEvent.push (Example.chunk [1, 2, 3, 4]) false]
      (FeedPc.top, (FeedSystem.init (Example.backend 48000)).device)).2.2.m_exit = true ∧
    ¬ (LockEvent.run [LockEvent.push (Example.chunk [1, 2, 3, 4]) false]
      (FeedPc.top, (FeedSystem.init (Example.backend 48000)).device)).2.2.BufferConsistent :=
  ⟨rfl, rfl, rfl, fun h => absurd h.1 (by decide)⟩

/-- C21 (amended). For a real-time-feed device with a sample rate below `2 ^ 32`, from its
construction on, and every sequence of `PushToBuffer` calls (of chunks with fewer than
`2 ^ 62` frames), steps of the feeding thread and `Reset` calls in which the FIFO gets every
node it asks for, whatever the device answers: after each of them, that is at every point
where the buffer lock is released, the buffered-frame counter equals the sum of the frame
counts of the chunks in the FIFO, and the FIFO contains no empty chunk. -/
theorem buffer_counter_invariant (backend : AudioDeviceBackend) (events : List LockEvent)
    (hrt : backend.realtime = true) (hrate : backend.waveFormat.nSamplesPerSec < 2 ^ 32)
    (hserved : ∀ e ∈ events, e.Served) :
    (LockEvent.run events
      (FeedPc.top, (FeedSystem.init backend).device)).2.2.m_bufferFrameCount =
      ((LockEvent.run events
        (FeedPc.top, (FeedSystem.init backend).device)).2.2.m_buffer.map
          DspChunk.GetFrameCount).sum ∧
    ∀ c ∈ (LockEvent.run events
        (FeedPc.top, (FeedSystem.init backend).device)).2.2.m_buffer, c.IsEmpty = false := by
  have hinit : LockInv backend (FeedPc.top, (FeedSystem.init backend).device) :=
    ⟨rfl, ⟨rfl, fun c hc => (by cases hc)⟩, fun c hc => (by cases hc), Nat.two_pow_pos 62,
      by norm_num [FeedSystem.init, FeedPc.frames]⟩
  exact (LockInv_run backend events _ hrt hrate hserved hinit).2.1

/-- Witness for `buffer_counter_invariant`: a chunk of four frames is accepted and popped, a
second one is accepted while the thread holds the first, the thread writes one frame and puts
three back, and a chunk of one frame is accepted after a `Reset`. -/
theorem buffer_counter_invariant_witness :
    ((LockEvent.run
        [LockEvent.push (Example.chunk [1, 2, 3, 4, 5, 6, 7, 8]) true,
          LockEvent.feed (Example.env 8 7),
          LockEvent.push (Example.chunk [9, 10, 11, 12, 13, 14, 15, 16]) true,
          LockEvent.feed (Example.env 8 7),
          LockEvent.feed (Example.env 8 7)]
        (FeedPc.top, (FeedSystem.init (Example.backend 48000)).device)).2.2.m_bufferFrameCount,
      (LockEvent.run
        [LockEvent.push (Example.chunk [1, 2, 3, 4, 5, 6, 7, 8]) true,
          LockEvent.feed (Example.env 8 7),
          LockEvent.push (Example.chunk [9, 10, 11, 12, 13, 14, 15, 16]) true,
          LockEvent.feed (Example.env 8 7),
          LockEvent.feed (Example.env 8 7)]
        (FeedPc.top, (FeedSystem.init (Example.backend 48000)).device)).2.2.m_buffer.map
          DspChunk.GetFrameCount) = (7, [3, 4]) ∧
    (LockEvent.run
        [LockEvent.push (Example.chunk [1, 2, 3, 4, 5, 6, 7, 8]) true,
          LockEvent.feed (Example.env 8 7),
          LockEvent.push (Example.chunk [9, 10, 11, 12, 13, 14, 15, 16]) true,
          LockEvent.feed (Example.env 8 7),
          LockEvent.feed (Example.env 8 7),
          LockEvent.reset,
          LockEvent.push (Example.chunk [17, 18]) true]
        (FeedPc.top, (FeedSystem.init (Example.backend 48000)).device)).2.2.m_bufferFrameCount =
      ((LockEvent.run
        [LockEvent.push (Example.chunk [1, 2, 3, 4, 5, 6, 7, 8]) true,
          LockEvent.feed (Example.env 8 7),
          LockEvent.push (Example.chunk [9, 10, 11, 12, 13, 14, 15, 16]) true,
          LockEvent.feed (Example.env 8 7),
          LockEvent.feed (Example.env 8 7),
          LockEvent.reset,
          LockEvent.push (Example.chunk [17, 18]) true]
        (FeedPc.top, (FeedSystem.init (Example.backend 48000)).device)).2.2.m_buffer.map
          DspChunk.GetFrameCount).sum :=
  ⟨rfl,
   (buffer_counter_invariant (Example.backend 48000)
    [LockEvent.push (Example.chunk [1, 2, 3, 4, 5, 6, 7, 8]) true,
      LockEvent.feed (Example.env 8 7),
      LockEvent.push (Example.chunk [9, 10, 11, 12, 13, 14, 15, 16]) true,
      LockEvent.feed (Example.env 8 7),
      LockEvent.feed (Example.env 8 7),
      LockEvent.reset,
      LockEvent.push (Example.chunk [17, 18]) true] rfl (by decide)
    (by
      intro e he
      simp only [List.mem_cons, List.mem_singleton, List.not_mem_nil, or_false] at he
      rcases he with rfl | rfl | rfl | rfl | rfl | rfl | rfl
      · exact ⟨rfl, by decide⟩
      · exact rfl
      · exact ⟨rfl, by decide⟩
      · exact rfl
      · exact rfl
      · exact trivial
      · exact ⟨rfl, by decide⟩)).1⟩

end SaneAudioRenderer
